import Mathlib

/-!
bitbucket-pool-manager: the name codec, the operator and the HTTP handlers.

A shallow embedding of `internal/constants`, `internal/docker`,
`internal/operator` and `internal/handler`.

Go strings are modelled as lists of characters (`Str`).  Every pattern the
program searches for is ASCII, so searching by character and searching by byte
agree on well-formed UTF-8 text.
-/

namespace PoolManager

/-- Go `string`, as the list of its characters. -/
abbrev Str := List Char

/-! ## package strings / strconv (the functions the program calls) -/

/-- First occurrence of `sep` in the text: the text before it and the text
after it (Go `strings.Cut`, i.e. `strings.Index` followed by the two slices). -/
def cut (sep : Str) : Str → Option (Str × Str)
  | [] => if sep = [] then some ([], []) else none
  | c :: cs =>
    if sep.isPrefixOf (c :: cs) then some ([], (c :: cs).drop sep.length)
    else (cut sep cs).map (fun r => (c :: r.1, r.2))

/-- Go `strings.Contains(s, substr)`. -/
def Contains (s substr : Str) : Bool := (cut substr s).isSome

/-- Loop of `strings.Replace` for a non-empty `old`: at most `k`
replacements, left to right, without overlap. -/
def replaceLoop (old new : Str) : Nat → Str → Str
  | 0, s => s
  | k + 1, s =>
    match cut old s with
    | none => s
    | some (before, after) => before ++ new ++ replaceLoop old new k after

/-- Go `strings.Replace(s, old, new, n)`; a negative `n` lifts the limit.  A
non-empty `old` occurs at most `len(s)` times, so `len(s)` rounds replace them
all.  Every call site passes a non-empty `old`. -/
def Replace (s old new : Str) (n : Int) : Str :=
  if old = new ∨ n = 0 then s
  else replaceLoop old new (if n < 0 then s.length else n.toNat) s

/-- Loop of `strings.Split` for a non-empty separator. -/
def splitLoop (sep : Str) : Nat → Str → List Str
  | 0, s => [s]
  | k + 1, s =>
    match cut sep s with
    | none => [s]
    | some (before, after) => before :: splitLoop sep k after

/-- Go `strings.Split(s, sep)` for a non-empty `sep` (the program splits on
`"---"` only): one more piece than there are separators, so never empty. -/
def Split (s sep : Str) : List Str := splitLoop sep s.length s

/-- Go `unicode.IsSpace`. -/
def isSpace (c : Char) : Bool :=
  let n := c.toNat
  n == 0x20 || (0x09 ≤ n && n ≤ 0x0d) || n == 0x85 || n == 0xa0 || n == 0x1680 ||
  (0x2000 ≤ n && n ≤ 0x200a) || n == 0x2028 || n == 0x2029 || n == 0x202f ||
  n == 0x205f || n == 0x3000

/-- Go `strings.TrimSpace`. -/
def TrimSpace (s : Str) : Str :=
  ((s.dropWhile isSpace).reverse.dropWhile isSpace).reverse

/-- Decimal digit `d` as a character. -/
def digitChar (d : Nat) : Char :=
  match d with
  | 0 => '0' | 1 => '1' | 2 => '2' | 3 => '3' | 4 => '4'
  | 5 => '5' | 6 => '6' | 7 => '7' | 8 => '8' | _ => '9'

/-- Digits of `n`, most significant first, pushed in front of `acc`. -/
def itoaLoop : Nat → Nat → Str → Str
  | 0, _, acc => acc
  | fuel + 1, n, acc =>
    if n < 10 then digitChar n :: acc
    else itoaLoop fuel (n / 10) (digitChar (n % 10) :: acc)

/-- Go `strconv.Itoa` on a non-negative `int`.  A 64-bit `int` has at most 19
digits, so 20 rounds print every value the program can hold. -/
def Itoa (n : Nat) : Str := itoaLoop 20 n []

/-! ## Errors (`errors`, `karma-go`) -/

/-- Go error value.  `karma.Format(err, message)` keeps the reason it wraps;
`formatNil` is `karma.Format(nil, message)`, a non-nil error without a reason;
`karma.Describe(key, value).Reason(err)` adds a context pair. -/
inductive Err where
  | msg (text : Str)
  | format (reason : Err) (message : Str)
  | formatNil (message : Str)
  | describe (key value : Str) (reason : Err)
deriving DecidableEq, Repr

/-- Result of running Go code: a value, a returned `error`, a run-time panic,
or `pending` when a polling loop was still running at the end of its budget. -/
inductive Outcome (α : Type) where
  | ok (a : α)
  | error (e : Err)
  | panic (text : Str)
  | pending
deriving DecidableEq, Repr

/-! ## package time (the part `TIME_FORMAT` exercises) -/

/-- Wall-clock reading of a Go `time.Time`.  `time.Parse` yields the reading
in UTC, and two parsed values compare as their readings do. -/
structure Time where
  year : Nat
  month : Nat
  day : Nat
  hour : Nat
  min : Nat
  sec : Nat
  nsec : Nat
deriving DecidableEq, Repr

def isLeap (year : Nat) : Bool :=
  year % 4 == 0 && (year % 100 != 0 || year % 400 == 0)

/-- Go `daysIn(month, year)`. -/
def daysIn (month year : Nat) : Nat :=
  if month = 2 then (if isLeap year then 29 else 28)
  else if month = 4 ∨ month = 6 ∨ month = 9 ∨ month = 11 then 30
  else 31

/-- A reading a clock can show. -/
def Time.valid (t : Time) : Bool :=
  decide (1 ≤ t.month) && decide (t.month ≤ 12) && decide (1 ≤ t.day) &&
  decide (t.day ≤ daysIn t.month t.year) && decide (t.hour < 24) &&
  decide (t.min < 60) && decide (t.sec < 60) && decide (t.nsec < 1000000000)

/-- Go `u.After(t)`: `u` is strictly later than `t`. -/
def Time.After (u t : Time) : Bool :=
  decide (t.year < u.year) || (t.year == u.year &&
  (decide (t.month < u.month) || (t.month == u.month &&
  (decide (t.day < u.day) || (t.day == u.day &&
  (decide (t.hour < u.hour) || (t.hour == u.hour &&
  (decide (t.min < u.min) || (t.min == u.min &&
  (decide (t.sec < u.sec) || (t.sec == u.sec &&
  decide (t.nsec < u.nsec))))))))))))

/-- The day after. -/
def Time.nextDay (t : Time) : Time :=
  if t.day < daysIn t.month t.year then { t with day := t.day + 1 }
  else if t.month < 12 then { t with month := t.month + 1, day := 1 }
  else { t with year := t.year + 1, month := 1, day := 1 }

/-- Go `t.Add(d)` for a non-negative duration of `d` nanoseconds, in a zone
whose offset does not change between `t` and `t + d`. -/
def Time.Add (t : Time) (d : Nat) : Time :=
  let ns := t.nsec + d
  let s := t.sec + ns / 1000000000
  let m := t.min + s / 60
  let h := t.hour + m / 60
  Nat.iterate Time.nextDay (h / 24)
    { t with hour := h % 24, min := m % 60, sec := s % 60, nsec := ns % 1000000000 }

/-- Go `t.Truncate(time.Second)` on a reading. -/
def Time.truncSecond (t : Time) : Time := { t with nsec := 0 }

/-- Element of a layout string, as `nextStdChunk` cuts it.  `other` stands
for the elements of the reference time that `TIME_FORMAT` does not use. -/
inductive Chunk where
  | lit (c : Char)
  | stdLongYear
  | stdMonth
  | stdDay
  | stdHour
  | stdZeroMinute
  | other (text : Str)
deriving DecidableEq, Repr

def startsWithLowerCase (s : Str) : Bool :=
  match s with
  | [] => false
  | c :: _ => decide ('a' ≤ c) && decide (c ≤ 'z')

/-- Layout element starting at the head of the layout, with its length. -/
def stdAt (l : Str) : Option (Chunk × Nat) :=
  let pre (p : String) : Bool := p.toList.isPrefixOf l
  let other (p : String) : Option (Chunk × Nat) := some (Chunk.other p.toList, p.length)
  if pre "January" then other "January"
  else if pre "Jan" then
    (if startsWithLowerCase (l.drop 3) then none else some (Chunk.stdMonth, 3))
  else if pre "Monday" then other "Monday"
  else if pre "Mon" then (if startsWithLowerCase (l.drop 3) then none else other "Mon")
  else if pre "MST" then other "MST"
  else if pre "002" then other "002"
  else if pre "01" then other "01"
  else if pre "02" then other "02"
  else if pre "03" then other "03"
  else if pre "04" then some (Chunk.stdZeroMinute, 2)
  else if pre "05" then other "05"
  else if pre "06" then other "06"
  else if pre "15" then some (Chunk.stdHour, 2)
  else if pre "1" then other "1"
  else if pre "2006" then some (Chunk.stdLongYear, 4)
  else if pre "2" then some (Chunk.stdDay, 1)
  else if pre "_2006" then none
  else if pre "__2" then other "__2"
  else if pre "_2" then other "_2"
  else if pre "3" then other "3"
  else if pre "4" then other "4"
  else if pre "5" then other "5"
  else if pre "PM" then other "PM"
  else if pre "pm" then other "pm"
  else if pre "-070000" then other "-070000"
  else if pre "-07:00:00" then other "-07:00:00"
  else if pre "-0700" then other "-0700"
  else if pre "-07:00" then other "-07:00"
  else if pre "-07" then other "-07"
  else if pre "Z070000" then other "Z070000"
  else if pre "Z07:00:00" then other "Z07:00:00"
  else if pre "Z0700" then other "Z0700"
  else if pre "Z07:00" then other "Z07:00"
  else if pre "Z07" then other "Z07"
  else if pre ".0" || pre ".9" || pre ",0" || pre ",9" then other ".0"
  else none

/-- Cut a layout into its elements; `skip` characters belong to the element
found last. -/
def chunksLoop : Nat → Str → List Chunk
  | _, [] => []
  | skip + 1, _ :: cs => chunksLoop skip cs
  | 0, c :: cs =>
    match stdAt (c :: cs) with
    | some (k, len) => k :: chunksLoop (len - 1) cs
    | none => Chunk.lit c :: chunksLoop 0 cs

/-- Elements of a layout, in order (repeated `nextStdChunk`). -/
def layoutChunks (layout : Str) : List Chunk := chunksLoop 0 layout

/-- Go `longMonthNames`. -/
def longMonthNames : List String :=
  ["January", "February", "March", "April", "May", "June", "July", "August",
   "September", "October", "November", "December"]

/-- Go `month.String()[:3]`, the text of a `Jan` element. -/
def shortMonthName (month : Nat) : Str :=
  ((longMonthNames.getD (month - 1) "").toList).take 3

/-- Go `appendInt(b, x, width)` for `x ≥ 0`: decimal, zero-padded to `width`. -/
def appendInt (x width : Nat) : Str :=
  List.replicate (width - (Itoa x).length) '0' ++ Itoa x

def formatChunk (t : Time) : Chunk → Str
  | Chunk.lit c => [c]
  | Chunk.stdLongYear => appendInt t.year 4
  | Chunk.stdMonth => shortMonthName t.month
  | Chunk.stdDay => appendInt t.day 0
  | Chunk.stdHour => appendInt t.hour 2
  | Chunk.stdZeroMinute => appendInt t.min 2
  | Chunk.other text => text

/-- Go `t.Format(layout)`, for layouts made of the elements above. -/
def Time.Format (t : Time) (layout : Str) : Str :=
  (layoutChunks layout).flatMap (formatChunk t)

def isDigit (c : Char) : Bool := decide ('0' ≤ c) && decide (c ≤ '9')

def digitVal (c : Char) : Nat := c.toNat - 48

/-- Go `getnum(s, fixed)`: one or two leading digits (exactly two when
`fixed`), with the text after them. -/
def getnum (s : Str) (fixed : Bool) : Option (Nat × Str) :=
  match s with
  | [] => none
  | [a] => if isDigit a && !fixed then some (digitVal a, []) else none
  | a :: b :: rest =>
    if !isDigit a then none
    else if !isDigit b then (if fixed then none else some (digitVal a, b :: rest))
    else some (digitVal a * 10 + digitVal b, rest)

/-- Go `atoi` on a text whose first character is a digit: all of it must be
digits. -/
def atoiDigits (s : Str) : Option Nat :=
  if s.all isDigit then some (s.foldl (fun acc c => acc * 10 + digitVal c) 0) else none

/-- Go `match(s1, s2)` of package time: equal up to ASCII letter case. -/
def matchFold : Str → Str → Bool
  | [], _ => true
  | _ :: _, [] => false
  | c1 :: s1, c2 :: s2 =>
    (c1 == c2 ||
      (c1.toNat ||| 32 == c2.toNat ||| 32 && decide (97 ≤ c1.toNat ||| 32) &&
        decide (c1.toNat ||| 32 ≤ 122))) && matchFold s1 s2

/-- Go `lookup(shortMonthNames, val)`: number (from 1) of the first month whose
three-letter name starts the text, with the text after it. -/
def lookupMonth (val : Str) : Option (Nat × Str) :=
  let rec go : List String → Nat → Option (Nat × Str)
    | [], _ => none
    | name :: names, i =>
      if decide (3 ≤ val.length) && matchFold (val.take 3) (name.toList.take 3)
      then some (i, val.drop 3) else go names (i + 1)
  go longMonthNames 1

/-- Fields collected by `time.Parse`. -/
structure Fields where
  year : Nat := 0
  month : Option Nat := none
  day : Option Nat := none
  hour : Nat := 0
  min : Nat := 0
deriving DecidableEq, Repr

/-- Text of a `ParseError`. -/
def parseError (what : String) : Err := Err.msg ("parsing time: " ++ what).toList

/-- Loop of Go `time.Parse`: consume the value element by element.  A
literal must be matched exactly (the layout of this program has no space,
which Go would match against any run of spaces); at the end of the layout
nothing may be left. -/
def parseLoop : List Chunk → Str → Fields → Except Err Fields
  | [], value, f => if value = [] then Except.ok f else Except.error (parseError "extra text")
  | Chunk.lit c :: cs, value, f =>
    match value with
    | v :: vs => if v = c then parseLoop cs vs f else Except.error (parseError "bad value")
    | [] => Except.error (parseError "bad value")
  | Chunk.stdLongYear :: cs, value, f =>
    if value.length < 4 || !(value.head?.any isDigit) then Except.error (parseError "bad value")
    else match atoiDigits (value.take 4) with
      | some y => parseLoop cs (value.drop 4) { f with year := y }
      | none => Except.error (parseError "bad value")
  | Chunk.stdMonth :: cs, value, f =>
    match lookupMonth value with
    | some (m, rest) => parseLoop cs rest { f with month := some m }
    | none => Except.error (parseError "bad month")
  | Chunk.stdDay :: cs, value, f =>
    match getnum value false with
    | some (d, rest) => parseLoop cs rest { f with day := some d }
    | none => Except.error (parseError "bad value")
  | Chunk.stdHour :: cs, value, f =>
    match getnum value false with
    | some (h, rest) =>
      if 24 ≤ h then Except.error (parseError "hour out of range")
      else parseLoop cs rest { f with hour := h }
    | none => Except.error (parseError "bad value")
  | Chunk.stdZeroMinute :: cs, value, f =>
    match getnum value true with
    | some (m, rest) =>
      if 60 ≤ m then Except.error (parseError "minute out of range")
      else parseLoop cs rest { f with min := m }
    | none => Except.error (parseError "bad value")
  | Chunk.other _ :: _, _, _ => Except.error (parseError "layout element not modelled")

/-- Go `time.Parse(layout, value)`: the elements are read in order, then the
day is checked against the month; a layout without a seconds element leaves
the seconds at zero. -/
def Parse (layout value : Str) : Except Err Time :=
  match parseLoop (layoutChunks layout) value {} with
  | Except.error e => Except.error e
  | Except.ok f =>
    let month := f.month.getD 1
    let day := f.day.getD 1
    if day < 1 || day > daysIn month f.year then Except.error (parseError "day out of range")
    else Except.ok { year := f.year, month := month, day := day, hour := f.hour,
                     min := f.min, sec := 0, nsec := 0 }

/-! ## internal/constants -/

def BITBUCKET_IMAGE : Str := "atlassian/bitbucket-server".toList
def MAX_NUMBER_OF_CONTAINERS : Nat := 6
def INITIAL_NUMBER_OF_CONTAINERS : Nat := 2
/-- One hour (`1 * time.Hour`), in nanoseconds. -/
def CLEANING_INTERVAL : Nat := 3600 * 1000000000
def ALLOCATED_CONTAINER_STATUS : Str := "allocated".toList
def NEW_CONTAINER_STATUS : Str := "new".toList
def CONTAINER_STATUS_STARTED : Str := "STARTED".toList
def CONTAINER_STATUS_EXITED : Str := "Exited".toList
def CONTAINER_STATUS_UP : Str := "Up".toList
def CONTAINER_STATUS_UNKNOWN : Str := "Unknown".toList
def TIME_FORMAT : Str := "2006-Jan-2-15:04:07".toList

/-! ## The name codec -/

/-- `setAllocatedStatus` of docker.go. -/
def setAllocatedStatus (name : Str) : Str :=
  Replace name NEW_CONTAINER_STATUS ALLOCATED_CONTAINER_STATUS 1

/-- The `date` text of `SetAllocatedStatusForContainer` for an expiry instant. -/
def expiryStamp (expiry : Time) : Str :=
  Replace (Replace (expiry.Format TIME_FORMAT) " ".toList "--".toList (-1))
    ":".toList ".".toList (-1)

/-- The `newName` of `SetAllocatedStatusForContainer` for an expiry instant. -/
def allocatedName (name : Str) (expiry : Time) : Str :=
  setAllocatedStatus name ++ "--".toList ++ expiryStamp expiry

/-- `getDateOfAllocatedContainer` of operator.go.  `strings.Split` never
returns an empty slice, so the guard `len(splittedName) < 1` is never taken;
indexing the second piece panics when there is none. -/
def getDateOfAllocatedContainer (name : Str) : Outcome Time :=
  let splittedName := Split name "---".toList
  if splittedName.length < 1 then
    Outcome.error (Err.describe "container_name".toList name
      (Err.msg "unable to get date of allocated container".toList))
  else
    match splittedName.get? 1 with
    | none => Outcome.panic "runtime error: index out of range [1] with length 1".toList
    | some piece =>
      let date := TrimSpace
        (Replace
          (Replace (Replace piece "--".toList " ".toList 1) ".".toList ":".toList (-1))
          ALLOCATED_CONTAINER_STATUS [] (-1))
      match Parse TIME_FORMAT date with
      | Except.error err => Outcome.error (Err.describe "container_name".toList name err)
      | Except.ok allocatedTime => Outcome.ok allocatedTime

/-! ## The outside world: container runtime, operating system, Bitbucket -/

/-- Docker API `types.Container`: the fields the program reads. -/
structure Container where
  ID : Str := []
  Names : List Str := []
  Image : Str := []
  Status : Str := []
deriving DecidableEq, Repr

/-- `ContainerData` of docker.go (the fields that are ever set). -/
structure ContainerData where
  Name : Str
  Image : Str
  ID : Str
  Username : Str
  Password : Str
  PortHTTP : Str
  PortSSH : Str
deriving DecidableEq, Repr

/-- `config.Bitbucket`. -/
structure Bitbucket where
  URL : Str := []
  Username : Str := []
  Password : Str := []
  Version : Str := []
  JvmSupportRecommendedArgs : Str := []
  ServerProxyName : Str := []
  ElasticSearchEnabled : Str := []
deriving DecidableEq, Repr

/-- `config.Config` (the unused database section left out). -/
structure Config where
  Prefix : Str := []
  BaseURL : Str := []
  ListeningPort : Str := []
  Bitbucket : Bitbucket := {}
deriving DecidableEq, Repr

/-- `options.DocoptOptions`. -/
structure DocoptOptions where
  AddonPath : Str := []
  LicensePath : Str := []
deriving DecidableEq, Repr

/-- `StartupStatus` of operator.go. -/
structure StartupStatus where
  State : Str
  Message : Str
  Percentage : Nat
deriving DecidableEq, Repr

/-- A call the program makes on something outside itself. -/
inductive Call where
  | ContainerList
  | ImagePull (image : Str)
  | CopyPullOutput
  | ContainerCreate (name image portHTTP portSSH volume : Str)
  | ContainerStart (id : Str)
  | ContainerStop (id : Str)
  | ContainerRemove (id : Str)
  | ContainerRename (id newName : Str)
  | Now
  | RandIntn (n : Nat)
  | ResolveTCPAddr
  | ListenTCP
  | NewRequest (url : Str)
  | HTTPDo (url : Str)
  | UrlParse (url : Str)
  | GetUPMToken
  | InstallAddon (path : Str)
  | OpenFile (path : Str)
  | ReadAll
  | SetAddonLicense (key : Str)
  | WriteJSON
deriving DecidableEq, Repr

/-- What `http.DefaultClient.Do` and the JSON decoder give `GetStartupStatus`. -/
inductive HTTPReply where
  | opError
  | eof
  | idleClosed
  | otherError (text : Str)
  | badJSON (text : Str)
  | status (s : StartupStatus)
deriving DecidableEq, Repr

/-- Answers of the outside world.  Each is indexed by the number of calls the
program has made before: `fail k` is the error of call number `k`, if it
fails; `clock k` the reading of `time.Now()`; `rand k` the random source;
`port k` the port the system assigns; `newID k` the identifier the runtime
gives a created container; `http k` the reply to a startup request. -/
structure Env where
  fail : Nat → Option Str
  clock : Nat → Time
  rand : Nat → Nat
  port : Nat → Nat
  newID : Nat → Str
  http : Nat → HTTPReply

/-- State outside the program: the containers the runtime holds, newest
first as `ContainerList` reports them, and the calls made so far. -/
structure World where
  containers : List Container
  log : List Call
deriving DecidableEq, Repr

/-- Go code acting on the world. -/
def M (α : Type) : Type := World → Outcome α × World

def M.pure {α : Type} (a : α) : M α := fun w => (Outcome.ok a, w)

def M.bind {α β : Type} (x : M α) (f : α → M β) : M β := fun w =>
  match x w with
  | (Outcome.ok a, w1) => f a w1
  | (Outcome.error e, w1) => (Outcome.error e, w1)
  | (Outcome.panic t, w1) => (Outcome.panic t, w1)
  | (Outcome.pending, w1) => (Outcome.pending, w1)

instance : Monad M where
  pure := M.pure
  bind := M.bind

/-- The `return ..., err` of Go. -/
def failWith {α : Type} (e : Err) : M α := fun w => (Outcome.error e, w)

/-- A run-time panic of Go. -/
def goPanic {α : Type} (text : String) : M α := fun w => (Outcome.panic text.toList, w)

/-- The `if err != nil { return ..., wrap(err) }` of Go. -/
def orFail {α : Type} (x : M α) (wrap : Err → Err) : M α := fun w =>
  match x w with
  | (Outcome.error e, w1) => (Outcome.error (wrap e), w1)
  | r => r

/-- `karma.Format(err, message)`. -/
def format (message : String) (err : Err) : Err := Err.format err message.toList

/-- Log call `c` and give its number. -/
def record (c : Call) : M Nat := fun w =>
  (Outcome.ok w.log.length, { w with log := w.log ++ [c] })

/-- Make call `c`: it is logged, and fails if the world says so. -/
def call (env : Env) (c : Call) : M Nat := do
  let k ← record c
  match env.fail k with
  | some text => failWith (Err.msg text)
  | none => return k

def getContainers : M (List Container) := fun w => (Outcome.ok w.containers, w)

def setContainers (cs : List Container) : M Unit := fun w =>
  (Outcome.ok (), { w with containers := cs })

/-! ### The runtime, as the program uses it -/

/-- `cli.ContainerList` with `All: true`. -/
def cliContainerList (env : Env) : M (List Container) := do
  let _ ← call env Call.ContainerList
  getContainers

/-- `cli.ContainerCreate`: a new container, listed first under its name with
the leading slash the runtime reports names with. -/
def cliContainerCreate (env : Env) (name image portHTTP portSSH volume : Str) : M Str := do
  let k ← call env (Call.ContainerCreate name image portHTTP portSSH volume)
  let cs ← getContainers
  let id := env.newID k
  setContainers ({ ID := id, Names := [('/' :: name)], Image := image,
                   Status := "Created".toList } :: cs)
  return id

def setStatus (id status : Str) (cs : List Container) : List Container :=
  cs.map (fun c => if c.ID = id then { c with Status := status } else c)

/-- `cli.ContainerStart`. -/
def cliContainerStart (env : Env) (id : Str) : M Unit := do
  let _ ← call env (Call.ContainerStart id)
  let cs ← getContainers
  setContainers (setStatus id "Up Less than a second".toList cs)

/-- `cli.ContainerStop`. -/
def cliContainerStop (env : Env) (id : Str) : M Unit := do
  let _ ← call env (Call.ContainerStop id)
  let cs ← getContainers
  setContainers (setStatus id "Exited (0) Less than a second ago".toList cs)

/-- `cli.ContainerRemove` with `Force: true`. -/
def cliContainerRemove (env : Env) (id : Str) : M Unit := do
  let _ ← call env (Call.ContainerRemove id)
  let cs ← getContainers
  setContainers (cs.filter (fun c => c.ID ≠ id))

/-- `cli.ContainerRename`: the runtime reports the new name with one leading
slash. -/
def cliContainerRename (env : Env) (id newName : Str) : M Unit := do
  let _ ← call env (Call.ContainerRename id newName)
  let cs ← getContainers
  let listed : Str := match newName with
    | '/' :: _ => newName
    | _ => '/' :: newName
  setContainers (cs.map (fun c => if c.ID = id then { c with Names := [listed] } else c))

/-- `time.Now()`. -/
def now (env : Env) : M Time := do
  let k ← record Call.Now
  return env.clock k

/-! ## internal/docker -/

/-- `Docker` of docker.go: the client and the configuration. -/
structure Docker where
  cli : Env
  config : Config

/-- `container.Names[0]`; indexing an empty slice panics. -/
def firstName (c : Container) : M Str :=
  match c.Names with
  | [] => goPanic "runtime error: index out of range [0] with length 0"
  | name :: _ => pure name

/-- `addIDToVolume`. -/
def addIDToVolume (env : Env) (name : Str) : M Str := do
  let k ← record (Call.RandIntn 1000000)
  return name ++ "-volume-".toList ++ Itoa (env.rand k % 1000000 + 1000000)

def Docker.CreateContainer (docker : Docker) (name image portHTTP portSSH : Str) : M Str := do
  let _ ← orFail (call docker.cli (Call.ImagePull image)) (format "unable to create image")
  let _ ← orFail (call docker.cli Call.CopyPullOutput) (format "unable to copy stdout to reader")
  let volumeName ← addIDToVolume docker.cli docker.config.Prefix
  let id ← orFail (cliContainerCreate docker.cli name image portHTTP portSSH volumeName)
    (format "unable to create container")
  return id

def Docker.StartContainer (docker : Docker) (id : Str) : M Unit :=
  orFail (cliContainerStart docker.cli id) (format "unable to start container")

def Docker.RemoveContainer (docker : Docker) (id : Str) : M Unit :=
  orFail (cliContainerRemove docker.cli id)
    (fun err => Err.format err ("unable to remove container, container_id: ".toList ++ id))

def Docker.StopContainer (docker : Docker) (id : Str) : M Unit :=
  orFail (cliContainerStop docker.cli id)
    (fun err => Err.format err ("unable to stop container, container_id: ".toList ++ id))

/-- The two nested loops of `GetContainersListByPrefix`: a container is
appended once for each of its names that contains the text. -/
def byPrefix (pre : Str) (containers : List Container) : List Container :=
  containers.flatMap (fun container =>
    (container.Names.filter (fun name => Contains name pre)).map (fun _ => container))

def Docker.GetContainersListByPrefix (docker : Docker) (pre : Str) : M (List Container) := do
  let containers ← orFail (cliContainerList docker.cli)
    (fun err => Err.format err ("unable to get container list by prefix: ".toList ++ pre))
  return byPrefix pre containers

/-- The loop of `GetContainerByID`: the last container with the identifier,
or the zero value when there is none. -/
def lastByID (id : Str) (containers : List Container) : Container :=
  containers.foldl (fun result container => if container.ID = id then container else result) {}

/-- `Docker.GetContainerByID`: the pointer it returns is never nil (`some`). -/
def Docker.GetContainerByID (docker : Docker) (id : Str) : M (Option Container) := do
  let containers ← orFail (cliContainerList docker.cli) (format "unable to get container list")
  return some (lastByID id containers)

def Docker.SetAllocatedStatusForContainer (docker : Docker) (container : Container) : M Unit := do
  let t ← now docker.cli
  let name ← firstName container
  let newName := allocatedName name (t.Add CLEANING_INTERVAL)
  orFail (cliContainerRename docker.cli container.ID newName)
    (fun err => Err.format err ("unable to rename container, container_id: ".toList ++ container.ID))

/-- Loop shared by `GetFreeContainers` and `GetAllocatedContainers`: keep the
containers whose first name contains the status text. -/
def withStatus (status : Str) : List Container → M (List Container)
  | [] => pure []
  | container :: rest => do
    let name ← firstName container
    let result ← withStatus status rest
    return if Contains name status then container :: result else result

def Docker.GetFreeContainers (docker : Docker) : M (List Container) := do
  let containers ← orFail (docker.GetContainersListByPrefix docker.config.Prefix)
    (format "unable to get container list")
  if containers.length = 0 then return []
  withStatus NEW_CONTAINER_STATUS containers

def Docker.GetAllocatedContainers (docker : Docker) : M (List Container) := do
  let containers ← orFail (docker.GetContainersListByPrefix docker.config.Prefix)
    (format "unable to get container list")
  if containers.length = 0 then return []
  withStatus ALLOCATED_CONTAINER_STATUS containers

/-! ## internal/operator -/

/-- `Operator` of operator.go. -/
structure Operator where
  config : Config
  docker : Docker
  opts : DocoptOptions

/-- `ErrContainersAllocated`. -/
def ErrContainersAllocated : Err := Err.msg "all free containers allocated".toList

/-- Anchored regular expression without repetition, enough for the version
pattern. -/
inductive Re where
  | eps
  | range (lo hi : Char)
  | seq (a b : Re)
  | opt (a : Re)
deriving Repr

/-- Every text that can remain after the expression has matched a beginning
of the input. -/
def Re.run : Re → Str → List Str
  | Re.eps, s => [s]
  | Re.range _ _, [] => []
  | Re.range lo hi, c :: s => if lo ≤ c ∧ c ≤ hi then [s] else []
  | Re.seq a b, s => (a.run s).flatMap b.run
  | Re.opt a, s => a.run s ++ [s]

/-- `MatchString` for an expression written between `^` and `$`: some way of
matching uses up the whole input. -/
def Re.MatchString (r : Re) (s : Str) : Bool := (r.run s).any (fun rest => rest.isEmpty)

/-- The expression `^[0-9]([.][0-9])([.][0-9])?$`. -/
def versionExpression : Re :=
  Re.seq (Re.range '0' '9')
    (Re.seq (Re.seq (Re.range '.' '.') (Re.range '0' '9'))
      (Re.opt (Re.seq (Re.range '.' '.') (Re.range '0' '9'))))

def Operator.getBitbucketImageWithVersion (operator : Operator) : Except Err Str :=
  if operator.config.Bitbucket.Version = "latest".toList then
    Except.ok (BITBUCKET_IMAGE ++ ":latest".toList)
  else if versionExpression.MatchString operator.config.Bitbucket.Version then
    Except.ok (BITBUCKET_IMAGE ++ ":".toList ++ operator.config.Bitbucket.Version)
  else Except.error (Err.msg "wrong bitbucket version".toList)

def Operator.isExceedsNumberOfCreatedContainers (operator : Operator) (max : Nat) :
    M (Bool × Nat) := do
  let containers ← orFail (operator.docker.GetContainersListByPrefix operator.config.Prefix)
    (format "unable to get container list")
  if containers.length ≥ max then return (true, 0)
  return (false, containers.length)

def handleStatusOfContainer (status : Str) : Str :=
  if Contains status CONTAINER_STATUS_UP then CONTAINER_STATUS_UP
  else if Contains status CONTAINER_STATUS_EXITED then CONTAINER_STATUS_EXITED
  else CONTAINER_STATUS_UNKNOWN

/-- `AddIDToContainerName`. -/
def AddIDToContainerName (env : Env) (name : Str) : M Str := do
  let k ← record (Call.RandIntn 1000000)
  return name ++ "-".toList ++ Itoa (env.rand k % 1000000 + 1000000) ++
    "---".toList ++ NEW_CONTAINER_STATUS

/-- `getFreePort`: the port of a listener the system opened on port 0. -/
def getFreePort (env : Env) : M Str := do
  let _ ← call env Call.ResolveTCPAddr
  let k ← call env Call.ListenTCP
  return Itoa (env.port k)

def getPorts (env : Env) : M (Str × Str) := do
  let portHTTP ← orFail (getFreePort env) (format "unable to get free http_port")
  let portSSH ← orFail (getFreePort env) (format "unable to get free ssh_port")
  return (portHTTP, portSSH)

/-- `Operator.GetURI`. -/
def Operator.GetURI (operator : Operator) (path portHTTP : Str) : Str :=
  "http://".toList ++ operator.config.Bitbucket.URL ++ ":".toList ++ portHTTP ++ path

def Operator.CreateAndStartContainer (operator : Operator) : M ContainerData := do
  let (result, _) ← orFail (operator.isExceedsNumberOfCreatedContainers MAX_NUMBER_OF_CONTAINERS)
    (format "unable to validate max number of created containers")
  if result then
    failWith (Err.describe "limit".toList (Itoa MAX_NUMBER_OF_CONTAINERS)
      (Err.msg "limit of created containers exceeded".toList))
  else
    match operator.getBitbucketImageWithVersion with
    | Except.error err => failWith (format "unable to get bitbucket image and version" err)
    | Except.ok image =>
      let containerName ← AddIDToContainerName operator.docker.cli operator.config.Prefix
      let (portHTTP, portSSH) ← orFail (getPorts operator.docker.cli)
        (format "unable to get free http and ssh ports for new container")
      let containerID ← orFail
        (operator.docker.CreateContainer containerName image portHTTP portSSH)
        (fun err => Err.describe "container_name".toList containerName
          (format "unable to create container" err))
      let container : ContainerData :=
        { Name := containerName, Image := image, ID := containerID,
          Username := operator.config.Bitbucket.Username,
          Password := operator.config.Bitbucket.Password,
          PortHTTP := portHTTP, PortSSH := portSSH }
      orFail (operator.docker.StartContainer container.ID)
        (fun err => Err.describe "container_id".toList container.ID
          (format "unable to start container" err))
      return container

/-- `Operator.GetStartupStatus`: `none` is the `nil, nil` the source returns
for the transport errors of a server that is still starting. -/
def Operator.GetStartupStatus (operator : Operator) (baseURL : Str) :
    M (Option StartupStatus) := do
  let bitbucketURL := baseURL ++ "/system/startup".toList
  let _ ← orFail (call operator.docker.cli (Call.NewRequest bitbucketURL))
    (format "unable to create http request")
  let k ← record (Call.HTTPDo bitbucketURL)
  match operator.docker.cli.http k with
  | HTTPReply.opError => return none
  | HTTPReply.eof => return none
  | HTTPReply.idleClosed => return none
  | HTTPReply.otherError text =>
    failWith (format "unable to request startup status" (Err.msg text))
  | HTTPReply.badJSON text =>
    failWith (format "unable to decode startup status" (Err.msg text))
  | HTTPReply.status st => return some st

/-- The `for` loop of `ValidateStartupStatus`, run for at most `rounds`
rounds; the source puts no bound on it. -/
def Operator.ValidateStartupStatus (operator : Operator) (bitbucketURL : Str)
    (container : ContainerData) : Nat → Str → M Unit
  | 0, _ => fun w => (Outcome.pending, w)
  | rounds + 1, message => do
    let status ← orFail (operator.GetStartupStatus bitbucketURL)
      (format "unable to get container startup status")
    match status with
    | none =>
      operator.ValidateStartupStatus bitbucketURL container rounds message
    | some st =>
      if st.State = CONTAINER_STATUS_STARTED then return ()
      else
          operator.ValidateStartupStatus bitbucketURL container rounds st.Message

/-- `readFile`. -/
def readFile (env : Env) (path : Str) : M Unit := do
  let _ ← orFail (call env (Call.OpenFile path))
    (fun err => Err.format err ("unable to open file by path: ".toList ++ path))
  let _ ← orFail (call env Call.ReadAll)
    (fun err => Err.format err ("unable to read file by path: ".toList ++ path))

def Operator.InstallAddonAndSetLicense (operator : Operator) (bitbucketURL : Str) : M Unit := do
  let _ ← orFail (call operator.docker.cli (Call.UrlParse bitbucketURL))
    (fun err => Err.format err ("unable to parse url: ".toList ++ bitbucketURL))
  let _ ← orFail (call operator.docker.cli Call.GetUPMToken)
    (fun err => Err.format err ("unable to get upm token by url: ".toList ++ bitbucketURL))
  let _ ← orFail (call operator.docker.cli (Call.InstallAddon operator.opts.AddonPath))
    (fun err => Err.format err
      ("unable to install addon on bitbucket, addon_path: ".toList ++ operator.opts.AddonPath))
  orFail (readFile operator.docker.cli operator.opts.LicensePath)
    (format "unable to read file with license")
  let _ ← orFail (call operator.docker.cli (Call.SetAddonLicense "io.reconquest.snake".toList))
    (fun err => Err.format err
      ("unable to set license for addon, license_path: ".toList ++ operator.opts.LicensePath))

/-- `Operator.HandleNewContainer`; `rounds` bounds the startup polling. -/
def Operator.HandleNewContainer (operator : Operator) (rounds : Nat) : M (Option Container) := do
  let container ← orFail operator.CreateAndStartContainer
    (format "unable to create and start container")
  let bitbucketURL := operator.GetURI [] container.PortHTTP
  orFail (operator.ValidateStartupStatus bitbucketURL container rounds [])
    (fun err => Err.format err
      ("unable to validate startup status of container, container_id: ".toList ++ container.ID))
  orFail (operator.InstallAddonAndSetLicense bitbucketURL)
    (fun err => Err.format err ("unable to set license, container_id: ".toList ++ container.ID))
  let createdContainer ← orFail (operator.docker.GetContainerByID container.ID)
    (fun err => Err.format err
      ("unable to get container from docker, container_id: ".toList ++ container.ID))
  return createdContainer

def Operator.GetContainerByID (operator : Operator) (id : Str) : M (Option Container) :=
  orFail (operator.docker.GetContainerByID id)
    (fun err => Err.format err
      ("unable to get container by id from the docker, container_id: ".toList ++ id))

/-- A returned `Outcome` inside world-acting code. -/
def liftOutcome {α : Type} (o : Outcome α) : M α := fun w => (o, w)

def liftExcept {α : Type} (o : Except Err α) : M α :=
  match o with
  | Except.ok a => pure a
  | Except.error e => failWith e

/-- `getOverdueContainers`: the clock is read once for each container. -/
def getOverdueContainers (env : Env) : List Container → M (List Container)
  | [] => pure []
  | container :: rest => do
    let name ← firstName container
    let expirationDate ← liftOutcome (getDateOfAllocatedContainer name)
    let t ← now env
    let nowDate ← liftExcept (Parse TIME_FORMAT (t.Format TIME_FORMAT))
    let result ← getOverdueContainers env rest
    return if nowDate.After expirationDate then container :: result else result

def Operator.GetStatusOfContainerByID (operator : Operator) (id : Str) : M Str := do
  let container ← orFail (operator.docker.GetContainerByID id)
    (fun err => Err.format err ("unable to get containers by id: ".toList ++ id))
  match container with
  | none =>
    failWith (Err.format (Err.msg "container doesn't found in docker".toList)
      ("unable to get status container by id: ".toList ++ id))
  | some c => return handleStatusOfContainer c.Status

/-- `Operator.RemoveContainers`.  In the `default` branch the source wraps
`err`, which is `nil` there. -/
def Operator.RemoveContainers (operator : Operator) : List Container → M Unit
  | [] => pure ()
  | container :: rest => do
    let status ← orFail (operator.GetStatusOfContainerByID container.ID)
      (fun err => Err.format err
        ("unable to get status of container, container_id: ".toList ++ container.ID))
    if status = CONTAINER_STATUS_UP then
      orFail (operator.docker.StopContainer container.ID)
        (fun err => Err.format err
          ("unable to stop container, container_id: ".toList ++ container.ID))
    else if status = CONTAINER_STATUS_EXITED then pure ()
    else failWith (Err.formatNil
      ("unable to get status of container, container_id: ".toList ++ container.ID))
    orFail (operator.docker.RemoveContainer container.ID)
      (fun err => Err.format err
        ("unable to remove container, container_id: ".toList ++ container.ID))
    operator.RemoveContainers rest

def Operator.CleanAllocatedContainers (operator : Operator) : M Unit := do
  let containers ← orFail operator.docker.GetAllocatedContainers
    (format "unable to get allocated containers from docker")
  if containers.length = 0 then return ()
  let overdueContainers ← orFail (getOverdueContainers operator.docker.cli containers)
    (format "unable to get allocated overdue containers from docker")
  if overdueContainers.length = 0 then return ()
  orFail (operator.RemoveContainers overdueContainers) (format "unable to remove containers")

def Operator.RemoveContainerByID (operator : Operator) (id : Str) : M Unit := do
  let container ← orFail (operator.docker.GetContainerByID id)
    (fun err => Err.format err
      ("unable to get container by id from the docker, container_id: ".toList ++ id))
  match container with
  | none => goPanic "runtime error: invalid memory address or nil pointer dereference"
  | some c =>
    orFail (operator.RemoveContainers [c])
      (fun err => Err.format err ("unable to remove container, container_id: ".toList ++ c.ID))

def Operator.SetAllocatedStatusForContainer (operator : Operator) (container : Container) :
    M Unit :=
  orFail (operator.docker.SetAllocatedStatusForContainer container)
    (fun err => Err.format err
      ("unable to set allocated status for container, container_id: ".toList ++ container.ID))

/-- `Operator.GetFreeContanier`; the claim of the returned container is
commented out in the source. -/
def Operator.GetFreeContanier (operator : Operator) : M Container := do
  let containers ← orFail operator.docker.GetFreeContainers (format "unable to get free container")
  match containers with
  | [] => failWith ErrContainersAllocated
  | first :: _ => return first

/-- `Operator.CreateFreeContainer`: the record returned is the one fetched by
`HandleNewContainer`, before the rename. -/
def Operator.CreateFreeContainer (operator : Operator) (rounds : Nat) : M (Option Container) := do
  let container ← orFail (operator.HandleNewContainer rounds)
    (format "unable to handle new container")
  match container with
  | none => goPanic "runtime error: invalid memory address or nil pointer dereference"
  | some c =>
    orFail (operator.docker.SetAllocatedStatusForContainer c)
      (fun err => Err.format err
        ("unable to set allocated status for container, container_id: ".toList ++ c.ID))
    return some c

def Operator.GetAllContaniersFromDocker (operator : Operator) : M (List Container) :=
  orFail (operator.docker.GetContainersListByPrefix operator.config.Prefix)
    (fun err => Err.format err
      ("unable to get containers by prefix: ".toList ++ operator.config.Prefix))

/-- The `for` loop of `RunInitialContainers`. -/
def Operator.runInitialLoop (operator : Operator) (rounds : Nat) : Nat → M Unit
  | 0 => pure ()
  | n + 1 => do
    let _ ← orFail (operator.HandleNewContainer rounds) (format "unable to handle new container")
    operator.runInitialLoop rounds n

def Operator.RunInitialContainers (operator : Operator) (rounds : Nat) : M Unit := do
  let (result, total) ← orFail
    (operator.isExceedsNumberOfCreatedContainers INITIAL_NUMBER_OF_CONTAINERS)
    (format "unable to validate number of existing containers")
  if result then return ()
  operator.runInitialLoop rounds (INITIAL_NUMBER_OF_CONTAINERS - total)

/-! ## internal/handler -/

/-- Text of an error (`err.Error()`); karma lays the same parts out as a
tree. -/
def Err.Error : Err → Str
  | Err.msg text => text
  | Err.format reason message => message ++ ": ".toList ++ reason.Error
  | Err.formatNil message => message
  | Err.describe key value reason => reason.Error ++ " (".toList ++ key ++ ": ".toList ++
      value ++ ")".toList

/-- `http.StatusInternalServerError`. -/
def StatusInternalServerError : Nat := 500

/-- `http.StatusOK`. -/
def StatusOK : Nat := 200

/-- `http.ResponseWriter`: the status line is fixed by the first
`WriteHeader` or, without one, by the first `Write`, which sends 200; a later
`WriteHeader` is ignored by net/http. -/
structure ResponseWriter where
  status : Option Nat := none
  body : Str := []
deriving DecidableEq, Repr

def ResponseWriter.WriteHeader (writer : ResponseWriter) (code : Nat) : ResponseWriter :=
  match writer.status with
  | some _ => writer
  | none => { writer with status := some code }

def ResponseWriter.Write (writer : ResponseWriter) (data : Str) : ResponseWriter :=
  let started := writer.WriteHeader StatusOK
  { started with body := started.body ++ data }

/-- `fmt.Fprintln(writer, err)`. -/
def ResponseWriter.Fprintln (writer : ResponseWriter) (err : Err) : ResponseWriter :=
  writer.Write (err.Error ++ "\n".toList)

/-- Status code the client receives: a handler that returns without writing
anything answers 200. -/
def ResponseWriter.code (writer : ResponseWriter) : Nat := writer.status.getD StatusOK

/-- JSON text of a container record (the fields of the model). -/
def jsonContainer (c : Container) : Str :=
  "\x7b\"Id\":\"".toList ++ c.ID ++ "\",\"Names\":[".toList ++
  ((c.Names.map (fun n => "\"".toList ++ n ++ "\"".toList)).intersperse ",".toList).flatten ++
  "],\"Image\":\"".toList ++ c.Image ++ "\",\"Status\":\"".toList ++ c.Status ++ "\"\x7d".toList

def jsonPointer (c : Option Container) : Str :=
  match c with
  | none => "null".toList
  | some c => jsonContainer c

def jsonList (cs : List Container) : Str :=
  match cs with
  | [] => "null".toList
  | _ => "[".toList ++ ((cs.map jsonContainer).intersperse ",".toList).flatten ++ "]".toList

/-- `Handler` of handler.go; `rounds` bounds the startup polling of the
operations that provision. -/
structure Handler where
  config : Config
  operator : Operator
  rounds : Nat

/-- What a handler leaves behind: how it ended, the response, the world. -/
abbrev Served := Outcome Unit × ResponseWriter × World

/-- The error branch shared by the handlers: the text is written first, the
header after it. -/
def respondError (writer : ResponseWriter) (err : Err) (w : World) : Served :=
  (Outcome.ok (), (writer.Fprintln err).WriteHeader StatusInternalServerError, w)

/-- `json.NewEncoder(writer).Encode(v)` and the error branch after it. -/
def encodeTo (handler : Handler) (writer : ResponseWriter) (text : Str) (w : World) : Served :=
  match call handler.operator.docker.cli Call.WriteJSON w with
  | (Outcome.ok _, w1) => (Outcome.ok (), writer.Write (text ++ "\n".toList), w1)
  | (Outcome.error err, w1) => respondError writer err w1
  | (Outcome.panic t, w1) => (Outcome.panic t, writer, w1)
  | (Outcome.pending, w1) => (Outcome.pending, writer, w1)

def Handler.GetAllContainers (handler : Handler) (writer : ResponseWriter) (w : World) : Served :=
  match handler.operator.GetAllContaniersFromDocker w with
  | (Outcome.error err, w1) => respondError writer err w1
  | (Outcome.ok containers, w1) => encodeTo handler writer (jsonList containers) w1
  | (Outcome.panic t, w1) => (Outcome.panic t, writer, w1)
  | (Outcome.pending, w1) => (Outcome.pending, writer, w1)

def Handler.GetFreeContainer (handler : Handler) (writer : ResponseWriter) (w : World) : Served :=
  match handler.operator.GetFreeContanier w with
  | (Outcome.error err, w1) =>
    if err ≠ ErrContainersAllocated then respondError writer err w1
    else
      match handler.operator.CreateFreeContainer handler.rounds w1 with
      | (Outcome.error err, w2) => respondError writer err w2
      | (Outcome.ok newContainer, w2) => encodeTo handler writer (jsonPointer newContainer) w2
      | (Outcome.panic t, w2) => (Outcome.panic t, writer, w2)
      | (Outcome.pending, w2) => (Outcome.pending, writer, w2)
  | (Outcome.ok container, w1) => encodeTo handler writer (jsonContainer container) w1
  | (Outcome.panic t, w1) => (Outcome.panic t, writer, w1)
  | (Outcome.pending, w1) => (Outcome.pending, writer, w1)

def Handler.GetContainerByID (handler : Handler) (containerID : Str) (writer : ResponseWriter)
    (w : World) : Served :=
  match handler.operator.GetContainerByID containerID w with
  | (Outcome.error err, w1) => respondError writer err w1
  | (Outcome.ok container, w1) => encodeTo handler writer (jsonPointer container) w1
  | (Outcome.panic t, w1) => (Outcome.panic t, writer, w1)
  | (Outcome.pending, w1) => (Outcome.pending, writer, w1)

def Handler.CreateContainer (handler : Handler) (writer : ResponseWriter) (w : World) : Served :=
  match handler.operator.HandleNewContainer handler.rounds w with
  | (Outcome.error err, w1) => respondError writer err w1
  | (Outcome.ok container, w1) => encodeTo handler writer (jsonPointer container) w1
  | (Outcome.panic t, w1) => (Outcome.panic t, writer, w1)
  | (Outcome.pending, w1) => (Outcome.pending, writer, w1)

def Handler.RemoveContainer (handler : Handler) (containerID : Str) (writer : ResponseWriter)
    (w : World) : Served :=
  match handler.operator.RemoveContainerByID containerID w with
  | (Outcome.error err, w1) => respondError writer err w1
  | (Outcome.ok _, w1) =>
    (Outcome.ok (), writer.Write ("container successfully removed: ".toList ++ containerID), w1)
  | (Outcome.panic t, w1) => (Outcome.panic t, writer, w1)
  | (Outcome.pending, w1) => (Outcome.pending, writer, w1)

/-! ## Helper definitions for the statements, and sample data -/

/-- Neither a digit nor a letter of a month name is a character the codec
treats specially. -/
def plainChar (c : Char) : Bool :=
  c != '-' && c != ' ' && c != '.' && c != 'd' && c != ':' && !isSpace c

/-- Number of containers of the runtime that have a name containing the text. -/
def countMatching (pre : Str) (containers : List Container) : Nat :=
  (containers.filter (fun c => c.Names.any (fun name => Contains name pre))).length

/-- The capacity error of `CreateAndStartContainer`. -/
def capacityError : Err :=
  Err.describe "limit".toList "6".toList (Err.msg "limit of created containers exceeded".toList)

/-- 2 January 2020, 15:04:05. -/
def sampleTime : Time :=
  { year := 2020, month := 1, day := 2, hour := 15, min := 4, sec := 5, nsec := 0 }

/-- An outside world in which every call succeeds and Bitbucket reports
`STARTED` at the first request. -/
def sampleEnv : Env where
  fail := fun _ => none
  clock := fun _ => sampleTime
  rand := fun _ => 234567
  port := fun k => 40000 + k
  newID := fun k => 'c' :: Itoa k
  http := fun _ => HTTPReply.status { State := "STARTED".toList, Message := [], Percentage := 100 }

def sampleConfig : Config :=
  { Prefix := "bbpool".toList,
    Bitbucket := { Version := "7.5".toList, URL := "localhost".toList } }

def sampleOperator : Operator :=
  { config := sampleConfig, docker := { cli := sampleEnv, config := sampleConfig }, opts := {} }

/-- The sample operator with the version text `v7`. -/
def badVersionOperator : Operator :=
  { sampleOperator with
    config := { sampleConfig with Bitbucket := { Version := "v7".toList } } }

/-- A runtime without containers. -/
def emptyWorld : World := { containers := [], log := [] }

/-- A runtime holding six containers of the pool. -/
def fullWorld : World :=
  { containers := (List.range 6).map (fun i =>
      { ID := 'c' :: Itoa i, Names := ["/bbpool-".toList ++ Itoa (1000000 + i) ++ "---new".toList],
        Image := "atlassian/bitbucket-server:7.5".toList, Status := "Up 2 hours".toList }),
    log := [] }

/-- What `GetFreeContainers` computes from the containers of the runtime. -/
def freeOf (pre : Str) (containers : List Container) : Outcome (List Container) :=
  if (byPrefix pre containers).length = 0 then Outcome.ok []
  else (withStatus NEW_CONTAINER_STATUS (byPrefix pre containers) emptyWorld).1


def sampleHandler : Handler :=
  { config := sampleConfig, operator := sampleOperator, rounds := 1 }

/-- A running, unclaimed member of the pool. -/
def freeMember : Container :=
  { ID := "c1".toList, Names := ["/bbpool-1234567---new".toList],
    Image := "atlassian/bitbucket-server:7.5".toList, Status := "Up 2 hours".toList }

/-- A runtime holding one unclaimed member. -/
def oneFreeWorld : World := { containers := [freeMember], log := [] }

/-- The sample outside world with the clock standing at `t`. -/
def envAt (t : Time) : Env := { sampleEnv with clock := fun _ => t }

/-- The sample operator with the clock standing at `t`. -/
def operatorAt (t : Time) : Operator :=
  { config := sampleConfig, docker := { cli := envAt t, config := sampleConfig }, opts := {} }

/-- 2 January 2020, 15:04:30. -/
def halfPast : Time :=
  { year := 2020, month := 1, day := 2, hour := 15, min := 4, sec := 30, nsec := 0 }

/-- A member whose name encodes the expiry 15:04:29, one second before
`halfPast`. -/
def justExpired : Container :=
  { ID := "c1".toList,
    Names := [allocatedName "/bbpool-1234567---new".toList { halfPast with sec := 29 }],
    Image := "atlassian/bitbucket-server:7.5".toList, Status := "Up 58 minutes".toList }

/-- A member whose lease ended at 14:04, an hour before `halfPast`. -/
def longExpired : Container :=
  { ID := "c2".toList, Names := ["/bbpool-1222222---allocated--2020-Jan-2-14.04.07".toList],
    Image := "atlassian/bitbucket-server:7.5".toList, Status := "Up 2 hours".toList }

/-- A member marked allocated whose expiry segment is not a stamp. -/
def malformed : Container :=
  { ID := "c3".toList, Names := ["/bbpool-1333333---allocated--soon".toList],
    Image := "atlassian/bitbucket-server:7.5".toList, Status := "Up 2 hours".toList }

/-- The version form of the specification: `MAJOR.MINOR` or
`MAJOR.MINOR.PATCH`, each component a non-empty decimal number. -/
def isSemanticForm (v : Str) : Bool :=
  let parts := Split v ".".toList
  (parts.length == 2 || parts.length == 3) &&
    parts.all (fun part => !part.isEmpty && part.all isDigit)

/-- The sample operator with the configured version `v`. -/
def operatorWithVersion (v : Str) : Operator :=
  { sampleOperator with config := { sampleConfig with Bitbucket := { Version := v } } }

/-- An outside world in which every call fails: the Docker daemon is down. -/
def downEnv : Env :=
  { sampleEnv with fail := fun _ => some "Cannot connect to the Docker daemon".toList }

/-- The sample handler in front of a daemon that is down. -/
def downHandler : Handler :=
  { config := sampleConfig,
    operator := { config := sampleConfig, docker := { cli := downEnv, config := sampleConfig },
                  opts := {} },
    rounds := 1 }

/-- The error `GetAllContaniersFromDocker` returns when the daemon is down. -/
def downError : Err :=
  Err.format
    (Err.format (Err.msg "Cannot connect to the Docker daemon".toList)
      "unable to get container list by prefix: bbpool".toList)
    "unable to get containers by prefix: bbpool".toList

/-- Whether the first name of a container contains the text (false for a
container without names). -/
def firstNameHas (status : Str) (c : Container) : Bool :=
  match c.Names with
  | [] => false
  | name :: _ => Contains name status

/-- Whether some name of a container contains the text. -/
def someNameHas (pre : Str) (c : Container) : Bool :=
  c.Names.any (fun name => Contains name pre)

/-- A container outside the pool whose name happens to contain `new`. -/
def renewalProxy : Container :=
  { ID := "x1".toList, Names := ["/renewal-proxy".toList], Image := "nginx".toList,
    Status := "Up 3 days".toList }

/-- A runtime that lists a foreign container before an unclaimed member. -/
def sharedHostWorld : World := { containers := [renewalProxy, freeMember], log := [] }

/-- A container of the pool's host whose name has the prefix and no status. -/
def poolBackup : Container :=
  { ID := "x2".toList, Names := ["/bbpool-backup".toList], Image := "postgres".toList,
    Status := "Up 3 days".toList }

/-- A claimed member whose name also contains `new`. -/
def renewedMember : Container :=
  { ID := "c4".toList, Names := ["/bbpool-renewed---allocated--2020-Jan-2-16.04.07".toList],
    Image := "atlassian/bitbucket-server:7.5".toList, Status := "Up 2 hours".toList }

/-- A runtime holding the two. -/
def mixedNamesWorld : World := { containers := [poolBackup, renewedMember], log := [] }

/-- An unclaimed member that another container links to: the runtime lists
it under its own name and under the name of the link. -/
def linkedMember : Container :=
  { ID := "c5".toList,
    Names := ["/bbpool-1234567---new".toList, "/proxy/bbpool-1234567---new".toList],
    Image := "atlassian/bitbucket-server:7.5".toList, Status := "Up 2 hours".toList }

/-- A runtime holding the linked member only. -/
def linkedWorld : World := { containers := [linkedMember], log := [] }

/-- The name `AddIDToContainerName` builds from a prefix and a drawn number. -/
def freshName (p : Str) (n : Nat) : Str :=
  p ++ "-".toList ++ Itoa n ++ "---".toList ++ NEW_CONTAINER_STATUS

/-- The name `<prefix>-<number>---allocated--<stamp of the expiry>`. -/
def claimedName (p : Str) (n : Nat) (expiry : Time) : Str :=
  p ++ "-".toList ++ Itoa n ++ "---".toList ++ ALLOCATED_CONTAINER_STATUS ++ "--".toList ++
    expiryStamp expiry

/-- A runtime in which container `c` has been renamed to `name`. -/
def renamed (id name : Str) (containers : List Container) : List Container :=
  containers.map (fun c => if c.ID = id then { c with Names := [name] } else c)

/-- The expiry that `getDateOfAllocatedContainer` reads from the first name
of a container, when there is a first name and it decodes. -/
def decodedExpiry (c : Container) : Option Time :=
  match c.Names with
  | [] => none
  | name :: _ =>
    match getDateOfAllocatedContainer name with
    | Outcome.ok t => some t
    | _ => none

/-- Whether a container is overdue at the reading `nowDate`. -/
def overdueAt (nowDate : Time) (c : Container) : Bool :=
  match decodedExpiry c with
  | some expirationDate => nowDate.After expirationDate
  | none => false

/-- The status `GetStatusOfContainerByID` finds for an identifier in a runtime
holding `containers`. -/
def runtimeStatus (id : Str) (containers : List Container) : Str :=
  handleStatusOfContainer (lastByID id containers).Status

/-- The runtime calls `RemoveContainers` makes for a container it removes: the
listing of the status lookup, a stop when the status is `Up`, the removal. -/
def removalCalls (containers : List Container) (c : Container) : List Call :=
  Call.ContainerList ::
    ((if runtimeStatus c.ID containers = CONTAINER_STATUS_UP then [Call.ContainerStop c.ID]
      else []) ++ [Call.ContainerRemove c.ID])

/-- The containers of a runtime whose identifier is not among `ids`. -/
def without (ids : List Str) (containers : List Container) : List Container :=
  containers.filter (fun c => decide (c.ID ∉ ids))

/-- A member the runtime reports as exited. -/
def stoppedMember : Container :=
  { ID := "c4".toList, Names := ["/bbpool-1444444---allocated--2020-Jan-2-14.04.07".toList],
    Image := "atlassian/bitbucket-server:7.5".toList,
    Status := "Exited (0) 3 minutes ago".toList }

/-- A member the runtime has created and not started. -/
def createdMember : Container :=
  { ID := "c5".toList, Names := ["/bbpool-1555555---allocated--2020-Jan-2-14.04.07".toList],
    Image := "atlassian/bitbucket-server:7.5".toList, Status := "Created".toList }

/-- A runtime holding a running member, an exited one and a created one. -/
def removalWorld : World :=
  { containers := [longExpired, stoppedMember, createdMember], log := [] }

/-- The calls one `HandleNewContainer` makes when every call succeeds and
Bitbucket reports `STARTED` at the first request: the count of the members,
the drawing of the name, the two ports, the creation with its volume, the
start, the startup request, the add-on and its license, and the lookup of the
record. -/
def provisionCalls (operator : Operator) (name image portHTTP portSSH volume id : Str) :
    List Call :=
  [Call.ContainerList, Call.RandIntn 1000000, Call.ResolveTCPAddr, Call.ListenTCP,
    Call.ResolveTCPAddr, Call.ListenTCP, Call.ImagePull image, Call.CopyPullOutput,
    Call.RandIntn 1000000, Call.ContainerCreate name image portHTTP portSSH volume,
    Call.ContainerStart id,
    Call.NewRequest (operator.GetURI [] portHTTP ++ "/system/startup".toList),
    Call.HTTPDo (operator.GetURI [] portHTTP ++ "/system/startup".toList),
    Call.UrlParse (operator.GetURI [] portHTTP), Call.GetUPMToken,
    Call.InstallAddon operator.opts.AddonPath, Call.OpenFile operator.opts.LicensePath,
    Call.ReadAll, Call.SetAddonLicense "io.reconquest.snake".toList, Call.ContainerList]

/-- The statuses `RemoveContainers` finds for the containers of a batch, each
looked up in the runtime once the containers before it have been removed. -/
def lookedUpStatuses : List Container → List Container → List Str
  | _, [] => []
  | containers, c :: rest =>
    runtimeStatus c.ID containers ::
      lookedUpStatuses (containers.filter (fun x => decide (x.ID ≠ c.ID))) rest

/-! ## Lemmas: digits and numbers -/

theorem digitChar_isDigit (d : Nat) : isDigit (digitChar d) = true := by
  unfold digitChar
  split <;> decide

theorem digitVal_digitChar (d : Nat) (h : d < 10) : digitVal (digitChar d) = d := by
  interval_cases d <;> decide

theorem itoaLoop_step (fuel n : Nat) (acc : Str) :
    itoaLoop (fuel + 1) n acc =
      if n < 10 then digitChar n :: acc else itoaLoop fuel (n / 10) (digitChar (n % 10) :: acc) := rfl

theorem Itoa_one (n : Nat) (h : n < 10) : Itoa n = [digitChar n] := by
  rw [Itoa, show (20 : Nat) = 19 + 1 from rfl, itoaLoop_step, if_pos h]

theorem Itoa_two (n : Nat) (h1 : 10 ≤ n) (h : n < 100) :
    Itoa n = [digitChar (n / 10), digitChar (n % 10)] := by
  have h2 : ¬ n < 10 := by omega
  have h3 : n / 10 < 10 := by omega
  rw [Itoa, show (20 : Nat) = 18 + 1 + 1 from rfl, itoaLoop_step, if_neg h2, itoaLoop_step,
    if_pos h3]

theorem Itoa_three (n : Nat) (h1 : 100 ≤ n) (h : n < 1000) :
    Itoa n = [digitChar (n / 100), digitChar (n / 10 % 10), digitChar (n % 10)] := by
  have h2 : ¬ n < 10 := by omega
  have h3 : ¬ n / 10 < 10 := by omega
  have h4 : n / 10 / 10 < 10 := by omega
  have h5 : n / 10 / 10 = n / 100 := by omega
  rw [Itoa, show (20 : Nat) = 17 + 1 + 1 + 1 from rfl, itoaLoop_step, if_neg h2, itoaLoop_step,
    if_neg h3, itoaLoop_step, if_pos h4, h5]

theorem Itoa_four (n : Nat) (h1 : 1000 ≤ n) (h : n < 10000) :
    Itoa n = [digitChar (n / 1000), digitChar (n / 100 % 10), digitChar (n / 10 % 10),
      digitChar (n % 10)] := by
  have h2 : ¬ n < 10 := by omega
  have h3 : ¬ n / 10 < 10 := by omega
  have h4 : ¬ n / 10 / 10 < 10 := by omega
  have h5 : n / 10 / 10 / 10 < 10 := by omega
  have h6 : n / 10 / 10 / 10 = n / 1000 := by omega
  have h7 : n / 10 / 10 % 10 = n / 100 % 10 := by omega
  rw [Itoa, show (20 : Nat) = 16 + 1 + 1 + 1 + 1 from rfl, itoaLoop_step, if_neg h2,
    itoaLoop_step, if_neg h3, itoaLoop_step, if_neg h4, itoaLoop_step, if_pos h5, h6, h7]

theorem digitChar_zero : digitChar 0 = '0' := rfl

/-- Text of a year of at most four digits. -/
theorem appendInt_year (y : Nat) (h : y ≤ 9999) :
    appendInt y 4 = [digitChar (y / 1000), digitChar (y / 100 % 10), digitChar (y / 10 % 10),
      digitChar (y % 10)] := by
  unfold appendInt
  by_cases c1 : y < 10
  · rw [Itoa_one y c1]
    have e1 : y / 1000 = 0 := by omega
    have e2 : y / 100 % 10 = 0 := by omega
    have e3 : y / 10 % 10 = 0 := by omega
    have e4 : y % 10 = y := by omega
    rw [e1, e2, e3, e4]; rfl
  · by_cases c2 : y < 100
    · rw [Itoa_two y (by omega) c2]
      have e1 : y / 1000 = 0 := by omega
      have e2 : y / 100 % 10 = 0 := by omega
      have e3 : y / 10 % 10 = y / 10 := by omega
      rw [e1, e2, e3]; rfl
    · by_cases c3 : y < 1000
      · rw [Itoa_three y (by omega) c3]
        have e1 : y / 1000 = 0 := by omega
        have e2 : y / 100 % 10 = y / 100 := by omega
        rw [e1, e2]; rfl
      · rw [Itoa_four y (by omega) (by omega)]; rfl

/-- Text of a two-digit field (hour, minute). -/
theorem appendInt_two (n : Nat) (h : n < 100) :
    appendInt n 2 = [digitChar (n / 10), digitChar (n % 10)] := by
  unfold appendInt
  by_cases c1 : n < 10
  · rw [Itoa_one n c1]
    have e1 : n / 10 = 0 := by omega
    have e4 : n % 10 = n := by omega
    rw [e1, e4]; rfl
  · rw [Itoa_two n (by omega) h]; rfl

theorem appendInt_day_one (n : Nat) (h : n < 10) : appendInt n 0 = [digitChar n] := by
  unfold appendInt
  rw [Itoa_one n h]; rfl

theorem appendInt_day_two (n : Nat) (h1 : 10 ≤ n) (h : n < 100) :
    appendInt n 0 = [digitChar (n / 10), digitChar (n % 10)] := by
  unfold appendInt
  rw [Itoa_two n h1 h]; rfl

/-! ## Lemmas: searching a text -/

theorem cut_cons_false (sep : Str) (c : Char) (cs : Str)
    (h : sep.isPrefixOf (c :: cs) = false) :
    cut sep (c :: cs) = (cut sep cs).map (fun r => (c :: r.1, r.2)) := by
  simp [cut, h]

theorem cut_cons_true (sep : Str) (c : Char) (cs : Str)
    (h : sep.isPrefixOf (c :: cs) = true) :
    cut sep (c :: cs) = some ([], (c :: cs).drop sep.length) := by
  simp [cut, h]

/-- The search passes over a stretch of text in which no occurrence starts. -/
theorem cut_skip (sep rest : Str) :
    ∀ a : Str, (∀ u v, a = u ++ v → v ≠ [] → sep.isPrefixOf (v ++ rest) = false) →
      cut sep (a ++ rest) = (cut sep rest).map (fun r => (a ++ r.1, r.2))
  | [], _ => by simp
  | c :: a, h => by
    have h1 : sep.isPrefixOf (c :: (a ++ rest)) = false := h [] (c :: a) rfl (by simp)
    have h2 := cut_skip sep rest a (fun u v e hv => h (c :: u) v (by simp [e]) hv)
    rw [List.cons_append, cut_cons_false sep c _ h1, h2]
    cases cut sep rest <;> simp

theorem isPrefixOf_append_cons_of_not_mem (x : Char) (b : Str) :
    ∀ (sep a : Str), x ∉ sep → sep.isPrefixOf (a ++ x :: b) = sep.isPrefixOf a
  | [], a, _ => by simp
  | s :: ss, [], h => by
    have : s ≠ x := fun e => h (by simp [e])
    simp [List.isPrefixOf, this]
  | s :: ss, c :: a, h => by
    have ih := isPrefixOf_append_cons_of_not_mem x b ss a (fun m => h (by simp [m]))
    simp [List.isPrefixOf, ih]

theorem isPrefixOf_of_cut_none (sep : Str) :
    ∀ (u v : Str), cut sep (u ++ v) = none → sep.isPrefixOf v = false
  | [], [], h => by
    cases sep with
    | nil => simp [cut] at h
    | cons s ss => rfl
  | [], c :: cs, h => by
    by_contra hp
    simp only [Bool.not_eq_false] at hp
    rw [List.nil_append, cut_cons_true sep c cs hp] at h
    exact Option.noConfusion h
  | c :: u, v, h => by
    apply isPrefixOf_of_cut_none sep u v
    rw [List.cons_append] at h
    by_cases hp : sep.isPrefixOf (c :: (u ++ v)) = true
    · rw [cut_cons_true sep c _ hp] at h
      exact Option.noConfusion h
    · simp only [Bool.not_eq_true] at hp
      rw [cut_cons_false sep c _ hp] at h
      cases hc : cut sep (u ++ v) with
      | none => rfl
      | some r => rw [hc] at h; simp at h

/-- A text without the pattern, followed by a character the pattern does not
have: no occurrence starts in the text. -/
theorem noMatch_of_cut_none (sep a : Str) (x : Char) (rest : Str)
    (h : cut sep a = none) (hx : x ∉ sep) :
    ∀ u v, a = u ++ v → v ≠ [] → sep.isPrefixOf (v ++ x :: rest) = false := by
  intro u v e _
  rw [isPrefixOf_append_cons_of_not_mem x rest sep v hx]
  exact isPrefixOf_of_cut_none sep u v (e ▸ h)

/-- A text none of whose characters starts the pattern. -/
theorem noMatch_of_head (s : Char) (ss a rest : Str) (h : ∀ c ∈ a, c ≠ s) :
    ∀ u v, a = u ++ v → v ≠ [] → (s :: ss).isPrefixOf (v ++ rest) = false := by
  intro u v e hv
  cases v with
  | nil => exact absurd rfl hv
  | cons c cs =>
    have : c ≠ s := h c (by simp [e])
    have : s ≠ c := fun e => this e.symm
    simp [List.isPrefixOf, this]

theorem cut_none_of_not_mem (sep : Str) (x : Char) (hx : x ∈ sep) :
    ∀ s : Str, x ∉ s → cut sep s = none
  | [], _ => by
    cases sep with
    | nil => simp at hx
    | cons a as => simp [cut]
  | c :: cs, h => by
    have ih := cut_none_of_not_mem sep x hx cs (fun m => h (by simp [m]))
    have hp : sep.isPrefixOf (c :: cs) = false := by
      by_contra hp
      simp only [Bool.not_eq_false] at hp
      have := List.isPrefixOf_iff_prefix.mp hp
      exact h (this.subset hx)
    rw [cut_cons_false sep c cs hp, ih]; rfl

theorem replaceLoop_none (old new : Str) (k : Nat) (s : Str) (h : cut old s = none) :
    replaceLoop old new k s = s := by
  cases k with
  | zero => rfl
  | succ k => simp [replaceLoop, h]

theorem replaceLoop_some (old new : Str) (k : Nat) (s before after : Str)
    (h : cut old s = some (before, after)) :
    replaceLoop old new (k + 1) s = before ++ new ++ replaceLoop old new k after := by
  simp [replaceLoop, h]

theorem Replace_of_cut_none (s old new : Str) (n : Int) (h : cut old s = none) :
    Replace s old new n = s := by
  unfold Replace
  split
  · rfl
  · exact replaceLoop_none old new _ s h

/-- Replacing the first occurrence only. -/
theorem Replace_first (s old new before after : Str) (hne : old ≠ new)
    (h : cut old s = some (before, after)) :
    Replace s old new 1 = before ++ new ++ after := by
  unfold Replace
  rw [if_neg (by simp [hne])]
  simp only [show ¬ ((1 : Int) < 0) by decide, if_false, show (1 : Int).toNat = 0 + 1 from rfl]
  rw [replaceLoop_some old new 0 s before after h]
  rfl

/-- Replacing every occurrence of one character by another. -/
theorem replaceLoop_char (x y : Char) :
    ∀ (s : Str) (k : Nat), s.length ≤ k →
      replaceLoop [x] [y] k s = s.map (fun c => if c = x then y else c)
  | [], k, _ => by
    cases k with
    | zero => rfl
    | succ k => simp [replaceLoop, cut]
  | c :: cs, 0, h => by simp at h
  | c :: cs, k + 1, h => by
    have hk : cs.length ≤ k := by simpa using h
    by_cases hc : c = x
    · have hp : [x].isPrefixOf (c :: cs) = true := by simp [List.isPrefixOf, hc]
      rw [replaceLoop_some [x] [y] k (c :: cs) [] cs (by rw [cut_cons_true _ _ _ hp]; rfl),
        replaceLoop_char x y cs k hk]
      simp [hc]
    · have hp : [x].isPrefixOf (c :: cs) = false := by
        have : x ≠ c := fun e => hc e.symm
        simp [List.isPrefixOf, this]
      have ih := replaceLoop_char x y cs (k + 1) (by omega)
      cases hcut : cut [x] cs with
      | none =>
        rw [replaceLoop_none _ _ _ _ hcut] at ih
        rw [replaceLoop_none _ _ _ _ (by rw [cut_cons_false _ _ _ hp, hcut]; rfl)]
        simp [hc, ← ih]
      | some r =>
        rw [replaceLoop_some _ _ k cs r.1 r.2 hcut] at ih
        rw [replaceLoop_some _ _ k (c :: cs) (c :: r.1) r.2
          (by rw [cut_cons_false _ _ _ hp, hcut]; rfl)]
        simp [hc, ← ih]

theorem Replace_char (s : Str) (x y : Char) (h : x ≠ y) :
    Replace s [x] [y] (-1) = s.map (fun c => if c = x then y else c) := by
  unfold Replace
  rw [if_neg (by simp [h])]
  simp only [show ((-1 : Int) < 0) by decide, if_true]
  exact replaceLoop_char x y s s.length (le_refl _)

theorem cut_self_append (c : Char) (cs r : Str) :
    cut (c :: cs) ((c :: cs) ++ r) = some ([], r) := by
  have hp : (c :: cs).isPrefixOf (c :: (cs ++ r)) = true := by
    rw [List.isPrefixOf_iff_prefix]
    exact ⟨r, rfl⟩
  rw [List.cons_append, cut_cons_true _ _ _ hp]
  simp

/-- Removing every occurrence of a pattern that stands once, at the front. -/
theorem Replace_all_front (c : Char) (cs new r : Str) (hne : c :: cs ≠ new)
    (h : cut (c :: cs) r = none) :
    Replace ((c :: cs) ++ r) (c :: cs) new (-1) = new ++ r := by
  unfold Replace
  rw [if_neg (by simp [hne])]
  simp only [show ((-1 : Int) < 0) by decide, if_true]
  rw [show ((c :: cs) ++ r).length = (cs ++ r).length + 1 from rfl,
    replaceLoop_some _ _ _ _ [] r (cut_self_append c cs r), replaceLoop_none _ _ _ _ h]
  simp

/-- A text with exactly one separator splits in two. -/
theorem Split_two (s sep a b : Str) (hs : s ≠ []) (h : cut sep s = some (a, b))
    (hb : cut sep b = none) : Split s sep = [a, b] := by
  unfold Split
  obtain ⟨k, hk⟩ : ∃ k, s.length = k + 1 := by
    cases s with
    | nil => exact absurd rfl hs
    | cons c cs => exact ⟨cs.length, rfl⟩
  rw [hk]
  simp only [splitLoop, h]
  cases k with
  | zero => rfl
  | succ k => simp [splitLoop, hb]

theorem Split_of_cut_none (s sep : Str) (h : cut sep s = none) : Split s sep = [s] := by
  unfold Split
  cases s.length with
  | zero => rfl
  | succ k => simp [splitLoop, h]

/-! ## Lemmas: the characters of a stamp -/

theorem isDigit_toNat (c : Char) (h : isDigit c = true) : 48 ≤ c.toNat ∧ c.toNat ≤ 57 := by
  simp only [isDigit, Bool.and_eq_true, decide_eq_true_eq, Char.le_def, UInt32.le_def] at h
  exact h

theorem plainChar_of_isDigit (c : Char) (h : isDigit c = true) : plainChar c = true := by
  have hn := isDigit_toNat c h
  have ne : ∀ x : Char, x.toNat < 48 ∨ 57 < x.toNat → (c != x) = true := by
    intro x hx
    simp only [bne_iff_ne, ne_eq]
    intro e
    subst e
    omega
  have hs : isSpace c = false := by
    simp only [isSpace, Bool.or_eq_false_iff, Bool.and_eq_false_iff, beq_eq_false_iff_ne,
      decide_eq_false_iff_not]
    omega
  simp only [plainChar, Bool.and_eq_true, Bool.not_eq_true', hs, and_true]
  refine ⟨⟨⟨⟨?_, ?_⟩, ?_⟩, ?_⟩, ?_⟩ <;> apply ne <;> decide

theorem plainChar_ne (c : Char) (h : plainChar c = true) :
    c ≠ '-' ∧ c ≠ ' ' ∧ c ≠ '.' ∧ c ≠ 'd' ∧ c ≠ ':' ∧ isSpace c = false := by
  simpa [plainChar, and_assoc] using h

theorem TrimSpace_space_cons (x z : Char) (m : Str) (hx : isSpace x = false)
    (hz : isSpace z = false) : TrimSpace (' ' :: x :: (m ++ [z])) = x :: (m ++ [z]) := by
  have h1 : isSpace ' ' = true := by decide
  simp [TrimSpace, List.dropWhile, h1, hx, hz]

theorem lookupMonth_length (a b c : Char) (rest : Str) :
    (decide (3 ≤ (a :: b :: c :: rest).length)) = true := by simp

/-- The text of a month: three plain letters that `lookupMonth` reads back. -/
theorem month_text (m : Nat) (h1 : 1 ≤ m) (h2 : m ≤ 12) :
    ∃ a b c, shortMonthName m = [a, b, c] ∧ plainChar a = true ∧ plainChar b = true ∧
      plainChar c = true ∧ ∀ rest, lookupMonth (a :: b :: c :: rest) = some (m, rest) := by
  interval_cases m <;>
    refine ⟨_, _, _, rfl, by decide, by decide, by decide, fun rest => ?_⟩ <;>
    simp +decide [lookupMonth, lookupMonth.go, longMonthNames]

theorem layoutChunks_TIME_FORMAT :
    layoutChunks TIME_FORMAT =
      [Chunk.stdLongYear, Chunk.lit '-', Chunk.stdMonth, Chunk.lit '-', Chunk.stdDay,
       Chunk.lit '-', Chunk.stdHour, Chunk.lit ':', Chunk.stdZeroMinute, Chunk.lit ':',
       Chunk.lit '0', Chunk.lit '7'] := by decide

/-- The stamp of an instant: year, month name, day, hour and minute, then the
literal text `:07`. -/
theorem Format_TIME_FORMAT (t : Time) :
    t.Format TIME_FORMAT =
      appendInt t.year 4 ++ '-' :: (shortMonthName t.month ++ '-' :: (appendInt t.day 0 ++
        '-' :: (appendInt t.hour 2 ++ ':' :: (appendInt t.min 2 ++ [':', '0', '7'])))) := by
  unfold Time.Format
  rw [layoutChunks_TIME_FORMAT]
  simp [List.flatMap, formatChunk]

theorem valid_bounds (t : Time) (h : t.valid = true) :
    1 ≤ t.month ∧ t.month ≤ 12 ∧ 1 ≤ t.day ∧ t.day ≤ daysIn t.month t.year ∧ t.hour < 24 ∧
      t.min < 60 ∧ t.sec < 60 ∧ t.nsec < 1000000000 := by
  simpa [Time.valid, and_assoc] using h

theorem daysIn_le (m y : Nat) : daysIn m y ≤ 31 := by
  unfold daysIn
  split
  · split <;> omega
  · split <;> omega

theorem getnum_two (a b : Nat) (ha : a < 10) (hb : b < 10) (fixed : Bool) (rest : Str) :
    getnum (digitChar a :: digitChar b :: rest) fixed = some (a * 10 + b, rest) := by
  simp [getnum, digitChar_isDigit, digitVal_digitChar, ha, hb]

theorem getnum_one (a : Nat) (ha : a < 10) (x : Char) (hx : isDigit x = false) (rest : Str) :
    getnum (digitChar a :: x :: rest) false = some (a, x :: rest) := by
  simp [getnum, digitChar_isDigit, digitVal_digitChar, ha, hx]

theorem atoiDigits_four (a b c d : Nat) (ha : a < 10) (hb : b < 10) (hc : c < 10) (hd : d < 10) :
    atoiDigits [digitChar a, digitChar b, digitChar c, digitChar d] =
      some (((a * 10 + b) * 10 + c) * 10 + d) := by
  simp [atoiDigits, digitChar_isDigit, digitVal_digitChar, ha, hb, hc, hd]

/-- Reading a stamp back gives the instant it was written from, with the
seconds at zero. -/
theorem Parse_Format (t : Time) (hv : t.valid = true) (hy : t.year ≤ 9999) :
    Parse TIME_FORMAT (t.Format TIME_FORMAT) =
      Except.ok { t with sec := 0, nsec := 0 } := by
  obtain ⟨hm1, hm2, hd1, hd2, hh, hmi, -, -⟩ := valid_bounds t hv
  have hd3 := daysIn_le t.month t.year
  obtain ⟨a, b, c, hmon, -, -, -, hlook⟩ := month_text t.month hm1 hm2
  rw [Format_TIME_FORMAT, appendInt_year t.year hy, appendInt_two t.hour (by omega),
    appendInt_two t.min (by omega), hmon]
  unfold Parse
  rw [layoutChunks_TIME_FORMAT]
  have hy' : ((t.year / 1000 * 10 + t.year / 100 % 10) * 10 + t.year / 10 % 10) * 10 +
      t.year % 10 = t.year := by omega
  have hh' : t.hour / 10 * 10 + t.hour % 10 = t.hour := by omega
  have hmi' : t.min / 10 * 10 + t.min % 10 = t.min := by omega
  have hdash : isDigit '-' = false := by decide
  by_cases hday : t.day < 10
  · rw [appendInt_day_one t.day hday]
    simp [parseLoop, digitChar_isDigit, hlook, getnum_one, getnum_two, atoiDigits_four,
      show t.year / 1000 < 10 by omega, show t.year / 100 % 10 < 10 by omega,
      show t.year / 10 % 10 < 10 by omega, show t.year % 10 < 10 by omega,
      show t.hour / 10 < 10 by omega, show t.hour % 10 < 10 by omega,
      show t.min / 10 < 10 by omega, show t.min % 10 < 10 by omega, hday, hdash, hy', hh', hmi',
      hh, hmi, hd1, hd2]
    rw [if_neg (by omega), if_neg (by omega)]
    simp only [Option.getD_some]
    rw [if_neg (by omega)]
  · rw [appendInt_day_two t.day (by omega) (by omega)]
    have hdd : t.day / 10 * 10 + t.day % 10 = t.day := by omega
    simp [parseLoop, digitChar_isDigit, hlook, getnum_one, getnum_two, atoiDigits_four,
      show t.year / 1000 < 10 by omega, show t.year / 100 % 10 < 10 by omega,
      show t.year / 10 % 10 < 10 by omega, show t.year % 10 < 10 by omega,
      show t.hour / 10 < 10 by omega, show t.hour % 10 < 10 by omega,
      show t.min / 10 < 10 by omega, show t.min % 10 < 10 by omega,
      show t.day / 10 < 10 by omega, show t.day % 10 < 10 by omega, hdash, hy', hh', hmi', hdd,
      hh, hmi, hd1, hd2]
    rw [if_neg (by omega), if_neg (by omega)]
    simp only [Option.getD_some]
    rw [if_neg (by omega)]

theorem plain_digits (l : List Nat) :
    ∀ c ∈ l.map digitChar, plainChar c = true := by
  intro c hc
  obtain ⟨d, -, rfl⟩ := List.mem_map.mp hc
  exact plainChar_of_isDigit _ (digitChar_isDigit d)

/-- Shape of a stamp: five runs of plain characters, joined by three dashes
and a colon and closed by `:07`. -/
theorem stamp_shape (t : Time) (hv : t.valid = true) (hy : t.year ≤ 9999) :
    ∃ P1 P2 P3 P4 P5 : Str,
      t.Format TIME_FORMAT =
        P1 ++ '-' :: (P2 ++ '-' :: (P3 ++ '-' :: (P4 ++ ':' :: (P5 ++ [':', '0', '7'])))) ∧
      ∀ P ∈ [P1, P2, P3, P4, P5], P ≠ [] ∧ ∀ c ∈ P, plainChar c = true := by
  obtain ⟨hm1, hm2, hd1, hd2, hh, hmi, -, -⟩ := valid_bounds t hv
  have hd3 := daysIn_le t.month t.year
  obtain ⟨a, b, c, hmon, ha, hb, hc, -⟩ := month_text t.month hm1 hm2
  refine ⟨appendInt t.year 4, shortMonthName t.month, appendInt t.day 0, appendInt t.hour 2,
    appendInt t.min 2, Format_TIME_FORMAT t, ?_⟩
  have hY := plain_digits [t.year / 1000, t.year / 100 % 10, t.year / 10 % 10, t.year % 10]
  have hH := plain_digits [t.hour / 10, t.hour % 10]
  have hM := plain_digits [t.min / 10, t.min % 10]
  have hD : appendInt t.day 0 ≠ [] ∧ ∀ c ∈ appendInt t.day 0, plainChar c = true := by
    by_cases hday : t.day < 10
    · rw [appendInt_day_one t.day hday]
      exact ⟨by simp, plain_digits [t.day]⟩
    · rw [appendInt_day_two t.day (by omega) (by omega)]
      exact ⟨by simp, plain_digits [t.day / 10, t.day % 10]⟩
  rw [appendInt_year t.year hy, appendInt_two t.hour (by omega), appendInt_two t.min (by omega),
    hmon]
  intro P hP
  simp only [List.mem_cons, List.mem_singleton, List.not_mem_nil, or_false] at hP
  rcases hP with rfl | rfl | rfl | rfl | rfl
  · exact ⟨by simp, hY⟩
  · refine ⟨by simp, ?_⟩
    intro x hx
    simp only [List.mem_cons, List.mem_singleton, List.not_mem_nil, or_false] at hx
    rcases hx with rfl | rfl | rfl <;> assumption
  · exact hD
  · exact ⟨by simp, hH⟩
  · exact ⟨by simp, hM⟩

theorem cut3_plain (P R : Str) (hP : ∀ c ∈ P, plainChar c = true)
    (hR : cut ['-', '-', '-'] R = none) : cut ['-', '-', '-'] (P ++ R) = none := by
  rw [cut_skip ['-', '-', '-'] R P
    (noMatch_of_head '-' ['-', '-'] P R (fun c hc => (plainChar_ne c (hP c hc)).1)), hR]
  rfl

theorem cut3_dash (P R : Str) (hne : P ≠ []) (hP : ∀ c ∈ P, plainChar c = true)
    (hR : cut ['-', '-', '-'] (P ++ R) = none) : cut ['-', '-', '-'] ('-' :: (P ++ R)) = none := by
  cases P with
  | nil => exact absurd rfl hne
  | cons x P =>
    have hx : x ≠ '-' := (plainChar_ne x (hP x (by simp))).1
    have hp : ['-', '-', '-'].isPrefixOf ('-' :: (x :: P ++ R)) = false := by
      have : '-' ≠ x := fun e => hx e.symm
      simp [List.isPrefixOf, this]
    rw [cut_cons_false _ _ _ hp, hR]
    rfl

theorem map_plain (f : Char → Char) (x : Char) (hf : ∀ c, c ≠ x → f c = c) (hx : plainChar x = false)
    (P : Str) (hP : ∀ c ∈ P, plainChar c = true) : P.map f = P := by
  have : ∀ c ∈ P, f c = c := fun c hc => hf c (fun e => by
    have h1 := hP c hc
    rw [e, hx] at h1
    exact Bool.noConfusion h1)
  calc P.map f = P.map id := List.map_congr_left this
    _ = P := List.map_id P

/-- What the codec needs to know about a stamp `st`: it has no space, no dot
and no `d`; it starts with a plain character and ends in `7`; and with its
colons turned into dots it is free of the separator `---`. -/
theorem stamp_props (t : Time) (hv : t.valid = true) (hy : t.year ≤ 9999) :
    ' ' ∉ t.Format TIME_FORMAT ∧ '.' ∉ t.Format TIME_FORMAT ∧ 'd' ∉ t.Format TIME_FORMAT ∧
    (∃ x m, t.Format TIME_FORMAT = x :: (m ++ ['7']) ∧ plainChar x = true) ∧
    cut ['-', '-', '-'] ((t.Format TIME_FORMAT).map (fun c => if c = ':' then '.' else c)) = none := by
  obtain ⟨P1, P2, P3, P4, P5, hst, hP⟩ := stamp_shape t hv hy
  obtain ⟨n1, p1⟩ := hP P1 (by simp)
  obtain ⟨n2, p2⟩ := hP P2 (by simp)
  obtain ⟨n3, p3⟩ := hP P3 (by simp)
  obtain ⟨n4, p4⟩ := hP P4 (by simp)
  obtain ⟨n5, p5⟩ := hP P5 (by simp)
  have notin : ∀ x : Char, plainChar x = false → x ≠ '-' → x ≠ ':' → x ≠ '0' → x ≠ '7' →
      x ∉ t.Format TIME_FORMAT := by
    intro x hx h1 h2 h3 h4 hmem
    rw [hst] at hmem
    simp only [List.mem_append, List.mem_cons, List.mem_singleton, List.not_mem_nil,
      or_false] at hmem
    have no : ∀ P : Str, (∀ c ∈ P, plainChar c = true) → x ∉ P := by
      intro P pP hxP
      rw [pP x hxP] at hx
      exact Bool.noConfusion hx
    rcases hmem with h | h | h | h | h | h | h | h | h | h | h | h
    · exact no P1 p1 h
    · exact h1 h
    · exact no P2 p2 h
    · exact h1 h
    · exact no P3 p3 h
    · exact h1 h
    · exact no P4 p4 h
    · exact h2 h
    · exact no P5 p5 h
    · exact h2 h
    · exact h3 h
    · exact h4 h
  refine ⟨notin ' ' (by decide) (by decide) (by decide) (by decide) (by decide),
    notin '.' (by decide) (by decide) (by decide) (by decide) (by decide),
    notin 'd' (by decide) (by decide) (by decide) (by decide) (by decide), ?_, ?_⟩
  · cases P1 with
    | nil => exact absurd rfl n1
    | cons x P1 =>
      refine ⟨x, P1 ++ '-' :: (P2 ++ '-' :: (P3 ++ '-' :: (P4 ++ ':' :: (P5 ++ [':', '0'])))), ?_,
        p1 x (by simp)⟩
      rw [hst]
      simp
  · have fix : ∀ P : Str, (∀ c ∈ P, plainChar c = true) →
        P.map (fun c => if c = ':' then '.' else c) = P :=
      fun P pP => map_plain _ ':' (fun c hc => by simp [hc]) (by decide) P pP
    rw [hst]
    simp only [List.map_append, List.map_cons, List.map_nil, fix P1 p1, fix P2 p2, fix P3 p3,
      fix P4 p4, fix P5 p5]
    simp only [if_true, show ¬ ('-' = ':') by decide, show ¬ ('0' = ':') by decide,
      show ¬ ('7' = ':') by decide, if_false]
    apply cut3_plain P1 _ p1
    apply cut3_dash P2 _ n2 p2
    apply cut3_plain P2 _ p2
    apply cut3_dash P3 _ n3 p3
    apply cut3_plain P3 _ p3
    apply cut3_dash P4 _ n4 p4
    apply cut_none_of_not_mem ['-', '-', '-'] '-' (by simp)
    intro hmem
    simp only [List.mem_append, List.mem_cons, List.mem_singleton, List.not_mem_nil,
      or_false] at hmem
    rcases hmem with h | h | h | h | h | h
    · exact (plainChar_ne _ (p4 _ h)).1 rfl
    · exact absurd h (by decide)
    · exact (plainChar_ne _ (p5 _ h)).1 rfl
    · exact absurd h (by decide)
    · exact absurd h (by decide)
    · exact absurd h (by decide)

/-- The stamp as it stands in a name: the colons of the formatted instant
turned into dots (the format has no space to replace). -/
theorem expiryStamp_eq (t : Time) (hv : t.valid = true) (hy : t.year ≤ 9999) :
    expiryStamp t = (t.Format TIME_FORMAT).map (fun c => if c = ':' then '.' else c) := by
  obtain ⟨hsp, -, -, -, -⟩ := stamp_props t hv hy
  unfold expiryStamp
  rw [Replace_of_cut_none _ " ".toList _ _
    (cut_none_of_not_mem " ".toList ' ' (by decide) _ hsp)]
  exact Replace_char _ ':' '.' (by decide)

/-- Decoding a claimed name whose part before the status has no separator
inside: the stamp is read back, with the seconds at zero. -/
theorem getDate_of_claimed (a : Str) (t : Time) (hv : t.valid = true) (hy : t.year ≤ 9999)
    (ha : ∀ u v, a = u ++ v → v ≠ [] →
      ['-', '-', '-'].isPrefixOf (v ++ (['-', '-', '-'] ++ ("allocated--".toList ++ expiryStamp t)))
        = false) :
    getDateOfAllocatedContainer (a ++ (['-', '-', '-'] ++ ("allocated--".toList ++ expiryStamp t))) =
      Outcome.ok { t with sec := 0, nsec := 0 } := by
  obtain ⟨-, hdot, hd, ⟨x, m, hxm, hx⟩, hcut⟩ := stamp_props t hv hy
  have hst := expiryStamp_eq t hv hy
  generalize hS : expiryStamp t = st' at *
  generalize hT : t.Format TIME_FORMAT = st at *
  have hpx := plainChar_ne x hx
  -- the piece after the separator
  have hb : cut ['-', '-', '-'] ("allocated--".toList ++ st') = none := by
    rw [hst, hxm, List.map_cons]
    have e : (if x = ':' then '.' else x) = x := by simp [hpx.2.2.2.2.1]
    rw [e]
    rw [cut_skip ['-', '-', '-'] _ "allocated--".toList
      (noMatch_of_cut_none _ _ x _ (by decide) (by simp [hpx.1]))]
    have : cut ['-', '-', '-'] (x :: List.map (fun c => if c = ':' then '.' else c) (m ++ ['7']))
        = none := by
      have h := hcut
      rw [hxm, List.map_cons, e] at h
      exact h
    rw [this]; rfl
  have hsplit : Split (a ++ (['-', '-', '-'] ++ ("allocated--".toList ++ st'))) "---".toList =
      [a, "allocated--".toList ++ st'] := by
    apply Split_two _ _ _ _ (by simp) _ hb
    rw [cut_skip _ _ a ha, cut_self_append]
    simp
  have hfirst : Replace ("allocated--".toList ++ st') "--".toList " ".toList 1 =
      "allocated".toList ++ (' ' :: st') := by
    have hc : cut "--".toList ("allocated--".toList ++ st') = some ("allocated".toList, st') := by
      rw [show "allocated--".toList = "allocated".toList ++ ['-', '-'] from rfl,
        List.append_assoc, show "--".toList = ['-', '-'] from rfl,
        cut_skip ['-', '-'] _ "allocated".toList
          (noMatch_of_head '-' ['-'] _ _ (by decide)), cut_self_append]
      simp
    rw [Replace_first _ _ _ _ _ (by decide) hc]
    simp
  have hback : Replace ("allocated".toList ++ (' ' :: st')) ".".toList ":".toList (-1) =
      "allocated".toList ++ (' ' :: st) := by
    rw [show ".".toList = ['.'] from rfl, show ":".toList = [':'] from rfl,
      Replace_char _ '.' ':' (by decide), List.map_append, List.map_cons, hst, List.map_map]
    have e1 : List.map (fun c => if c = '.' then ':' else c) "allocated".toList =
        "allocated".toList := by decide
    have e2 : List.map ((fun c => if c = '.' then ':' else c) ∘
        (fun c => if c = ':' then '.' else c)) st = st := by
      have : ∀ c ∈ st, ((fun c => if c = '.' then ':' else c) ∘
          (fun c => if c = ':' then '.' else c)) c = id c := by
        intro c hc
        have hne : c ≠ '.' := fun e => hdot (e ▸ hc)
        by_cases h : c = ':'
        · simp [h]
        · simp [h, hne]
      rw [List.map_congr_left this, List.map_id]
    rw [e1, e2]
    simp
  have hstrip : Replace ("allocated".toList ++ (' ' :: st)) ALLOCATED_CONTAINER_STATUS [] (-1) =
      ' ' :: st := by
    have := Replace_all_front 'a' "llocated".toList [] (' ' :: st) (by decide)
      (cut_none_of_not_mem _ 'd' (by decide) _ (by
        intro h
        rcases List.mem_cons.mp h with h | h
        · exact absurd h (by decide)
        · exact hd h))
    simpa using this
  have htrim : TrimSpace (' ' :: st) = st := by
    rw [hxm]
    exact TrimSpace_space_cons x '7' m hpx.2.2.2.2.2 (by decide)
  unfold getDateOfAllocatedContainer
  simp only [hsplit, List.length_cons, List.length_nil, List.get?, hfirst, hback, hstrip, htrim]
  rw [if_neg (by decide), ← hT, Parse_Format t hv hy]

theorem noMatch_append (sep a1 a2 R : Str)
    (h1 : ∀ u v, a1 = u ++ v → v ≠ [] → sep.isPrefixOf (v ++ (a2 ++ R)) = false)
    (h2 : ∀ u v, a2 = u ++ v → v ≠ [] → sep.isPrefixOf (v ++ R) = false) :
    ∀ u v, a1 ++ a2 = u ++ v → v ≠ [] → sep.isPrefixOf (v ++ R) = false := by
  intro u v e hv
  rcases List.append_eq_append_iff.mp e with ⟨w, rfl, rfl⟩ | ⟨w, rfl, rfl⟩
  · exact h2 w v rfl hv
  · cases w with
    | nil => exact h2 [] a2 rfl (by simpa using hv)
    | cons c w =>
      have := h1 u (c :: w) rfl (by simp)
      simpa using this

theorem itoaLoop_digits :
    ∀ (fuel n : Nat) (acc : Str), (∀ c ∈ acc, isDigit c = true) →
      ∀ c ∈ itoaLoop fuel n acc, isDigit c = true
  | 0, _, _, h => h
  | fuel + 1, n, acc, h => by
    rw [itoaLoop_step]
    split
    · intro c hc
      rcases List.mem_cons.mp hc with rfl | hc
      · exact digitChar_isDigit n
      · exact h c hc
    · apply itoaLoop_digits fuel
      intro c hc
      rcases List.mem_cons.mp hc with rfl | hc
      · exact digitChar_isDigit _
      · exact h c hc

theorem itoaLoop_ne_nil :
    ∀ (fuel n : Nat) (acc : Str), acc ≠ [] → itoaLoop fuel n acc ≠ []
  | 0, _, _, h => h
  | fuel + 1, n, acc, _ => by
    rw [itoaLoop_step]
    split
    · simp
    · exact itoaLoop_ne_nil fuel _ _ (by simp)

/-- A printed number is a non-empty run of digits. -/
theorem Itoa_digits (n : Nat) :
    ∃ d ds, Itoa n = d :: ds ∧ ∀ c ∈ d :: ds, isDigit c = true := by
  have h1 : Itoa n ≠ [] := by
    rw [Itoa, show (20 : Nat) = 19 + 1 from rfl, itoaLoop_step]
    split
    · simp
    · exact itoaLoop_ne_nil 19 _ _ (by simp)
  have h2 : ∀ c ∈ Itoa n, isDigit c = true := itoaLoop_digits 20 n [] (by simp)
  cases h : Itoa n with
  | nil => exact absurd h h1
  | cons d ds => exact ⟨d, ds, rfl, h ▸ h2⟩

theorem cut_none_of_Contains (s sep : Str) (h : Contains s sep = false) : cut sep s = none := by
  unfold Contains at h
  cases hc : cut sep s with
  | none => rfl
  | some r => rw [hc] at h; exact Bool.noConfusion h

/-- Claiming a fresh name turns its status, and only that, into `allocated`. -/
theorem setAllocatedStatus_fresh (p : Str) (n : Nat)
    (hnew : Contains p NEW_CONTAINER_STATUS = false) :
    setAllocatedStatus (p ++ "-".toList ++ Itoa n ++ "---".toList ++ NEW_CONTAINER_STATUS) =
      p ++ "-".toList ++ Itoa n ++ "---".toList ++ ALLOCATED_CONTAINER_STATUS := by
  obtain ⟨d, ds, hid, hdig⟩ := Itoa_digits n
  have hc : cut NEW_CONTAINER_STATUS
      (p ++ (('-' :: (Itoa n ++ ['-', '-', '-'])) ++ NEW_CONTAINER_STATUS)) =
      some (p ++ (('-' :: (Itoa n ++ ['-', '-', '-'])) ++ []), []) := by
    have hmid : ∀ c ∈ '-' :: (Itoa n ++ ['-', '-', '-']), c ≠ 'n' := by
      intro c hc
      simp only [List.mem_cons, List.mem_append, List.mem_singleton, List.not_mem_nil,
        or_false] at hc
      rcases hc with rfl | h | rfl | rfl | rfl
      · decide
      · rw [hid] at h
        have := isDigit_toNat c (hdig c h)
        intro e; subst e; revert this; decide
      · decide
      · decide
      · decide
    have s1 := cut_skip NEW_CONTAINER_STATUS
      ('-' :: ((Itoa n ++ ['-', '-', '-']) ++ NEW_CONTAINER_STATUS)) p
      (noMatch_of_cut_none _ p '-' ((Itoa n ++ ['-', '-', '-']) ++ NEW_CONTAINER_STATUS)
        (cut_none_of_Contains _ _ hnew) (by decide))
    have s2 := cut_skip ('n' :: ['e', 'w']) ('n' :: ['e', 'w']) _
      (noMatch_of_head 'n' ['e', 'w'] _ _ hmid)
    have s3 : cut ('n' :: ['e', 'w']) ('n' :: ['e', 'w']) = some ([], []) := by decide
    rw [s3] at s2
    show cut NEW_CONTAINER_STATUS
      (p ++ '-' :: ((Itoa n ++ ['-', '-', '-']) ++ NEW_CONTAINER_STATUS)) = _
    rw [s1]
    show Option.map _ (cut ('n' :: ['e', 'w'])
      (('-' :: (Itoa n ++ ['-', '-', '-'])) ++ ('n' :: ['e', 'w']))) = _
    rw [s2]
    simp
  unfold setAllocatedStatus
  have e : p ++ "-".toList ++ Itoa n ++ "---".toList ++ NEW_CONTAINER_STATUS =
      p ++ (('-' :: (Itoa n ++ ['-', '-', '-'])) ++ NEW_CONTAINER_STATUS) := by
    simp [show "-".toList = ['-'] from rfl, show "---".toList = ['-', '-', '-'] from rfl]
  rw [e, Replace_first _ _ _ _ _ (by decide) hc]
  simp [show "-".toList = ['-'] from rfl, show "---".toList = ['-', '-', '-'] from rfl]

/-! ## C1: the round trip of the name codec -/

/-- C1 (as amended): for every base name `<prefix>-<randomID>---new` whose
prefix does not contain `new` and, followed by its dash, does not contain
`---`, and every expiry instant `t` a clock can show with a year of at most
four digits, claiming the name and decoding the result succeeds and returns an
instant with the year, month, day, hour and minute of `t`. -/
theorem c1_roundtrip (p : Str) (n : Nat) (t : Time)
    (hnew : Contains p NEW_CONTAINER_STATUS = false)
    (hsep : Contains (p ++ "-".toList) "---".toList = false)
    (hv : t.valid = true) (hy : t.year ≤ 9999) :
    ∃ r, getDateOfAllocatedContainer
        (allocatedName (p ++ "-".toList ++ Itoa n ++ "---".toList ++ NEW_CONTAINER_STATUS) t) =
        Outcome.ok r ∧
      r.year = t.year ∧ r.month = t.month ∧ r.day = t.day ∧ r.hour = t.hour ∧ r.min = t.min := by
  refine ⟨{ t with sec := 0, nsec := 0 }, ?_, rfl, rfl, rfl, rfl, rfl⟩
  obtain ⟨d, ds, hid, hdig⟩ := Itoa_digits n
  have hd : d ≠ '-' := (plainChar_ne d (plainChar_of_isDigit d (hdig d (by simp)))).1
  have ha := noMatch_append ['-', '-', '-'] (p ++ ['-']) (d :: ds)
    (['-', '-', '-'] ++ ("allocated--".toList ++ expiryStamp t))
    (noMatch_of_cut_none _ _ d _ (cut_none_of_Contains _ _ hsep) (by simp [hd]))
    (noMatch_of_head '-' ['-', '-'] _ _
      (fun c hc => (plainChar_ne c (plainChar_of_isDigit c (hdig c hc))).1))
  have h := getDate_of_claimed ((p ++ ['-']) ++ (d :: ds)) t hv hy ha
  unfold allocatedName
  rw [setAllocatedStatus_fresh p n hnew, hid]
  rw [← h]
  congr 1
  simp [show "-".toList = ['-'] from rfl, show "---".toList = ['-', '-', '-'] from rfl,
    show "--".toList = ['-', '-'] from rfl,
    show "allocated--".toList = ALLOCATED_CONTAINER_STATUS ++ ['-', '-'] from rfl]
  rfl

/-- Instance of `c1_roundtrip`: prefix `bbpool`, identifier 1234567, expiry
2 January 2020, 15:04:05. -/
theorem c1_roundtrip_witness :
    Contains "bbpool".toList NEW_CONTAINER_STATUS = false ∧
    Contains ("bbpool".toList ++ "-".toList) "---".toList = false ∧
    ∃ r, getDateOfAllocatedContainer
        (allocatedName ("bbpool".toList ++ "-".toList ++ Itoa 1234567 ++ "---".toList ++
          NEW_CONTAINER_STATUS)
          { year := 2020, month := 1, day := 2, hour := 15, min := 4, sec := 5, nsec := 0 }) =
        Outcome.ok r ∧
      r.year = 2020 ∧ r.month = 1 ∧ r.day = 2 ∧ r.hour = 15 ∧ r.min = 4 :=
  ⟨by decide, by decide,
    c1_roundtrip "bbpool".toList 1234567
      { year := 2020, month := 1, day := 2, hour := 15, min := 4, sec := 5, nsec := 0 }
      (by decide) (by decide) (by decide) (by decide)⟩

/-- C1 as stated fails.  The prefix `x--` contains neither `new` nor `---`,
yet the name built from it does not decode; with prefix `bbpool` an expiry of
15:04:05 decodes to 15:04:00, not to the instant truncated to whole seconds;
and an expiry in the year 12020 gives a name that does not decode. -/
theorem c1_counterexample :
    (Contains "x--".toList NEW_CONTAINER_STATUS = false ∧
      Contains "x--".toList "---".toList = false ∧
      getDateOfAllocatedContainer
        (allocatedName ("x--".toList ++ "-".toList ++ Itoa 1234567 ++ "---".toList ++
          NEW_CONTAINER_STATUS)
          { year := 2020, month := 1, day := 2, hour := 15, min := 4, sec := 0, nsec := 0 }) =
        Outcome.error (Err.describe "container_name".toList
          "x---1234567---allocated--2020-Jan-2-15.04.07".toList
          (parseError "bad value"))) ∧
    (getDateOfAllocatedContainer
        (allocatedName ("bbpool".toList ++ "-".toList ++ Itoa 1234567 ++ "---".toList ++
          NEW_CONTAINER_STATUS)
          { year := 2020, month := 1, day := 2, hour := 15, min := 4, sec := 5, nsec := 0 }) =
        Outcome.ok { year := 2020, month := 1, day := 2, hour := 15, min := 4, sec := 0, nsec := 0 } ∧
      Time.truncSecond { year := 2020, month := 1, day := 2, hour := 15, min := 4, sec := 5, nsec := 0 } ≠
        { year := 2020, month := 1, day := 2, hour := 15, min := 4, sec := 0, nsec := 0 }) ∧
    getDateOfAllocatedContainer
        (allocatedName ("bbpool".toList ++ "-".toList ++ Itoa 1234567 ++ "---".toList ++
          NEW_CONTAINER_STATUS)
          { year := 12020, month := 1, day := 2, hour := 15, min := 4, sec := 0, nsec := 0 }) =
      Outcome.error (Err.describe "container_name".toList
        "bbpool-1234567---allocated--12020-Jan-2-15.04.07".toList
        (parseError "bad value")) := by
  decide

/-! ## C2: the capacity ceiling -/

theorem countMatching_le_byPrefix (pre : Str) :
    ∀ cs : List Container, countMatching pre cs ≤ (byPrefix pre cs).length
  | [] => by simp [countMatching, byPrefix]
  | c :: cs => by
    have ih := countMatching_le_byPrefix pre cs
    unfold countMatching byPrefix at *
    simp only [List.filter_cons, List.flatMap_cons, List.length_append, List.length_map]
    by_cases h : c.Names.any (fun name => Contains name pre) = true
    · have : 0 < (c.Names.filter (fun name => Contains name pre)).length := by
        rw [List.length_pos_iff_exists_mem]
        obtain ⟨name, hn, hc⟩ := List.any_eq_true.mp h
        exact ⟨name, List.mem_filter.mpr ⟨hn, hc⟩⟩
      simp only [h, if_true, List.length_cons]
      omega
    · simp only [h, Bool.false_eq_true, if_false]
      omega

/-- C2: in every state of the runtime with at least six containers matching
the configured prefix, and the listing of the containers succeeding,
`CreateAndStartContainer` returns the capacity error, and `HandleNewContainer`
and `CreateFreeContainer` return it wrapped; in each case the only call made
is the listing, so nothing is created or started, no port is reserved, and
the containers are unchanged, whatever the configured version is. -/
theorem c2_capacity_ceiling (operator : Operator) (rounds : Nat) (w : World)
    (hlist : operator.docker.cli.fail w.log.length = none)
    (hfull : MAX_NUMBER_OF_CONTAINERS ≤ countMatching operator.config.Prefix w.containers) :
    operator.CreateAndStartContainer w =
      (Outcome.error capacityError, { w with log := w.log ++ [Call.ContainerList] }) ∧
    operator.HandleNewContainer rounds w =
      (Outcome.error (format "unable to create and start container" capacityError),
        { w with log := w.log ++ [Call.ContainerList] }) ∧
    operator.CreateFreeContainer rounds w =
      (Outcome.error (format "unable to handle new container"
          (format "unable to create and start container" capacityError)),
        { w with log := w.log ++ [Call.ContainerList] }) := by
  have hlen := countMatching_le_byPrefix operator.config.Prefix w.containers
  have hge : (byPrefix operator.config.Prefix w.containers).length ≥ MAX_NUMBER_OF_CONTAINERS :=
    le_trans hfull hlen
  have h1 : operator.CreateAndStartContainer w =
      (Outcome.error capacityError, { w with log := w.log ++ [Call.ContainerList] }) := by
    simp [Operator.CreateAndStartContainer, Operator.isExceedsNumberOfCreatedContainers,
      Docker.GetContainersListByPrefix, cliContainerList, call, record, getContainers, orFail,
      bind, pure, M.bind, M.pure, failWith, hlist, hge, capacityError]
    rfl
  refine ⟨h1, ?_, ?_⟩
  · simp [Operator.HandleNewContainer, orFail, bind, M.bind, h1, format]
  · simp [Operator.CreateFreeContainer, Operator.HandleNewContainer, orFail, bind, M.bind, h1,
      format]

/-- Instance of `c2_capacity_ceiling`: six containers named with the prefix
`bbpool`, an unusable version text in the configuration. -/
theorem c2_capacity_ceiling_witness :
    sampleEnv.fail fullWorld.log.length = none ∧
    MAX_NUMBER_OF_CONTAINERS ≤ countMatching badVersionOperator.config.Prefix fullWorld.containers ∧
    badVersionOperator.CreateAndStartContainer fullWorld =
      (Outcome.error capacityError,
        { fullWorld with log := fullWorld.log ++ [Call.ContainerList] }) ∧
    badVersionOperator.HandleNewContainer 1 fullWorld =
      (Outcome.error (format "unable to create and start container" capacityError),
        { fullWorld with log := fullWorld.log ++ [Call.ContainerList] }) ∧
    badVersionOperator.CreateFreeContainer 1 fullWorld =
      (Outcome.error (format "unable to handle new container"
          (format "unable to create and start container" capacityError)),
        { fullWorld with log := fullWorld.log ++ [Call.ContainerList] }) :=
  ⟨rfl, by decide, c2_capacity_ceiling badVersionOperator 1 fullWorld rfl (by decide)⟩

/-! ## C3: the allocation fallback -/

/-- C3 (the code at the failing input): in an empty runtime with every call
succeeding, `CreateFreeContainer` claims the container it created, so that the
runtime lists it as `/bbpool-1234567---allocated--2020-Jan-2-16.04.07`, but the
record it returns is the one fetched before the rename: its name is
`/bbpool-1234567---new`, without the allocated marker and without an expiry
to decode.  The name in the runtime decodes to 16:04:00, the claim time plus
one hour being 16:04:05. -/
theorem c3_returns_unclaimed_record :
    ∃ c w1 listed,
      sampleOperator.CreateFreeContainer 1 emptyWorld = (Outcome.ok (some c), w1) ∧
      c.Names = ["/bbpool-1234567---new".toList] ∧
      Contains "/bbpool-1234567---new".toList ALLOCATED_CONTAINER_STATUS = false ∧
      (∃ e, getDateOfAllocatedContainer "/bbpool-1234567---new".toList = Outcome.error e) ∧
      w1.containers = [listed] ∧ listed.ID = c.ID ∧
      listed.Names = ["/bbpool-1234567---allocated--2020-Jan-2-16.04.07".toList] ∧
      getDateOfAllocatedContainer "/bbpool-1234567---allocated--2020-Jan-2-16.04.07".toList =
        Outcome.ok { year := 2020, month := 1, day := 2, hour := 16, min := 4, sec := 0, nsec := 0 } ∧
      sampleTime.Add CLEANING_INTERVAL =
        { year := 2020, month := 1, day := 2, hour := 16, min := 4, sec := 5, nsec := 0 } := by
  refine ⟨_, _, _, rfl, by decide, by decide, ⟨_, rfl⟩, rfl, by decide, by decide, by decide,
    by decide⟩

/-! ## C4: what `/freecontainer` does to the member it hands out -/

theorem firstName_world (c : Container) (w : World) :
    firstName c w = ((firstName c emptyWorld).1, w) := by
  unfold firstName
  cases c.Names <;> rfl

/-- The status filter reads names only: it leaves the world as it is, and its
result does not depend on the world. -/
theorem withStatus_world (status : Str) :
    ∀ (cs : List Container) (w : World),
      withStatus status cs w = ((withStatus status cs emptyWorld).1, w)
  | [], w => rfl
  | c :: cs, w => by
    have h1 := firstName_world c w
    have h2 := fun w => withStatus_world status cs w
    simp only [withStatus, bind, M.bind, pure, M.pure]
    rw [h1]
    cases hn : (firstName c emptyWorld).1 with
    | ok name =>
      have : firstName c emptyWorld = (Outcome.ok name, emptyWorld) := by
        rw [firstName_world c emptyWorld, hn]
      simp only [this]
      rw [h2 w, h2 emptyWorld]
      generalize (withStatus status cs emptyWorld).1 = r
      cases r <;> rfl
    | error e =>
      have : firstName c emptyWorld = (Outcome.error e, emptyWorld) := by
        rw [firstName_world c emptyWorld, hn]
      simp only [this]
    | panic t =>
      have : firstName c emptyWorld = (Outcome.panic t, emptyWorld) := by
        rw [firstName_world c emptyWorld, hn]
      simp only [this]
    | pending =>
      have : firstName c emptyWorld = (Outcome.pending, emptyWorld) := by
        rw [firstName_world c emptyWorld, hn]
      simp only [this]

/-- `GetFreeContainers` makes one call, the listing; when it succeeds the
result is a function of the containers alone. -/
theorem GetFreeContainers_eq (docker : Docker) (w : World) :
    docker.GetFreeContainers w =
      (match docker.cli.fail w.log.length with
        | some text => Outcome.error (format "unable to get container list"
            (Err.format (Err.msg text)
              ("unable to get container list by prefix: ".toList ++ docker.config.Prefix)))
        | none => freeOf docker.config.Prefix w.containers,
       { w with log := w.log ++ [Call.ContainerList] }) := by
  unfold Docker.GetFreeContainers Docker.GetContainersListByPrefix cliContainerList
  cases hf : docker.cli.fail w.log.length with
  | some text =>
    simp [call, record, getContainers, orFail, bind, pure, M.bind, M.pure, failWith, hf, format]
  | none =>
    simp only [call, record, getContainers, orFail, bind, pure, M.bind, M.pure, failWith, hf,
      freeOf]
    split
    · rfl
    · exact withStatus_world _ _ _

/-- C4 (as amended): in every state in which `GetFreeContainers` lists at
least one member, the listing and the writing of the response succeeding, the
`GetFreeContainer` handler answers with the first listed member and renames
nothing: the only calls are the listing and the write, the containers of the
runtime are unchanged, and so the member is still listed as free; a second
request, its two calls succeeding, answers with the same member. -/
theorem c4_free_member_stays_free (handler : Handler) (writer writer2 : ResponseWriter)
    (w : World) (first : Container) (rest : List Container)
    (hlist : handler.operator.docker.cli.fail w.log.length = none)
    (hfree : freeOf handler.operator.docker.config.Prefix w.containers =
      Outcome.ok (first :: rest))
    (hwrite : handler.operator.docker.cli.fail (w.log.length + 1) = none) :
    handler.GetFreeContainer writer w =
      (Outcome.ok (), writer.Write (jsonContainer first ++ "\n".toList),
        { w with log := w.log ++ [Call.ContainerList, Call.WriteJSON] }) ∧
    (handler.operator.docker.cli.fail (w.log.length + 2) = none →
      handler.operator.docker.cli.fail (w.log.length + 3) = none →
      handler.GetFreeContainer writer2
          { w with log := w.log ++ [Call.ContainerList, Call.WriteJSON] } =
        (Outcome.ok (), writer2.Write (jsonContainer first ++ "\n".toList),
          { w with log := w.log ++ [Call.ContainerList, Call.WriteJSON, Call.ContainerList,
              Call.WriteJSON] })) := by
  have key : ∀ (wr : ResponseWriter) (v : World), v.containers = w.containers →
      handler.operator.docker.cli.fail v.log.length = none →
      handler.operator.docker.cli.fail (v.log.length + 1) = none →
      handler.GetFreeContainer wr v =
        (Outcome.ok (), wr.Write (jsonContainer first ++ "\n".toList),
          { v with log := v.log ++ [Call.ContainerList, Call.WriteJSON] }) := by
    intro wr v hc h1 h2
    have hg := GetFreeContainers_eq handler.operator.docker v
    rw [h1, hc, hfree] at hg
    simp [Handler.GetFreeContainer, Operator.GetFreeContanier, orFail, bind, pure, M.bind,
      M.pure, hg, encodeTo, call, record, h2, failWith]
    exact hc.symm
  refine ⟨key writer w rfl hlist hwrite, fun h2 h3 => ?_⟩
  have := key writer2 { w with log := w.log ++ [Call.ContainerList, Call.WriteJSON] } rfl
    (by simpa using h2) (by simpa using h3)
  simpa using this

/-- Instance of `c4_free_member_stays_free`: one unclaimed member. -/
theorem c4_free_member_stays_free_witness :
    sampleEnv.fail oneFreeWorld.log.length = none ∧
    freeOf sampleConfig.Prefix oneFreeWorld.containers = Outcome.ok [freeMember] ∧
    sampleHandler.GetFreeContainer {} oneFreeWorld =
      (Outcome.ok (), ResponseWriter.Write {} (jsonContainer freeMember ++ "\n".toList),
        { oneFreeWorld with log := oneFreeWorld.log ++ [Call.ContainerList, Call.WriteJSON] }) :=
  ⟨rfl, by decide,
    (c4_free_member_stays_free sampleHandler {} {} oneFreeWorld freeMember [] rfl (by decide)
      rfl).1⟩

/-- C4 as stated fails: with one unclaimed member in the runtime, the handler
hands it out and leaves it as it was.  Its name still is
`/bbpool-1234567---new`, without `allocated--`; `GetFreeContainers` still
lists it; and a second request hands out the same member. -/
theorem c4_counterexample :
    sampleHandler.GetFreeContainer {} oneFreeWorld =
      (Outcome.ok (),
        { status := some 200, body := jsonContainer freeMember ++ "\n".toList },
        { containers := [freeMember], log := [Call.ContainerList, Call.WriteJSON] }) ∧
    freeMember.Names = ["/bbpool-1234567---new".toList] ∧
    Contains "/bbpool-1234567---new".toList "allocated--".toList = false ∧
    (sampleOperator.docker.GetFreeContainers
        { containers := [freeMember], log := [Call.ContainerList, Call.WriteJSON] }).1 =
      Outcome.ok [freeMember] ∧
    (sampleHandler.GetFreeContainer {}
        { containers := [freeMember], log := [Call.ContainerList, Call.WriteJSON] }).2.1 =
      { status := some 200, body := jsonContainer freeMember ++ "\n".toList } := by
  decide

/-! ## C5: a lease that ended a second ago -/

/-- C5 (the code at the failing input): at 15:04:30 a member claimed with
expiry 15:04:29 carries the name `/bbpool-1234567---allocated--2020-Jan-2-15.04.07`,
which decodes to 15:04:00; the current time is read back at the same
precision, 15:04:00, which is not after the expiry, and the member is not
returned by `getOverdueContainers`. -/
theorem c5_elapsed_lease_not_returned :
    justExpired.Names = ["/bbpool-1234567---allocated--2020-Jan-2-15.04.07".toList] ∧
    getDateOfAllocatedContainer "/bbpool-1234567---allocated--2020-Jan-2-15.04.07".toList =
      Outcome.ok { year := 2020, month := 1, day := 2, hour := 15, min := 4, sec := 0, nsec := 0 } ∧
    Parse TIME_FORMAT (halfPast.Format TIME_FORMAT) =
      Except.ok { year := 2020, month := 1, day := 2, hour := 15, min := 4, sec := 0, nsec := 0 } ∧
    getOverdueContainers (envAt halfPast) [justExpired] { containers := [justExpired], log := [] } =
      (Outcome.ok [], { containers := [justExpired], log := [Call.Now] }) :=
  ⟨by decide, by decide, rfl, by decide⟩

/-! ## C6: a member whose name does not decode -/

/-- C6 (as amended): `getOverdueContainers` stops at the first member, in list
order, whose expiry segment does not parse.  When the members before it
decode and the clock shows instants with a year of at most four digits, the
pass returns the decode error of that member and no member at all, whatever
the members after it are. -/
theorem c6_malformed_name_aborts (env : Env) (bad : Container) (name : Str) (others : List Str)
    (e : Err) (post : List Container)
    (hclock : ∀ k, (env.clock k).valid = true ∧ (env.clock k).year ≤ 9999)
    (hbad : bad.Names = name :: others)
    (hdec : getDateOfAllocatedContainer name = Outcome.error e) :
    ∀ (pre : List Container) (w : World),
      (∀ c ∈ pre, ∃ n rest t, c.Names = n :: rest ∧
        getDateOfAllocatedContainer n = Outcome.ok t) →
      (getOverdueContainers env (pre ++ bad :: post) w).1 = Outcome.error e
  | [], w, _ => by
    simp [getOverdueContainers, firstName, hbad, liftOutcome, hdec, bind, M.bind, pure, M.pure]
  | c :: pre, w, h => by
    obtain ⟨n, rest, t, hn, ht⟩ := h c (by simp)
    have ih := fun w => c6_malformed_name_aborts env bad name others e post hclock hbad hdec pre w
      (fun c hc => h c (by simp [hc]))
    have hp := Parse_Format (env.clock w.log.length) (hclock _).1 (hclock _).2
    simp only [List.cons_append, getOverdueContainers, firstName, hn, liftOutcome, ht, bind,
      M.bind, pure, M.pure, now, record, hp, liftExcept]
    have := ih { containers := w.containers, log := w.log ++ [Call.Now] }
    revert this
    cases getOverdueContainers env (pre ++ bad :: post)
      { containers := w.containers, log := w.log ++ [Call.Now] } with
    | mk o w2 =>
      intro h2
      simp only at h2
      subst h2
      rfl

/-- Instance of `c6_malformed_name_aborts`: an overdue member, the malformed
one, another overdue member. -/
theorem c6_malformed_name_aborts_witness :
    (∀ k, ((envAt halfPast).clock k).valid = true ∧ ((envAt halfPast).clock k).year ≤ 9999) ∧
    malformed.Names = ["/bbpool-1333333---allocated--soon".toList] ∧
    getDateOfAllocatedContainer "/bbpool-1333333---allocated--soon".toList =
      Outcome.error (Err.describe "container_name".toList
        "/bbpool-1333333---allocated--soon".toList (parseError "bad value")) ∧
    (getOverdueContainers (envAt halfPast) ([longExpired] ++ malformed :: [longExpired])
        emptyWorld).1 =
      Outcome.error (Err.describe "container_name".toList
        "/bbpool-1333333---allocated--soon".toList (parseError "bad value")) :=
  ⟨fun _ => (by decide : halfPast.valid = true ∧ halfPast.year ≤ 9999), rfl, by decide,
    c6_malformed_name_aborts (envAt halfPast) malformed _ [] _ [longExpired]
      (fun _ => (by decide : halfPast.valid = true ∧ halfPast.year ≤ 9999)) rfl (by decide)
      [longExpired] emptyWorld
      (fun c hc => by
        rw [List.mem_singleton.mp hc]
        exact ⟨_, _, (⟨2020, 1, 2, 14, 4, 0, 0⟩ : Time), rfl, by decide⟩)⟩

/-- C6 as stated fails: at 15:04:30 the member `longExpired` alone is returned
for removal, but listed after the malformed member it is not: the pass
returns the decode error, and `CleanAllocatedContainers` fails with it and
removes nothing. -/
theorem c6_counterexample :
    getOverdueContainers (envAt halfPast) [longExpired] emptyWorld =
      (Outcome.ok [longExpired], { containers := [], log := [Call.Now] }) ∧
    getOverdueContainers (envAt halfPast) [malformed, longExpired] emptyWorld =
      (Outcome.error (Err.describe "container_name".toList
        "/bbpool-1333333---allocated--soon".toList (parseError "bad value")), emptyWorld) ∧
    (operatorAt halfPast).CleanAllocatedContainers
        { containers := [malformed, longExpired], log := [] } =
      (Outcome.error (format "unable to get allocated overdue containers from docker"
        (Err.describe "container_name".toList
          "/bbpool-1333333---allocated--soon".toList (parseError "bad value"))),
        { containers := [malformed, longExpired], log := [Call.ContainerList] }) := by
  decide

/-! ## C7: a name without the separator -/

/-- C7 (the code on names without `---`): the split has a single piece, the
guard `len(splittedName) < 1` does not fire, and taking the second piece
panics with an index out of range: neither a time nor an error value is
returned. -/
theorem c7_no_separator_panics (name : Str) (h : Contains name "---".toList = false) :
    getDateOfAllocatedContainer name =
      Outcome.panic "runtime error: index out of range [1] with length 1".toList := by
  unfold getDateOfAllocatedContainer
  rw [Split_of_cut_none name _ (cut_none_of_Contains _ _ h)]
  rfl

/-- Instance of `c7_no_separator_panics`: the name `/bbpool-allocated`, which
`GetAllocatedContainers` lists for the prefix `bbpool`. -/
theorem c7_no_separator_panics_witness :
    Contains "/bbpool-allocated".toList "---".toList = false ∧
    getDateOfAllocatedContainer "/bbpool-allocated".toList =
      Outcome.panic "runtime error: index out of range [1] with length 1".toList :=
  ⟨by decide, c7_no_separator_panics _ (by decide)⟩

/-! ## C8: version resolution -/

theorem mem_run_range (lo hi : Char) (s r : Str) :
    r ∈ (Re.range lo hi).run s ↔ ∃ c, s = c :: r ∧ lo ≤ c ∧ c ≤ hi := by
  cases s with
  | nil => simp [Re.run]
  | cons c s =>
    simp only [Re.run]
    split
    · rename_i h
      simp only [List.mem_singleton, List.cons.injEq]
      constructor
      · intro e; exact ⟨c, ⟨rfl, e.symm⟩, h⟩
      · rintro ⟨c', ⟨rfl, rfl⟩, -⟩; rfl
    · rename_i h
      simp only [List.not_mem_nil, List.cons.injEq, false_iff, not_exists, not_and]
      rintro c' ⟨rfl, -⟩
      exact fun h1 h2 => h ⟨h1, h2⟩

/-- The texts the version expression matches: three or five characters, digits
at the odd places and dots between them. -/
theorem versionExpression_match (v : Str) :
    versionExpression.MatchString v = true ↔
      (∃ a b, isDigit a = true ∧ isDigit b = true ∧ v = [a, '.', b]) ∨
      (∃ a b c, isDigit a = true ∧ isDigit b = true ∧ isDigit c = true ∧
        v = [a, '.', b, '.', c]) := by
  have hd : ∀ c : Char, ('0' ≤ c ∧ c ≤ '9') ↔ isDigit c = true := by
    intro c; simp [isDigit]
  have hdot : ∀ c : Char, ('.' ≤ c ∧ c ≤ '.') ↔ c = '.' := by
    intro c
    constructor
    · intro h; exact le_antisymm h.2 h.1
    · intro h; subst h; exact ⟨le_refl _, le_refl _⟩
  simp only [versionExpression, Re.MatchString, List.any_eq_true, List.isEmpty_iff]
  constructor
  · rintro ⟨r, hr, rfl⟩
    simp only [Re.run, List.mem_flatMap, List.mem_append, List.mem_singleton, mem_run_range,
      hd, hdot] at hr
    obtain ⟨s1, ⟨a, rfl, ha⟩, s3, ⟨s2, ⟨x, rfl, rfl⟩, ⟨b, rfl, hb⟩⟩, h⟩ := hr
    rcases h with ⟨s4, ⟨y, rfl, rfl⟩, ⟨c, rfl, hc⟩⟩ | rfl
    · exact Or.inr ⟨a, b, c, ha, hb, hc, rfl⟩
    · exact Or.inl ⟨a, b, ha, hb, rfl⟩
  · rintro (⟨a, b, ha, hb, rfl⟩ | ⟨a, b, c, ha, hb, hc, rfl⟩)
    · refine ⟨[], ?_, rfl⟩
      simp [Re.run, hd, hdot, ha, hb]
    · refine ⟨[], ?_, rfl⟩
      simp [Re.run, hd, hdot, ha, hb, hc]

/-- C8 (as amended): `getBitbucketImageWithVersion` returns
`atlassian/bitbucket-server:` followed by the configured version exactly
when the version is the literal `latest` or has the form `D.D` or `D.D.D`
with each `D` a single decimal digit, and fails with the error
`wrong bitbucket version` for every other text. -/
theorem c8_version_resolution (operator : Operator) :
    (operator.getBitbucketImageWithVersion =
        Except.ok (BITBUCKET_IMAGE ++ ":".toList ++ operator.config.Bitbucket.Version) ↔
      (operator.config.Bitbucket.Version = "latest".toList ∨
        (∃ a b, isDigit a = true ∧ isDigit b = true ∧
          operator.config.Bitbucket.Version = [a, '.', b]) ∨
        (∃ a b c, isDigit a = true ∧ isDigit b = true ∧ isDigit c = true ∧
          operator.config.Bitbucket.Version = [a, '.', b, '.', c]))) ∧
    (operator.getBitbucketImageWithVersion =
        Except.error (Err.msg "wrong bitbucket version".toList) ↔
      ¬ (operator.config.Bitbucket.Version = "latest".toList ∨
        (∃ a b, isDigit a = true ∧ isDigit b = true ∧
          operator.config.Bitbucket.Version = [a, '.', b]) ∨
        (∃ a b c, isDigit a = true ∧ isDigit b = true ∧ isDigit c = true ∧
          operator.config.Bitbucket.Version = [a, '.', b, '.', c]))) := by
  have hm := versionExpression_match operator.config.Bitbucket.Version
  unfold Operator.getBitbucketImageWithVersion
  by_cases h1 : operator.config.Bitbucket.Version = "latest".toList
  · rw [if_pos h1]
    refine ⟨⟨fun _ => Or.inl h1, fun _ => ?_⟩, ⟨fun h => Except.noConfusion h,
      fun h => absurd (Or.inl h1) h⟩⟩
    rw [h1]
    rfl
  · rw [if_neg h1]
    by_cases h2 : versionExpression.MatchString operator.config.Bitbucket.Version = true
    · rw [if_pos h2]
      exact ⟨⟨fun _ => Or.inr (hm.mp h2), fun _ => rfl⟩, ⟨fun h => Except.noConfusion h,
        fun h => absurd (Or.inr (hm.mp h2)) h⟩⟩
    · rw [if_neg h2]
      have h3 : ¬ (operator.config.Bitbucket.Version = "latest".toList ∨
          (∃ a b, isDigit a = true ∧ isDigit b = true ∧
            operator.config.Bitbucket.Version = [a, '.', b]) ∨
          (∃ a b c, isDigit a = true ∧ isDigit b = true ∧ isDigit c = true ∧
            operator.config.Bitbucket.Version = [a, '.', b, '.', c])) := by
        rintro (h | h)
        · exact h1 h
        · exact h2 (hm.mpr h)
      exact ⟨⟨fun h => Except.noConfusion h, fun h => absurd h h3⟩, ⟨fun _ => h3, fun _ => rfl⟩⟩

/-- C8 as stated fails: `7.10` and `10.2.1` have the form `MAJOR.MINOR` and
`MAJOR.MINOR.PATCH` with decimal-number components, and both are refused;
`7.5`, `latest` and `v7` behave as the claim says. -/
theorem c8_counterexample :
    isSemanticForm "7.10".toList = true ∧
    (operatorWithVersion "7.10".toList).getBitbucketImageWithVersion =
      Except.error (Err.msg "wrong bitbucket version".toList) ∧
    isSemanticForm "10.2.1".toList = true ∧
    (operatorWithVersion "10.2.1".toList).getBitbucketImageWithVersion =
      Except.error (Err.msg "wrong bitbucket version".toList) ∧
    (operatorWithVersion "7.5".toList).getBitbucketImageWithVersion =
      Except.ok "atlassian/bitbucket-server:7.5".toList ∧
    (operatorWithVersion "latest".toList).getBitbucketImageWithVersion =
      Except.ok "atlassian/bitbucket-server:latest".toList ∧
    (operatorWithVersion "v7".toList).getBitbucketImageWithVersion =
      Except.error (Err.msg "wrong bitbucket version".toList) :=
  ⟨by decide, rfl, by decide, rfl, rfl, rfl, rfl⟩

/-! ## C9: what a handler answers when the operator fails -/

/-- The error branch on a response nothing has been written to: the text of
the error goes out first and fixes the status at 200; the `WriteHeader(500)`
after it changes nothing. -/
theorem respondError_fresh (err : Err) (w : World) :
    respondError {} err w =
      (Outcome.ok (), { status := some StatusOK, body := err.Error ++ "\n".toList }, w) := by
  simp [respondError, ResponseWriter.Fprintln, ResponseWriter.Write, ResponseWriter.WriteHeader]

/-- C9 (the code on every error path): whenever the operation a handler calls
returns an error, the response has the error text as its body and the status
200, not 500: the handlers write the body before the header. -/
theorem c9_error_answers_200 (handler : Handler) (id : Str) (w w1 w2 : World) (e : Err) :
    (handler.operator.GetAllContaniersFromDocker w = (Outcome.error e, w1) →
      handler.GetAllContainers {} w =
        (Outcome.ok (), { status := some 200, body := e.Error ++ "\n".toList }, w1)) ∧
    (handler.operator.GetFreeContanier w = (Outcome.error e, w1) →
      e ≠ ErrContainersAllocated →
      handler.GetFreeContainer {} w =
        (Outcome.ok (), { status := some 200, body := e.Error ++ "\n".toList }, w1)) ∧
    (handler.operator.GetFreeContanier w = (Outcome.error ErrContainersAllocated, w1) →
      handler.operator.CreateFreeContainer handler.rounds w1 = (Outcome.error e, w2) →
      handler.GetFreeContainer {} w =
        (Outcome.ok (), { status := some 200, body := e.Error ++ "\n".toList }, w2)) ∧
    (handler.operator.GetContainerByID id w = (Outcome.error e, w1) →
      handler.GetContainerByID id {} w =
        (Outcome.ok (), { status := some 200, body := e.Error ++ "\n".toList }, w1)) ∧
    (handler.operator.HandleNewContainer handler.rounds w = (Outcome.error e, w1) →
      handler.CreateContainer {} w =
        (Outcome.ok (), { status := some 200, body := e.Error ++ "\n".toList }, w1)) ∧
    (handler.operator.RemoveContainerByID id w = (Outcome.error e, w1) →
      handler.RemoveContainer id {} w =
        (Outcome.ok (), { status := some 200, body := e.Error ++ "\n".toList }, w1)) := by
  refine ⟨?_, ?_, ?_, ?_, ?_, ?_⟩
  · intro h
    simp only [Handler.GetAllContainers, h, respondError_fresh]; rfl
  · intro h hne
    simp only [Handler.GetFreeContainer, h, respondError_fresh, if_pos hne]; rfl
  · intro h h2
    simp only [Handler.GetFreeContainer, h, h2, respondError_fresh, ne_eq, not_true_eq_false,
      if_false]; rfl
  · intro h
    simp only [Handler.GetContainerByID, h, respondError_fresh]; rfl
  · intro h
    simp only [Handler.CreateContainer, h, respondError_fresh]; rfl
  · intro h
    simp only [Handler.RemoveContainer, h, respondError_fresh]; rfl

/-- Instance of `c9_error_answers_200`: `/container/all` while the Docker
daemon is down. -/
theorem c9_error_answers_200_witness :
    downHandler.operator.GetAllContaniersFromDocker emptyWorld =
      (Outcome.error downError, { containers := [], log := [Call.ContainerList] }) ∧
    downHandler.GetAllContainers {} emptyWorld =
      (Outcome.ok (), { status := some 200, body := downError.Error ++ "\n".toList },
        { containers := [], log := [Call.ContainerList] }) ∧
    ResponseWriter.code { status := some 200, body := downError.Error ++ "\n".toList } = 200 :=
  ⟨by decide,
    (c9_error_answers_200 downHandler [] emptyWorld
      { containers := [], log := [Call.ContainerList] } emptyWorld downError).1 (by decide),
    rfl⟩

/-! ## C10: lookup by identifier -/

theorem foldl_lastByID_absent (id : Str) :
    ∀ (cs : List Container) (init : Container), (∀ c ∈ cs, c.ID ≠ id) →
      cs.foldl (fun result container => if container.ID = id then container else result) init =
        init
  | [], _, _ => rfl
  | c :: cs, init, h => by
    have hc : c.ID ≠ id := h c (by simp)
    simp only [List.foldl_cons, if_neg hc]
    exact foldl_lastByID_absent id cs init (fun c hc => h c (by simp [hc]))

/-- The loop of `GetContainerByID` on a list that holds the identifier: the
result is a container of the list with that identifier. -/
theorem lastByID_present (id : Str) (cs : List Container) (h : ∃ c ∈ cs, c.ID = id) :
    lastByID id cs ∈ cs ∧ (lastByID id cs).ID = id := by
  unfold lastByID
  suffices ∀ (l : List Container) (init : Container),
      (∃ c ∈ l, c.ID = id) →
      l.foldl (fun result container => if container.ID = id then container else result) init ∈ l ∧
      (l.foldl (fun result container => if container.ID = id then container else result)
        init).ID = id from this cs {} h
  intro l
  induction l with
  | nil => intro _ h; obtain ⟨c, hc, -⟩ := h; simp at hc
  | cons c l ih =>
    intro init h
    simp only [List.foldl_cons]
    by_cases hl : ∃ c ∈ l, c.ID = id
    · obtain ⟨h1, h2⟩ := ih (if c.ID = id then c else init) hl
      exact ⟨List.mem_cons_of_mem _ h1, h2⟩
    · have habs : ∀ c ∈ l, c.ID ≠ id := fun c hc e => hl ⟨c, hc, e⟩
      rw [foldl_lastByID_absent id l _ habs]
      obtain ⟨c', hc', e⟩ := h
      rcases List.mem_cons.mp hc' with rfl | hm
      · simp [e]
      · exact absurd e (habs c' hm)

/-- C10 (the code on an identifier no container has): with the listing
succeeding, `GetContainerByID` returns no error but a pointer to the zero
record, with empty identifier, names, image and status; `NotFound` is never
signalled. -/
theorem c10_absent_id_returns_empty_record (operator : Operator) (id : Str) (w : World)
    (hlist : operator.docker.cli.fail w.log.length = none)
    (habsent : ∀ c ∈ w.containers, c.ID ≠ id) :
    operator.GetContainerByID id w =
      (Outcome.ok (some { ID := [], Names := [], Image := [], Status := [] }),
        { w with log := w.log ++ [Call.ContainerList] }) := by
  have h := foldl_lastByID_absent id w.containers {} habsent
  simp [Operator.GetContainerByID, Docker.GetContainerByID, cliContainerList, call, record,
    getContainers, orFail, bind, pure, M.bind, M.pure, hlist, lastByID, h]

/-- Instance of `c10_absent_id_returns_empty_record`: the identifier `nope` in
a runtime holding one member, and the response of the handler, a 200 with the
empty record. -/
theorem c10_absent_id_returns_empty_record_witness :
    sampleEnv.fail oneFreeWorld.log.length = none ∧
    (∀ c ∈ oneFreeWorld.containers, c.ID ≠ "nope".toList) ∧
    sampleOperator.GetContainerByID "nope".toList oneFreeWorld =
      (Outcome.ok (some { ID := [], Names := [], Image := [], Status := [] }),
        { oneFreeWorld with log := oneFreeWorld.log ++ [Call.ContainerList] }) :=
  ⟨rfl, by decide,
    c10_absent_id_returns_empty_record sampleOperator "nope".toList oneFreeWorld rfl
      (by decide)⟩

/-! ## C11, C12: the listings by status -/

theorem byPrefix_cons (pre : Str) (c : Container) (cs : List Container) :
    byPrefix pre (c :: cs) =
      (c.Names.filter (fun name => Contains name pre)).map (fun _ => c) ++ byPrefix pre cs := by
  simp [byPrefix]

/-- A container that `GetContainersListByPrefix` returns has a name. -/
theorem names_ne_nil_of_mem_byPrefix (pre : Str) (cs : List Container) (c : Container)
    (h : c ∈ byPrefix pre cs) : c.Names ≠ [] := by
  unfold byPrefix at h
  obtain ⟨d, -, hd⟩ := List.mem_flatMap.mp h
  obtain ⟨name, hn, rfl⟩ := List.mem_map.mp hd
  intro e
  rw [e] at hn
  simp at hn

/-- On containers that have names the status loop is a filter on the first
name. -/
theorem withStatus_filter (status : Str) :
    ∀ (cs : List Container) (w : World), (∀ c ∈ cs, c.Names ≠ []) →
      withStatus status cs w = (Outcome.ok (cs.filter (firstNameHas status)), w)
  | [], w, _ => rfl
  | c :: cs, w, h => by
    have ih := withStatus_filter status cs w (fun c hc => h c (by simp [hc]))
    have hc := h c (by simp)
    cases hn : c.Names with
    | nil => exact absurd hn hc
    | cons name rest =>
      simp only [withStatus, firstName, hn, bind, M.bind, pure, M.pure, ih, List.filter_cons,
        firstNameHas]

/-- What `GetFreeContainers` computes: the containers with a name containing
the text, once for each such name, whose first name contains `new`. -/
theorem freeOf_eq (pre : Str) (cs : List Container) :
    freeOf pre cs = Outcome.ok ((byPrefix pre cs).filter (firstNameHas NEW_CONTAINER_STATUS)) := by
  unfold freeOf
  split
  · rename_i h
    rw [List.length_eq_zero.mp h]
    rfl
  · rw [withStatus_filter _ _ _ (fun c hc => names_ne_nil_of_mem_byPrefix pre cs c hc)]

/-- `GetAllocatedContainers` makes one call, the listing; when it succeeds the
result is the filter on the first name containing `allocated`. -/
theorem GetAllocatedContainers_eq (docker : Docker) (w : World)
    (hlist : docker.cli.fail w.log.length = none) :
    docker.GetAllocatedContainers w =
      (Outcome.ok ((byPrefix docker.config.Prefix w.containers).filter
          (firstNameHas ALLOCATED_CONTAINER_STATUS)),
        { w with log := w.log ++ [Call.ContainerList] }) := by
  unfold Docker.GetAllocatedContainers Docker.GetContainersListByPrefix cliContainerList
  simp only [call, record, getContainers, orFail, bind, pure, M.bind, M.pure, failWith, hlist]
  split
  · rename_i h
    rw [List.length_eq_zero.mp h]
    rfl
  · exact withStatus_filter _ _ _ (fun c hc => names_ne_nil_of_mem_byPrefix _ _ c hc)

theorem GetFreeContainers_ok (docker : Docker) (w : World)
    (hlist : docker.cli.fail w.log.length = none) :
    docker.GetFreeContainers w =
      (Outcome.ok ((byPrefix docker.config.Prefix w.containers).filter
          (firstNameHas NEW_CONTAINER_STATUS)),
        { w with log := w.log ++ [Call.ContainerList] }) := by
  rw [GetFreeContainers_eq, hlist, freeOf_eq]

/-- The first entry of the list by text that passes a test is the first
container of the runtime that has a name with the text and passes the test. -/
theorem head_filter_byPrefix (pre : Str) (p : Container → Bool) :
    ∀ cs : List Container,
      ((byPrefix pre cs).filter p).head? = cs.find? (fun c => someNameHas pre c && p c)
  | [] => rfl
  | c :: cs => by
    have ih := head_filter_byPrefix pre p cs
    rw [byPrefix_cons, List.filter_append, List.find?_cons]
    have hrep : ∀ l : List Str, List.filter p (l.map (fun _ => c)) =
        if p c then l.map (fun _ => c) else [] := by
      intro l
      induction l with
      | nil => simp
      | cons x l ihl =>
        simp only [List.map_cons, List.filter_cons, ihl]
        split <;> rfl
    rw [hrep]
    by_cases hp : p c = true
    · by_cases hm : someNameHas pre c = true
      · have : c.Names.filter (fun name => Contains name pre) ≠ [] := by
          unfold someNameHas at hm
          obtain ⟨name, hn, hc⟩ := List.any_eq_true.mp hm
          exact List.ne_nil_of_mem (List.mem_filter.mpr ⟨hn, hc⟩)
        cases hf : c.Names.filter (fun name => Contains name pre) with
        | nil => exact absurd hf this
        | cons x l => simp [hp, hm]
      · have : c.Names.filter (fun name => Contains name pre) = [] := by
          unfold someNameHas at hm
          rw [List.filter_eq_nil_iff]
          intro name hn hc
          exact hm (List.any_eq_true.mpr ⟨name, hn, hc⟩)
        simp [hp, hm, this, ih]
    · simp [hp, ih]

/-- C11 (as amended): in every state of the runtime, the listing succeeding,
`GetFreeContanier` returns the first container, in runtime list order, that
has a name containing the configured prefix and whose first name contains
`new`, or the sentinel `ErrContainersAllocated` when there is none; in both
cases the only call made is the listing, so nothing is renamed, stopped,
removed or created and the containers of the runtime are unchanged. -/
theorem c11_first_free_member (operator : Operator) (w : World)
    (hlist : operator.docker.cli.fail w.log.length = none) :
    operator.GetFreeContanier w =
      (match w.containers.find? (fun c =>
          someNameHas operator.docker.config.Prefix c && firstNameHas NEW_CONTAINER_STATUS c) with
        | some first => Outcome.ok first
        | none => Outcome.error ErrContainersAllocated,
        { w with log := w.log ++ [Call.ContainerList] }) := by
  have hh := head_filter_byPrefix operator.docker.config.Prefix
    (firstNameHas NEW_CONTAINER_STATUS) w.containers
  simp only [Operator.GetFreeContanier, orFail, bind, M.bind, GetFreeContainers_ok _ _ hlist,
    ← hh]
  cases (byPrefix operator.docker.config.Prefix w.containers).filter
    (firstNameHas NEW_CONTAINER_STATUS) <;> rfl

/-- Instance of `c11_first_free_member`: one unclaimed member. -/
theorem c11_first_free_member_witness :
    sampleEnv.fail oneFreeWorld.log.length = none ∧
    sampleOperator.GetFreeContanier oneFreeWorld =
      (Outcome.ok freeMember, { oneFreeWorld with log := oneFreeWorld.log ++ [Call.ContainerList] }) :=
  ⟨rfl, c11_first_free_member sampleOperator oneFreeWorld rfl⟩

/-- C11 as stated fails: on a host where a foreign container named
`/renewal-proxy` is listed first, the first container whose first name
contains `new` is that one, but `GetFreeContanier` returns the pool member
listed after it. -/
theorem c11_counterexample :
    sharedHostWorld.containers.find? (firstNameHas NEW_CONTAINER_STATUS) = some renewalProxy ∧
    sampleOperator.GetFreeContanier sharedHostWorld =
      (Outcome.ok freeMember,
        { containers := [renewalProxy, freeMember], log := [Call.ContainerList] }) ∧
    freeMember ≠ renewalProxy := by
  decide

theorem mem_byPrefix (pre : Str) (cs : List Container) (c : Container) :
    c ∈ byPrefix pre cs ↔ c ∈ cs ∧ someNameHas pre c = true := by
  unfold byPrefix someNameHas
  constructor
  · intro h
    obtain ⟨d, hd, hm⟩ := List.mem_flatMap.mp h
    obtain ⟨name, hn, rfl⟩ := List.mem_map.mp hm
    obtain ⟨h1, h2⟩ := List.mem_filter.mp hn
    exact ⟨hd, List.any_eq_true.mpr ⟨name, h1, h2⟩⟩
  · rintro ⟨hc, hm⟩
    obtain ⟨name, h1, h2⟩ := List.any_eq_true.mp hm
    exact List.mem_flatMap.mpr ⟨c, hc, List.mem_map.mpr ⟨name, List.mem_filter.mpr ⟨h1, h2⟩, rfl⟩⟩

/-- C12 (as amended): status is two independent tests on the first name.  In
every state of the runtime, the listing succeeding, a container that has a
name containing the configured prefix is listed by `GetFreeContainers`
exactly when its first name contains `new`, and by `GetAllocatedContainers`
exactly when its first name contains `allocated`. -/
theorem c12_two_substring_tests (docker : Docker) (w : World) (c : Container)
    (hlist : docker.cli.fail w.log.length = none)
    (hmem : c ∈ w.containers) (hpre : someNameHas docker.config.Prefix c = true) :
    (∃ free w1, docker.GetFreeContainers w = (Outcome.ok free, w1) ∧
      (c ∈ free ↔ firstNameHas NEW_CONTAINER_STATUS c = true)) ∧
    (∃ allocated w1, docker.GetAllocatedContainers w = (Outcome.ok allocated, w1) ∧
      (c ∈ allocated ↔ firstNameHas ALLOCATED_CONTAINER_STATUS c = true)) := by
  have hb : c ∈ byPrefix docker.config.Prefix w.containers :=
    (mem_byPrefix _ _ _).mpr ⟨hmem, hpre⟩
  refine ⟨⟨_, _, GetFreeContainers_ok docker w hlist, ?_⟩,
    ⟨_, _, GetAllocatedContainers_eq docker w hlist, ?_⟩⟩
  · rw [List.mem_filter]
    exact ⟨fun h => h.2, fun h => ⟨hb, h⟩⟩
  · rw [List.mem_filter]
    exact ⟨fun h => h.2, fun h => ⟨hb, h⟩⟩

/-- Instance of `c12_two_substring_tests`: the unclaimed sample member. -/
theorem c12_two_substring_tests_witness :
    sampleEnv.fail oneFreeWorld.log.length = none ∧ freeMember ∈ oneFreeWorld.containers ∧
    someNameHas sampleConfig.Prefix freeMember = true ∧
    (∃ free w1, sampleOperator.docker.GetFreeContainers oneFreeWorld = (Outcome.ok free, w1) ∧
      (freeMember ∈ free ↔ firstNameHas NEW_CONTAINER_STATUS freeMember = true)) ∧
    (∃ allocated w1,
      sampleOperator.docker.GetAllocatedContainers oneFreeWorld = (Outcome.ok allocated, w1) ∧
      (freeMember ∈ allocated ↔ firstNameHas ALLOCATED_CONTAINER_STATUS freeMember = true)) :=
  ⟨rfl, by decide, by decide,
    c12_two_substring_tests sampleOperator.docker oneFreeWorld freeMember rfl (by decide)
      (by decide)⟩

/-- C12 as stated fails in both directions: the container `/bbpool-backup`,
with neither token in its name, is listed neither as free nor as allocated,
and the member `/bbpool-renewed---allocated--2020-Jan-2-16.04.07`, with both,
is listed as free and as allocated. -/
theorem c12_counterexample :
    sampleOperator.docker.GetFreeContainers mixedNamesWorld =
      (Outcome.ok [renewedMember],
        { containers := [poolBackup, renewedMember], log := [Call.ContainerList] }) ∧
    sampleOperator.docker.GetAllocatedContainers mixedNamesWorld =
      (Outcome.ok [renewedMember],
        { containers := [poolBackup, renewedMember], log := [Call.ContainerList] }) ∧
    poolBackup ≠ renewedMember := by
  decide

/-! ## C14: the count of the capacity guard -/

/-- When no container has more than one name, the list by text is the filter
of the runtime list: each matching container once, in order. -/
theorem byPrefix_eq_filter (pre : Str) :
    ∀ cs : List Container, (∀ c ∈ cs, c.Names.length ≤ 1) →
      byPrefix pre cs = cs.filter (someNameHas pre)
  | [], _ => rfl
  | c :: cs, h => by
    have ih := byPrefix_eq_filter pre cs (fun c hc => h c (by simp [hc]))
    have hc := h c (by simp)
    rw [byPrefix_cons, ih, List.filter_cons]
    unfold someNameHas
    rcases hn : c.Names with _ | ⟨name, _ | ⟨name2, rest⟩⟩
    · simp
    · by_cases hm : Contains name pre = true <;> simp [hm]
    · rw [hn] at hc
      simp at hc

/-- C14 (the code at the failing input): a container with two names that
both contain the prefix is returned twice by `GetContainersListByPrefix`; the
runtime holds one matching container, the guard counts two and finds the
initial number of two containers reached. -/
theorem c14_linked_member_counted_twice :
    sampleOperator.docker.GetContainersListByPrefix "bbpool".toList linkedWorld =
      (Outcome.ok [linkedMember, linkedMember],
        { containers := [linkedMember], log := [Call.ContainerList] }) ∧
    countMatching "bbpool".toList linkedWorld.containers = 1 ∧
    sampleOperator.isExceedsNumberOfCreatedContainers INITIAL_NUMBER_OF_CONTAINERS linkedWorld =
      (Outcome.ok (true, 0), { containers := [linkedMember], log := [Call.ContainerList] }) := by
  decide

/-! ## C20: the precision of the stored stamp -/

theorem shortMonthName_plain (m : Nat) : ∀ c ∈ shortMonthName m, plainChar c = true := by
  by_cases h : m ≤ 12
  · interval_cases m <;> decide
  · have : shortMonthName m = [] := by
      unfold shortMonthName
      rw [List.getD_eq_default _ _ (by simp [longMonthNames]; omega)]
      rfl
    rw [this]
    simp

theorem appendInt_plain (x width : Nat) : ∀ c ∈ appendInt x width, plainChar c = true := by
  intro c hc
  unfold appendInt at hc
  rcases List.mem_append.mp hc with h | h
  · rw [(List.mem_replicate.mp h).2]
    decide
  · exact plainChar_of_isDigit c (itoaLoop_digits 20 x [] (by simp) c h)

/-- The characters of a stamp, whatever the instant: plain characters,
dashes and colons. -/
theorem Format_chars (t : Time) :
    ∀ c ∈ t.Format TIME_FORMAT, plainChar c = true ∨ c = '-' ∨ c = ':' := by
  intro c hc
  rw [Format_TIME_FORMAT] at hc
  simp only [List.mem_append, List.mem_cons, List.mem_singleton, List.not_mem_nil,
    or_false] at hc
  rcases hc with h | h | h | h | h | h | h | h | h | h | h | h
  · exact Or.inl (appendInt_plain _ _ c h)
  · exact Or.inr (Or.inl h)
  · exact Or.inl (shortMonthName_plain _ c h)
  · exact Or.inr (Or.inl h)
  · exact Or.inl (appendInt_plain _ _ c h)
  · exact Or.inr (Or.inl h)
  · exact Or.inl (appendInt_plain _ _ c h)
  · exact Or.inr (Or.inr h)
  · exact Or.inl (appendInt_plain _ _ c h)
  · exact Or.inr (Or.inr h)
  · rw [h]; exact Or.inl (by decide)
  · rw [h]; exact Or.inl (by decide)

/-- The stamp in a name, whatever the instant: the formatted instant with its
colons turned into dots. -/
theorem expiryStamp_map (t : Time) :
    expiryStamp t = (t.Format TIME_FORMAT).map (fun c => if c = ':' then '.' else c) := by
  have hsp : ' ' ∉ t.Format TIME_FORMAT := by
    intro h
    rcases Format_chars t ' ' h with h | h | h
    · exact absurd h (by decide)
    · exact absurd h (by decide)
    · exact absurd h (by decide)
  unfold expiryStamp
  rw [Replace_of_cut_none _ " ".toList _ _
    (cut_none_of_not_mem " ".toList ' ' (by decide) _ hsp)]
  exact Replace_char _ ':' '.' (by decide)

/-- Every stamp ends in the literal `.07`. -/
theorem expiryStamp_suffix (t : Time) : ∃ s, expiryStamp t = s ++ ".07".toList := by
  rw [expiryStamp_map, Format_TIME_FORMAT]
  refine ⟨(appendInt t.year 4 ++ '-' :: (shortMonthName t.month ++ '-' :: (appendInt t.day 0 ++
    '-' :: (appendInt t.hour 2 ++ ':' :: appendInt t.min 2)))).map
      (fun c => if c = ':' then '.' else c), ?_⟩
  simp

/-- The stamp depends on the instant up to its minute only. -/
theorem expiryStamp_congr (t1 t2 : Time) (hy : t1.year = t2.year) (hm : t1.month = t2.month)
    (hd : t1.day = t2.day) (hh : t1.hour = t2.hour) (hmin : t1.min = t2.min) :
    expiryStamp t1 = expiryStamp t2 := by
  rw [expiryStamp_map, expiryStamp_map, Format_TIME_FORMAT, Format_TIME_FORMAT, hy, hm, hd, hh,
    hmin]

/-- The name a fresh member gets when it is claimed. -/
theorem allocatedName_fresh (p : Str) (n : Nat) (t : Time)
    (hnew : Contains p NEW_CONTAINER_STATUS = false) :
    allocatedName (p ++ "-".toList ++ Itoa n ++ "---".toList ++ NEW_CONTAINER_STATUS) t =
      (p ++ ['-']) ++ Itoa n ++ (['-', '-', '-'] ++ ("allocated--".toList ++ expiryStamp t)) := by
  unfold allocatedName
  rw [setAllocatedStatus_fresh p n hnew]
  simp [show "-".toList = ['-'] from rfl, show "---".toList = ['-', '-', '-'] from rfl,
    show "--".toList = ['-', '-'] from rfl,
    show "allocated--".toList = ALLOCATED_CONTAINER_STATUS ++ ['-', '-'] from rfl]
  rfl

/-- Decoding the name of a claimed fresh member: the expiry, with the seconds
at zero. -/
theorem getDate_fresh_claimed (p : Str) (n : Nat) (t : Time)
    (hnew : Contains p NEW_CONTAINER_STATUS = false)
    (hsep : Contains (p ++ "-".toList) "---".toList = false)
    (hv : t.valid = true) (hy : t.year ≤ 9999) :
    getDateOfAllocatedContainer
        (allocatedName (p ++ "-".toList ++ Itoa n ++ "---".toList ++ NEW_CONTAINER_STATUS) t) =
      Outcome.ok { t with sec := 0, nsec := 0 } := by
  obtain ⟨d, ds, hid, hdig⟩ := Itoa_digits n
  have hd : d ≠ '-' := (plainChar_ne d (plainChar_of_isDigit d (hdig d (by simp)))).1
  have ha := noMatch_append ['-', '-', '-'] (p ++ ['-']) (d :: ds)
    (['-', '-', '-'] ++ ("allocated--".toList ++ expiryStamp t))
    (noMatch_of_cut_none _ _ d _ (cut_none_of_Contains _ _ hsep) (by simp [hd]))
    (noMatch_of_head '-' ['-', '-'] _ _
      (fun c hc => (plainChar_ne c (plainChar_of_isDigit c (hdig c hc))).1))
  rw [allocatedName_fresh p n t hnew, hid]
  exact getDate_of_claimed ((p ++ ['-']) ++ (d :: ds)) t hv hy ha

/-- C20: `TIME_FORMAT` has no seconds element, its final `07` being literal
text.  So every stamp ends in `.07` whatever the seconds of the instant; the
name of a claimed fresh member (prefix as in C1) decodes, for an expiry `t` a
clock can show with a year of at most four digits, to the year, month, day,
hour and minute of `t` with the seconds at zero; and two expiries that agree
up to the minute give the same stamp, hence the same name. -/
theorem c20_stamp_has_no_seconds (p : Str) (n : Nat) (t : Time)
    (hnew : Contains p NEW_CONTAINER_STATUS = false)
    (hsep : Contains (p ++ "-".toList) "---".toList = false)
    (hv : t.valid = true) (hy : t.year ≤ 9999) :
    layoutChunks TIME_FORMAT =
      [Chunk.stdLongYear, Chunk.lit '-', Chunk.stdMonth, Chunk.lit '-', Chunk.stdDay,
       Chunk.lit '-', Chunk.stdHour, Chunk.lit ':', Chunk.stdZeroMinute, Chunk.lit ':',
       Chunk.lit '0', Chunk.lit '7'] ∧
    (∀ t1 : Time, ∃ s, expiryStamp t1 = s ++ ".07".toList) ∧
    getDateOfAllocatedContainer
        (allocatedName (p ++ "-".toList ++ Itoa n ++ "---".toList ++ NEW_CONTAINER_STATUS) t) =
      Outcome.ok { year := t.year, month := t.month, day := t.day, hour := t.hour,
                   min := t.min, sec := 0, nsec := 0 } ∧
    (∀ (t1 t2 : Time) (name : Str), t1.year = t2.year → t1.month = t2.month →
      t1.day = t2.day → t1.hour = t2.hour → t1.min = t2.min →
      expiryStamp t1 = expiryStamp t2 ∧ allocatedName name t1 = allocatedName name t2) := by
  refine ⟨layoutChunks_TIME_FORMAT, expiryStamp_suffix, getDate_fresh_claimed p n t hnew hsep hv hy,
    ?_⟩
  intro t1 t2 name h1 h2 h3 h4 h5
  have := expiryStamp_congr t1 t2 h1 h2 h3 h4 h5
  exact ⟨this, by unfold allocatedName; rw [this]⟩

/-- Instance of `c20_stamp_has_no_seconds`: prefix `bbpool`, expiry
15:04:05. -/
theorem c20_stamp_has_no_seconds_witness :
    Contains "bbpool".toList NEW_CONTAINER_STATUS = false ∧
    Contains ("bbpool".toList ++ "-".toList) "---".toList = false ∧
    sampleTime.valid = true ∧ sampleTime.year ≤ 9999 ∧
    getDateOfAllocatedContainer
        (allocatedName ("bbpool".toList ++ "-".toList ++ Itoa 1234567 ++ "---".toList ++
          NEW_CONTAINER_STATUS) sampleTime) =
      Outcome.ok { year := 2020, month := 1, day := 2, hour := 15, min := 4, sec := 0, nsec := 0 } ∧
    expiryStamp sampleTime = expiryStamp { sampleTime with sec := 59 } :=
  ⟨by decide, by decide, by decide, by decide,
    (c20_stamp_has_no_seconds "bbpool".toList 1234567 sampleTime (by decide) (by decide)
      (by decide) (by decide)).2.2.1,
    ((c20_stamp_has_no_seconds "bbpool".toList 1234567 sampleTime (by decide) (by decide)
      (by decide) (by decide)).2.2.2 sampleTime { sampleTime with sec := 59 } [] rfl rfl rfl rfl
      rfl).1⟩

/-! ## C18: claiming a fresh member -/

theorem isDigit_ne_w (c : Char) (h : isDigit c = true) : c ≠ 'w' := by
  have := isDigit_toNat c h
  intro e
  subst e
  revert this
  decide

theorem shortMonthName_no_w (m : Nat) : 'w' ∉ shortMonthName m := by
  by_cases h : m ≤ 12
  · interval_cases m <;> decide
  · have : shortMonthName m = [] := by
      unfold shortMonthName
      rw [List.getD_eq_default _ _ (by simp [longMonthNames]; omega)]
      rfl
    rw [this]
    simp

/-- No stamp has the letter `w`, so no stamp contains `new`. -/
theorem expiryStamp_no_w (t : Time) : 'w' ∉ expiryStamp t := by
  rw [expiryStamp_map]
  intro h
  obtain ⟨c, hc, e⟩ := List.mem_map.mp h
  have hcw : c = 'w' := by
    by_cases h1 : c = ':'
    · rw [if_pos h1] at e
      exact absurd e (by decide)
    · rw [if_neg h1] at e
      exact e
  subst hcw
  rw [Format_TIME_FORMAT] at hc
  simp only [List.mem_append, List.mem_cons, List.mem_singleton, List.not_mem_nil,
    or_false] at hc
  have dig : ∀ x width, 'w' ∉ appendInt x width := by
    intro x width hx
    unfold appendInt at hx
    rcases List.mem_append.mp hx with h | h
    · exact absurd (List.mem_replicate.mp h).2 (by decide)
    · exact isDigit_ne_w _ (itoaLoop_digits 20 x [] (by simp) _ h) rfl
  rcases hc with h | h | h | h | h | h | h | h | h | h | h | h
  · exact dig _ _ h
  · exact absurd h (by decide)
  · exact shortMonthName_no_w _ h
  · exact absurd h (by decide)
  · exact dig _ _ h
  · exact absurd h (by decide)
  · exact dig _ _ h
  · exact absurd h (by decide)
  · exact dig _ _ h
  · exact absurd h (by decide)
  · exact absurd h (by decide)
  · exact absurd h (by decide)

/-- The name of a claimed fresh member does not contain `new`, with or
without the leading slash of the runtime. -/
theorem claimed_no_new (lead p : Str) (n : Nat) (t : Time)
    (hlead : Contains (lead ++ p) NEW_CONTAINER_STATUS = false) :
    Contains (lead ++ ((p ++ ['-']) ++ Itoa n ++
      (['-', '-', '-'] ++ ("allocated--".toList ++ expiryStamp t)))) NEW_CONTAINER_STATUS =
      false := by
  obtain ⟨d, ds, hid, hdig⟩ := Itoa_digits n
  have hw : 'w' ∉ '-' :: (Itoa n ++ (['-', '-', '-'] ++ ("allocated--".toList ++ expiryStamp t))) := by
    intro h
    simp only [List.mem_cons, List.mem_append] at h
    rcases h with h | h | h | h | h
    · exact absurd h (by decide)
    · rw [hid] at h
      exact isDigit_ne_w _ (hdig _ h) rfl
    · revert h; decide
    · revert h; decide
    · exact expiryStamp_no_w t h
  have hcut : cut NEW_CONTAINER_STATUS
      ((lead ++ p) ++ '-' :: (Itoa n ++ (['-', '-', '-'] ++ ("allocated--".toList ++
        expiryStamp t)))) = none := by
    rw [cut_skip NEW_CONTAINER_STATUS _ (lead ++ p)
      (noMatch_of_cut_none _ _ '-' _ (cut_none_of_Contains _ _ hlead) (by decide)),
      cut_none_of_not_mem NEW_CONTAINER_STATUS 'w' (by decide) _ hw]
    rfl
  unfold Contains
  have e : lead ++ ((p ++ ['-']) ++ Itoa n ++
      (['-', '-', '-'] ++ ("allocated--".toList ++ expiryStamp t))) =
      (lead ++ p) ++ '-' :: (Itoa n ++ (['-', '-', '-'] ++ ("allocated--".toList ++
        expiryStamp t))) := by simp
  rw [e, hcut]
  rfl

theorem cut_isSome_of_append (s : Str) :
    ∀ (a b : Str), (cut s (a ++ (s ++ b))).isSome = true
  | [], b => by
    cases s with
    | nil =>
      cases b with
      | nil => simp [cut]
      | cons c cs => simp [cut]
    | cons c cs =>
      rw [List.nil_append, cut_self_append]
      rfl
  | c :: a, b => by
    have ih := cut_isSome_of_append s a b
    rw [List.cons_append]
    by_cases hp : s.isPrefixOf (c :: (a ++ (s ++ b))) = true
    · rw [cut_cons_true _ _ _ hp]; rfl
    · simp only [Bool.not_eq_true] at hp
      rw [cut_cons_false _ _ _ hp]
      cases hc : cut s (a ++ (s ++ b)) with
      | none => rw [hc] at ih; exact Bool.noConfusion ih
      | some r => rfl

/-- A text contains each of its parts. -/
theorem Contains_append (a s b : Str) : Contains (a ++ (s ++ b)) s = true :=
  cut_isSome_of_append s a b

theorem Contains_cons_of_ne (c : Char) (s : Str) (x : Char) (xs : Str) (h : c ≠ x)
    (hs : Contains s (x :: xs) = false) : Contains (c :: s) (x :: xs) = false := by
  unfold Contains at *
  have hp : (x :: xs).isPrefixOf (c :: s) = false := by
    have : x ≠ c := fun e => h e.symm
    simp [List.isPrefixOf, this]
  rw [cut_cons_false _ _ _ hp]
  cases hc : cut (x :: xs) s with
  | none => rfl
  | some r => rw [hc] at hs; exact Bool.noConfusion hs

theorem allocatedName_slash_fresh (p : Str) (n : Nat) (t : Time)
    (hnew : Contains p NEW_CONTAINER_STATUS = false) :
    allocatedName ('/' :: freshName p n) t = '/' :: claimedName p n t ∧
    allocatedName (freshName p n) t = claimedName p n t := by
  have h1 := allocatedName_fresh ('/' :: p) n t
    (Contains_cons_of_ne '/' p 'n' ['e', 'w'] (by decide) hnew)
  have h2 := allocatedName_fresh p n t hnew
  unfold freshName claimedName
  constructor
  · rw [show '/' :: (p ++ "-".toList ++ Itoa n ++ "---".toList ++ NEW_CONTAINER_STATUS) =
      ('/' :: p) ++ "-".toList ++ Itoa n ++ "---".toList ++ NEW_CONTAINER_STATUS by simp, h1]
    simp [show "-".toList = ['-'] from rfl, show "---".toList = ['-', '-', '-'] from rfl,
      show "--".toList = ['-', '-'] from rfl,
      show "allocated--".toList = ALLOCATED_CONTAINER_STATUS ++ ['-', '-'] from rfl]
    rfl
  · rw [h2]
    simp [show "-".toList = ['-'] from rfl, show "---".toList = ['-', '-', '-'] from rfl,
      show "--".toList = ['-', '-'] from rfl,
      show "allocated--".toList = ALLOCATED_CONTAINER_STATUS ++ ['-', '-'] from rfl]
    rfl

/-- C18: for every prefix that does not contain `new` and every name
`AddIDToContainerName` builds from it, `SetAllocatedStatusForContainer`, at
claim time `t` and with the rename succeeding, renames the member to
`<prefix>-<number>---allocated--<stamp of t + 1 hour>` (behind the slash the
runtime lists names with).  That name contains `allocated` and does not
contain `new`, so with the listing succeeding the member is listed by
`GetAllocatedContainers` and not by `GetFreeContainers`. -/
theorem c18_claim_moves_member (docker : Docker) (w : World) (c : Container) (n : Nat)
    (hnew : Contains docker.config.Prefix NEW_CONTAINER_STATUS = false)
    (hmem : c ∈ w.containers)
    (hname : c.Names = ['/' :: freshName docker.config.Prefix n])
    (hrename : docker.cli.fail (w.log.length + 1) = none)
    (hlist : docker.cli.fail (w.log.length + 2) = none) :
    AddIDToContainerName docker.cli docker.config.Prefix w =
      (Outcome.ok (freshName docker.config.Prefix (docker.cli.rand w.log.length % 1000000 + 1000000)),
        { w with log := w.log ++ [Call.RandIntn 1000000] }) ∧
    allocatedName (freshName docker.config.Prefix n)
        ((docker.cli.clock w.log.length).Add CLEANING_INTERVAL) =
      claimedName docker.config.Prefix n ((docker.cli.clock w.log.length).Add CLEANING_INTERVAL) ∧
    docker.SetAllocatedStatusForContainer c w =
      (Outcome.ok (),
        { containers := renamed c.ID
            ('/' :: claimedName docker.config.Prefix n
              ((docker.cli.clock w.log.length).Add CLEANING_INTERVAL)) w.containers,
          log := w.log ++ [Call.Now, Call.ContainerRename c.ID
            ('/' :: claimedName docker.config.Prefix n
              ((docker.cli.clock w.log.length).Add CLEANING_INTERVAL))] }) ∧
    Contains ('/' :: claimedName docker.config.Prefix n
        ((docker.cli.clock w.log.length).Add CLEANING_INTERVAL)) ALLOCATED_CONTAINER_STATUS = true ∧
    Contains ('/' :: claimedName docker.config.Prefix n
        ((docker.cli.clock w.log.length).Add CLEANING_INTERVAL)) NEW_CONTAINER_STATUS = false ∧
    (∃ allocated w2,
      docker.GetAllocatedContainers
        { containers := renamed c.ID
            ('/' :: claimedName docker.config.Prefix n
              ((docker.cli.clock w.log.length).Add CLEANING_INTERVAL)) w.containers,
          log := w.log ++ [Call.Now, Call.ContainerRename c.ID
            ('/' :: claimedName docker.config.Prefix n
              ((docker.cli.clock w.log.length).Add CLEANING_INTERVAL))] } =
        (Outcome.ok allocated, w2) ∧
      { c with Names := ['/' :: claimedName docker.config.Prefix n
        ((docker.cli.clock w.log.length).Add CLEANING_INTERVAL)] } ∈ allocated) ∧
    (∃ free w2,
      docker.GetFreeContainers
        { containers := renamed c.ID
            ('/' :: claimedName docker.config.Prefix n
              ((docker.cli.clock w.log.length).Add CLEANING_INTERVAL)) w.containers,
          log := w.log ++ [Call.Now, Call.ContainerRename c.ID
            ('/' :: claimedName docker.config.Prefix n
              ((docker.cli.clock w.log.length).Add CLEANING_INTERVAL))] } =
        (Outcome.ok free, w2) ∧
      { c with Names := ['/' :: claimedName docker.config.Prefix n
        ((docker.cli.clock w.log.length).Add CLEANING_INTERVAL)] } ∉ free) := by
  generalize ht : (docker.cli.clock w.log.length).Add CLEANING_INTERVAL = t
  obtain ⟨hs, hp⟩ := allocatedName_slash_fresh docker.config.Prefix n t hnew
  have hall : Contains ('/' :: claimedName docker.config.Prefix n t)
      ALLOCATED_CONTAINER_STATUS = true := by
    have := Contains_append ('/' :: (docker.config.Prefix ++ "-".toList ++ Itoa n ++ "---".toList))
      ALLOCATED_CONTAINER_STATUS ("--".toList ++ expiryStamp t)
    unfold claimedName
    simpa using this
  have hno : Contains ('/' :: claimedName docker.config.Prefix n t)
      NEW_CONTAINER_STATUS = false := by
    have := claimed_no_new ['/'] docker.config.Prefix n t
      (Contains_cons_of_ne '/' _ 'n' ['e', 'w'] (by decide) hnew)
    unfold claimedName
    simpa [show "-".toList = ['-'] from rfl, show "---".toList = ['-', '-', '-'] from rfl,
      show "--".toList = ['-', '-'] from rfl,
      show "allocated--".toList = ALLOCATED_CONTAINER_STATUS ++ ['-', '-'] from rfl] using this
  have hpre : Contains ('/' :: claimedName docker.config.Prefix n t) docker.config.Prefix = true := by
    have := Contains_append ['/'] docker.config.Prefix
      ("-".toList ++ Itoa n ++ "---".toList ++ ALLOCATED_CONTAINER_STATUS ++ "--".toList ++
        expiryStamp t)
    unfold claimedName
    simpa using this
  have hin : { c with Names := ['/' :: claimedName docker.config.Prefix n t] } ∈
      renamed c.ID ('/' :: claimedName docker.config.Prefix n t) w.containers := by
    unfold renamed
    exact List.mem_map.mpr ⟨c, hmem, by simp⟩
  refine ⟨?_, hp, ?_, hall, hno, ?_, ?_⟩
  · rfl
  · simp only [Docker.SetAllocatedStatusForContainer, now, record, firstName, hname, bind, pure,
      M.bind, M.pure, ht, hs, cliContainerRename, call, orFail, getContainers, setContainers,
      List.length_append, List.length_singleton, hrename, renamed, failWith]
    simp
  · refine ⟨_, _, GetAllocatedContainers_eq docker _ (by simpa using hlist), ?_⟩
    rw [List.mem_filter]
    refine ⟨(mem_byPrefix _ _ _).mpr ⟨hin, ?_⟩, ?_⟩
    · simp [someNameHas, hpre]
    · simp [firstNameHas, hall]
  · refine ⟨_, _, GetFreeContainers_ok docker _ (by simpa using hlist), ?_⟩
    rw [List.mem_filter]
    intro h
    have := h.2
    simp [firstNameHas, hno] at this

/-- Instance of `c18_claim_moves_member`: the unclaimed sample member, claimed
at 15:04:05. -/
theorem c18_claim_moves_member_witness :
    Contains sampleOperator.docker.config.Prefix NEW_CONTAINER_STATUS = false ∧
    freeMember ∈ oneFreeWorld.containers ∧
    freeMember.Names = ['/' :: freshName sampleOperator.docker.config.Prefix 1234567] ∧
    sampleOperator.docker.SetAllocatedStatusForContainer freeMember oneFreeWorld =
      (Outcome.ok (),
        { containers := renamed freeMember.ID
            ('/' :: claimedName sampleOperator.docker.config.Prefix 1234567
              ((sampleOperator.docker.cli.clock oneFreeWorld.log.length).Add CLEANING_INTERVAL))
            oneFreeWorld.containers,
          log := oneFreeWorld.log ++ [Call.Now, Call.ContainerRename freeMember.ID
            ('/' :: claimedName sampleOperator.docker.config.Prefix 1234567
              ((sampleOperator.docker.cli.clock oneFreeWorld.log.length).Add
                CLEANING_INTERVAL))] }) ∧
    '/' :: claimedName sampleOperator.docker.config.Prefix 1234567
        ((sampleOperator.docker.cli.clock oneFreeWorld.log.length).Add CLEANING_INTERVAL) =
      "/bbpool-1234567---allocated--2020-Jan-2-16.04.07".toList :=
  ⟨by decide, by decide, by decide,
    (c18_claim_moves_member sampleOperator.docker oneFreeWorld freeMember 1234567 (by decide)
      (by decide) (by decide) rfl rfl).2.2.1,
    by decide⟩

/-! ## C13: claiming a member twice -/

/-- Reading a stamp that is followed by more text: the elements of the layout
are read, and the text left over is refused. -/
theorem Parse_Format_extra (t : Time) (e : Char) (extra : Str) (hv : t.valid = true)
    (hy : t.year ≤ 9999) :
    Parse TIME_FORMAT (t.Format TIME_FORMAT ++ e :: extra) =
      Except.error (parseError "extra text") := by
  obtain ⟨hm1, hm2, hd1, hd2, hh, hmi, -, -⟩ := valid_bounds t hv
  have hd3 := daysIn_le t.month t.year
  obtain ⟨a, b, c, hmon, -, -, -, hlook⟩ := month_text t.month hm1 hm2
  rw [Format_TIME_FORMAT, appendInt_year t.year hy, appendInt_two t.hour (by omega),
    appendInt_two t.min (by omega), hmon]
  unfold Parse
  rw [layoutChunks_TIME_FORMAT]
  have hdash : isDigit '-' = false := by decide
  by_cases hday : t.day < 10
  · rw [appendInt_day_one t.day hday]
    simp [parseLoop, digitChar_isDigit, hlook, getnum_one, getnum_two, atoiDigits_four,
      show t.year / 1000 < 10 by omega, show t.year / 100 % 10 < 10 by omega,
      show t.year / 10 % 10 < 10 by omega, show t.year % 10 < 10 by omega,
      show t.hour / 10 < 10 by omega, show t.hour % 10 < 10 by omega,
      show t.min / 10 < 10 by omega, show t.min % 10 < 10 by omega, hday, hdash,
      hh, hmi, hd1, hd2]
    have h24 : ¬ 24 ≤ t.hour / 10 * 10 + t.hour % 10 := by omega
    have h60 : ¬ 60 ≤ t.min / 10 * 10 + t.min % 10 := by omega
    simp only [if_neg h24, if_neg h60]
    split_ifs with h
    · omega
    · rfl
  · rw [appendInt_day_two t.day (by omega) (by omega)]
    simp [parseLoop, digitChar_isDigit, hlook, getnum_one, getnum_two, atoiDigits_four,
      show t.year / 1000 < 10 by omega, show t.year / 100 % 10 < 10 by omega,
      show t.year / 10 % 10 < 10 by omega, show t.year % 10 < 10 by omega,
      show t.hour / 10 < 10 by omega, show t.hour % 10 < 10 by omega,
      show t.min / 10 < 10 by omega, show t.min % 10 < 10 by omega,
      show t.day / 10 < 10 by omega, show t.day % 10 < 10 by omega, hdash,
      hh, hmi, hd1, hd2]
    have h24 : ¬ 24 ≤ t.hour / 10 * 10 + t.hour % 10 := by omega
    have h60 : ¬ 60 ≤ t.min / 10 * 10 + t.min % 10 := by omega
    simp only [if_neg h24, if_neg h60]
    split_ifs with h
    · omega
    · rfl

/-- Decoding a name `<a>---allocated--<text>` when `a` has no separator
inside and the text, a run of stamp characters starting with a plain one and
ending in `7`, has none either once its colons are dots: the text, with its
colons back, is what `time.Parse` is given. -/
theorem getDate_of_piece (a st : Str) (x : Char) (m : Str)
    (hxm : st = x :: (m ++ ['7'])) (hx : plainChar x = true)
    (hdot : '.' ∉ st) (hd : 'd' ∉ st)
    (hcut : cut ['-', '-', '-'] (st.map (fun c => if c = ':' then '.' else c)) = none)
    (ha : ∀ u v, a = u ++ v → v ≠ [] →
      ['-', '-', '-'].isPrefixOf (v ++ (['-', '-', '-'] ++ ("allocated--".toList ++
        st.map (fun c => if c = ':' then '.' else c)))) = false) :
    getDateOfAllocatedContainer (a ++ (['-', '-', '-'] ++ ("allocated--".toList ++
        st.map (fun c => if c = ':' then '.' else c)))) =
      match Parse TIME_FORMAT st with
      | Except.error err =>
        Outcome.error (Err.describe "container_name".toList
          (a ++ (['-', '-', '-'] ++ ("allocated--".toList ++
            st.map (fun c => if c = ':' then '.' else c)))) err)
      | Except.ok t => Outcome.ok t := by
  generalize hst : st.map (fun c => if c = ':' then '.' else c) = st' at *
  have hpx := plainChar_ne x hx
  have hb : cut ['-', '-', '-'] ("allocated--".toList ++ st') = none := by
    rw [← hst, hxm, List.map_cons]
    have e : (if x = ':' then '.' else x) = x := by simp [hpx.2.2.2.2.1]
    rw [e]
    rw [cut_skip ['-', '-', '-'] _ "allocated--".toList
      (noMatch_of_cut_none _ _ x _ (by decide) (by simp [hpx.1]))]
    have : cut ['-', '-', '-'] (x :: List.map (fun c => if c = ':' then '.' else c) (m ++ ['7']))
        = none := by
      have h := hcut
      rw [← hst, hxm, List.map_cons, e] at h
      exact h
    rw [this]; rfl
  have hsplit : Split (a ++ (['-', '-', '-'] ++ ("allocated--".toList ++ st'))) "---".toList =
      [a, "allocated--".toList ++ st'] := by
    apply Split_two _ _ _ _ (by simp) _ hb
    rw [cut_skip _ _ a ha, cut_self_append]
    simp
  have hfirst : Replace ("allocated--".toList ++ st') "--".toList " ".toList 1 =
      "allocated".toList ++ (' ' :: st') := by
    have hc : cut "--".toList ("allocated--".toList ++ st') = some ("allocated".toList, st') := by
      rw [show "allocated--".toList = "allocated".toList ++ ['-', '-'] from rfl,
        List.append_assoc, show "--".toList = ['-', '-'] from rfl,
        cut_skip ['-', '-'] _ "allocated".toList
          (noMatch_of_head '-' ['-'] _ _ (by decide)), cut_self_append]
      simp
    rw [Replace_first _ _ _ _ _ (by decide) hc]
    simp
  have hback : Replace ("allocated".toList ++ (' ' :: st')) ".".toList ":".toList (-1) =
      "allocated".toList ++ (' ' :: st) := by
    rw [show ".".toList = ['.'] from rfl, show ":".toList = [':'] from rfl,
      Replace_char _ '.' ':' (by decide), List.map_append, List.map_cons, ← hst, List.map_map]
    have e1 : List.map (fun c => if c = '.' then ':' else c) "allocated".toList =
        "allocated".toList := by decide
    have e2 : List.map ((fun c => if c = '.' then ':' else c) ∘
        (fun c => if c = ':' then '.' else c)) st = st := by
      have : ∀ c ∈ st, ((fun c => if c = '.' then ':' else c) ∘
          (fun c => if c = ':' then '.' else c)) c = id c := by
        intro c hc
        have hne : c ≠ '.' := fun e => hdot (e ▸ hc)
        by_cases h : c = ':'
        · simp [h]
        · simp [h, hne]
      rw [List.map_congr_left this, List.map_id]
    rw [e1, e2]
    simp
  have hstrip : Replace ("allocated".toList ++ (' ' :: st)) ALLOCATED_CONTAINER_STATUS [] (-1) =
      ' ' :: st := by
    have := Replace_all_front 'a' "llocated".toList [] (' ' :: st) (by decide)
      (cut_none_of_not_mem _ 'd' (by decide) _ (by
        intro h
        rcases List.mem_cons.mp h with h | h
        · exact absurd h (by decide)
        · exact hd h))
    simpa using this
  have htrim : TrimSpace (' ' :: st) = st := by
    rw [hxm]
    exact TrimSpace_space_cons x '7' m hpx.2.2.2.2.2 (by decide)
  unfold getDateOfAllocatedContainer
  simp only [hsplit, List.length_cons, List.length_nil, List.get?, hfirst, hback, hstrip, htrim]
  rw [if_neg (by decide)]

/-- Two texts free of a pattern stay free of it when joined, if the character
at the joint is not in the pattern. -/
theorem cut_none_join (sep A R : Str) (z : Char) (hz : z ∉ sep)
    (hA : cut sep (A ++ [z]) = none) (hR : cut sep (z :: R) = none) :
    cut sep (A ++ z :: R) = none := by
  have hno : ∀ u v, A = u ++ v → v ≠ [] → sep.isPrefixOf (v ++ z :: R) = false := by
    intro u v e _
    rw [isPrefixOf_append_cons_of_not_mem z R sep v hz,
      ← isPrefixOf_append_cons_of_not_mem z [] sep v hz]
    apply isPrefixOf_of_cut_none sep u (v ++ [z])
    rw [← List.append_assoc, ← e]
    exact hA
  rw [cut_skip sep (z :: R) A hno, hR]
  rfl

/-- A member claimed twice: the name is the claimed name with a second stamp
appended. -/
theorem allocatedName_twice (p : Str) (n : Nat) (e1 e2 : Time)
    (hnew : Contains p NEW_CONTAINER_STATUS = false) :
    allocatedName (allocatedName (freshName p n) e1) e2 =
      claimedName p n e1 ++ "--".toList ++ expiryStamp e2 := by
  have h1 : allocatedName (freshName p n) e1 = claimedName p n e1 := by
    unfold freshName claimedName allocatedName
    rw [setAllocatedStatus_fresh p n hnew]
  rw [h1]
  have hno : cut NEW_CONTAINER_STATUS (claimedName p n e1) = none := by
    apply cut_none_of_Contains
    have := claimed_no_new [] p n e1 (by simpa using hnew)
    rw [List.nil_append] at this
    rw [← this]
    unfold claimedName
    simp [show "-".toList = ['-'] from rfl, show "---".toList = ['-', '-', '-'] from rfl,
      show "--".toList = ['-', '-'] from rfl,
      show "allocated--".toList = ALLOCATED_CONTAINER_STATUS ++ ['-', '-'] from rfl]
    rfl
  unfold allocatedName setAllocatedStatus
  rw [Replace_of_cut_none _ _ _ _ hno]

/-- A stamp followed by `--` and a second stamp, colons as dots, is free of
the separator `---`. -/
theorem cut3_two_stamps (e1 e2 : Time) (hv1 : e1.valid = true) (hy1 : e1.year ≤ 9999)
    (hv2 : e2.valid = true) (hy2 : e2.year ≤ 9999) :
    cut ['-', '-', '-'] ((e1.Format TIME_FORMAT ++ '-' :: '-' :: e2.Format TIME_FORMAT).map
      (fun c => if c = ':' then '.' else c)) = none := by
  obtain ⟨-, -, -, ⟨x1, m1, h1, -⟩, c1⟩ := stamp_props e1 hv1 hy1
  obtain ⟨-, -, -, ⟨x2, m2, h2, hx2⟩, c2⟩ := stamp_props e2 hv2 hy2
  have hp := plainChar_ne x2 hx2
  have e : (if x2 = ':' then '.' else x2) = x2 := by simp [hp.2.2.2.2.1]
  rw [h1] at c1
  rw [h2, List.map_cons, e] at c2
  rw [h1, h2]
  simp only [List.map_append, List.map_cons, List.map_nil, e, List.cons_append,
    List.append_assoc, List.nil_append] at c1 ⊢
  simp only [show ¬ ('7' = ':') by decide, show ¬ ('-' = ':') by decide, if_false] at c1 ⊢
  have hne : '-' ≠ x2 := fun h => hp.1 h.symm
  have t1 : cut ['-', '-', '-'] ('-' :: x2 :: List.map (fun c => if c = ':' then '.' else c)
      (m2 ++ ['7'])) = none := by
    rw [cut_cons_false _ _ _ (by simp [List.isPrefixOf, hne]), c2]; rfl
  have t2 : cut ['-', '-', '-'] ('-' :: '-' :: x2 :: List.map (fun c => if c = ':' then '.' else c)
      (m2 ++ ['7'])) = none := by
    rw [cut_cons_false _ _ _ (by simp [List.isPrefixOf, hne]), t1]; rfl
  have t3 : cut ['-', '-', '-'] ('7' :: '-' :: '-' :: x2 ::
      List.map (fun c => if c = ':' then '.' else c) (m2 ++ ['7'])) = none := by
    rw [cut_cons_false _ _ _ (by simp [List.isPrefixOf]), t2]; rfl
  have := cut_none_join ['-', '-', '-']
    ((if x1 = ':' then '.' else x1) :: List.map (fun c => if c = ':' then '.' else c) m1)
    ('-' :: '-' :: x2 :: List.map (fun c => if c = ':' then '.' else c) (m2 ++ ['7'])) '7'
    (by decide) (by simpa using c1) t3
  simpa using this

/-- Decoding the name of a member claimed twice: the text after the status is
two stamps, and reading it as one instant fails on the second. -/
theorem getDate_twice_claimed (p : Str) (n : Nat) (e1 e2 : Time)
    (hnew : Contains p NEW_CONTAINER_STATUS = false)
    (hsep : Contains (p ++ "-".toList) "---".toList = false)
    (hv1 : e1.valid = true) (hy1 : e1.year ≤ 9999)
    (hv2 : e2.valid = true) (hy2 : e2.year ≤ 9999) :
    getDateOfAllocatedContainer (allocatedName (allocatedName (freshName p n) e1) e2) =
      Outcome.error (Err.describe "container_name".toList
        (allocatedName (allocatedName (freshName p n) e1) e2) (parseError "extra text")) := by
  obtain ⟨d, ds, hid, hdig⟩ := Itoa_digits n
  have hd : d ≠ '-' := (plainChar_ne d (plainChar_of_isDigit d (hdig d (by simp)))).1
  obtain ⟨-, hdot1, hdd1, ⟨x1, m1, h1, hx1⟩, -⟩ := stamp_props e1 hv1 hy1
  obtain ⟨-, hdot2, hdd2, ⟨x2, m2, h2, -⟩, -⟩ := stamp_props e2 hv2 hy2
  have hname : allocatedName (allocatedName (freshName p n) e1) e2 =
      ((p ++ ['-']) ++ (d :: ds)) ++ (['-', '-', '-'] ++ ("allocated--".toList ++
        (e1.Format TIME_FORMAT ++ '-' :: '-' :: e2.Format TIME_FORMAT).map
          (fun c => if c = ':' then '.' else c))) := by
    rw [allocatedName_twice p n e1 e2 hnew, ← hid]
    unfold claimedName
    rw [expiryStamp_eq e1 hv1 hy1, expiryStamp_eq e2 hv2 hy2]
    simp [show "-".toList = ['-'] from rfl, show "---".toList = ['-', '-', '-'] from rfl,
      show "--".toList = ['-', '-'] from rfl,
      show "allocated--".toList = ALLOCATED_CONTAINER_STATUS ++ ['-', '-'] from rfl]
    rfl
  have ha := noMatch_append ['-', '-', '-'] (p ++ ['-']) (d :: ds)
    (['-', '-', '-'] ++ ("allocated--".toList ++
      (e1.Format TIME_FORMAT ++ '-' :: '-' :: e2.Format TIME_FORMAT).map
        (fun c => if c = ':' then '.' else c)))
    (noMatch_of_cut_none _ _ d _ (cut_none_of_Contains _ _ hsep) (by simp [hd]))
    (noMatch_of_head '-' ['-', '-'] _ _
      (fun c hc => (plainChar_ne c (plainChar_of_isDigit c (hdig c hc))).1))
  have hnotin : ∀ c : Char, c ≠ '-' → c ∉ e1.Format TIME_FORMAT → c ∉ e2.Format TIME_FORMAT →
      c ∉ e1.Format TIME_FORMAT ++ '-' :: '-' :: e2.Format TIME_FORMAT := by
    intro c hc n1 n2 hmem
    simp only [List.mem_append, List.mem_cons] at hmem
    rcases hmem with h | h | h | h
    · exact n1 h
    · exact hc h
    · exact hc h
    · exact n2 h
  have hshape : e1.Format TIME_FORMAT ++ '-' :: '-' :: e2.Format TIME_FORMAT =
      x1 :: ((m1 ++ '7' :: '-' :: '-' :: x2 :: m2) ++ ['7']) := by
    rw [h1, h2]; simp
  rw [hname, getDate_of_piece _ _ x1 _ hshape hx1
    (hnotin '.' (by decide) hdot1 hdot2) (hnotin 'd' (by decide) hdd1 hdd2)
    (cut3_two_stamps e1 e2 hv1 hy1 hv2 hy2) ha,
    Parse_Format_extra e1 '-' ('-' :: e2.Format TIME_FORMAT) hv1 hy1]

/-! ### C13 -/

/-- C13, corrected: claiming a claimed member again does not leave its name
as it was.  For a member named `<prefix>-<number>---new` (prefix as in C1)
and two expiries a clock can show with years of at most four digits, the
claim encoding applied twice gives the once-claimed name followed by `--` and
the stamp of the second expiry; the once-claimed name decodes to the first
expiry (seconds at zero), and the twice-claimed name does not decode:
`getDateOfAllocatedContainer` returns the error of `time.Parse`, extra
text. -/
theorem c13_second_claim_breaks_name (p : Str) (n : Nat) (e1 e2 : Time)
    (hnew : Contains p NEW_CONTAINER_STATUS = false)
    (hsep : Contains (p ++ "-".toList) "---".toList = false)
    (hv1 : e1.valid = true) (hy1 : e1.year ≤ 9999)
    (hv2 : e2.valid = true) (hy2 : e2.year ≤ 9999) :
    allocatedName (allocatedName (freshName p n) e1) e2 =
      claimedName p n e1 ++ "--".toList ++ expiryStamp e2 ∧
    getDateOfAllocatedContainer (allocatedName (freshName p n) e1) =
      Outcome.ok { e1 with sec := 0, nsec := 0 } ∧
    getDateOfAllocatedContainer (allocatedName (allocatedName (freshName p n) e1) e2) =
      Outcome.error (Err.describe "container_name".toList
        (claimedName p n e1 ++ "--".toList ++ expiryStamp e2) (parseError "extra text")) := by
  refine ⟨allocatedName_twice p n e1 e2 hnew,
    getDate_fresh_claimed p n e1 hnew hsep hv1 hy1, ?_⟩
  rw [getDate_twice_claimed p n e1 e2 hnew hsep hv1 hy1 hv2 hy2,
    allocatedName_twice p n e1 e2 hnew]

/-- Instance of `c13_second_claim_breaks_name`: the member `bbpool-1234567---new`
claimed at 15:04:05 and again at 15:04:30. -/
theorem c13_second_claim_breaks_name_witness :
    Contains "bbpool".toList NEW_CONTAINER_STATUS = false ∧
    Contains ("bbpool".toList ++ "-".toList) "---".toList = false ∧
    (sampleTime.Add CLEANING_INTERVAL).valid = true ∧
    (halfPast.Add CLEANING_INTERVAL).valid = true ∧
    getDateOfAllocatedContainer
        (allocatedName (allocatedName (freshName "bbpool".toList 1234567)
          (sampleTime.Add CLEANING_INTERVAL)) (halfPast.Add CLEANING_INTERVAL)) =
      Outcome.error (Err.describe "container_name".toList
        (claimedName "bbpool".toList 1234567 (sampleTime.Add CLEANING_INTERVAL) ++ "--".toList ++
          expiryStamp (halfPast.Add CLEANING_INTERVAL)) (parseError "extra text")) :=
  ⟨by decide, by decide, by decide, by decide,
    (c13_second_claim_breaks_name "bbpool".toList 1234567 (sampleTime.Add CLEANING_INTERVAL)
      (halfPast.Add CLEANING_INTERVAL) (by decide) (by decide) (by decide) (by decide)
      (by decide) (by decide)).2.2⟩

/-- C13 as stated fails.  The member `bbpool-1234567---new` is claimed at
15:04:05 and again at 15:04:30 of the same day: the second claim appends a
second stamp to the name, and the name no longer decodes to the expiry of the
first claim, 16:04, but to an error. -/
theorem c13_counterexample :
    allocatedName (allocatedName (freshName "bbpool".toList 1234567)
        (sampleTime.Add CLEANING_INTERVAL)) (halfPast.Add CLEANING_INTERVAL) =
      "bbpool-1234567---allocated--2020-Jan-2-16.04.07--2020-Jan-2-16.04.07".toList ∧
    getDateOfAllocatedContainer
        (allocatedName (freshName "bbpool".toList 1234567) (sampleTime.Add CLEANING_INTERVAL)) =
      Outcome.ok { year := 2020, month := 1, day := 2, hour := 16, min := 4, sec := 0,
                   nsec := 0 } ∧
    getDateOfAllocatedContainer
        (allocatedName (allocatedName (freshName "bbpool".toList 1234567)
          (sampleTime.Add CLEANING_INTERVAL)) (halfPast.Add CLEANING_INTERVAL)) =
      Outcome.error (Err.describe "container_name".toList
        "bbpool-1234567---allocated--2020-Jan-2-16.04.07--2020-Jan-2-16.04.07".toList
        (parseError "extra text")) := by
  decide

/-! ## C17: the overdue members -/

/-- One pass of `getOverdueContainers` over members whose names all decode,
the clock showing `t` at every reading: the members overdue at `t` read
through the layout, in input order; the clock is read once per member. -/
theorem getOverdueContainers_eq (env : Env) (t nowDate : Time)
    (hclock : ∀ k, env.clock k = t)
    (hparse : Parse TIME_FORMAT (t.Format TIME_FORMAT) = Except.ok nowDate) :
    ∀ (cs : List Container) (w : World), (∀ c ∈ cs, (decodedExpiry c).isSome = true) →
      getOverdueContainers env cs w =
        (Outcome.ok (cs.filter (overdueAt nowDate)),
          { w with log := w.log ++ List.replicate cs.length Call.Now })
  | [], w, _ => by simp [getOverdueContainers, pure, M.pure]
  | c :: cs, w, h => by
    have hc := h c (by simp)
    have ih := getOverdueContainers_eq env t nowDate hclock hparse cs
      { w with log := w.log ++ [Call.Now] } (fun x hx => h x (by simp [hx]))
    unfold decodedExpiry at hc
    cases hn : c.Names with
    | nil => rw [hn] at hc; exact absurd hc (by simp)
    | cons name ns =>
      rw [hn] at hc
      cases hd : getDateOfAllocatedContainer name with
      | ok e =>
        have hov : overdueAt nowDate c = nowDate.After e := by
          simp [overdueAt, decodedExpiry, hn, hd]
        simp only [getOverdueContainers, firstName, hn, bind, pure, M.bind, M.pure, liftOutcome,
          hd, now, record, hclock, hparse, liftExcept, ih, List.filter_cons, hov]
        cases nowDate.After e <;> simp [List.replicate_succ, List.append_assoc]
      | error e => simp [hd] at hc
      | panic e => simp [hd] at hc
      | pending => simp [hd] at hc

theorem daysIn_pos (m y : Nat) : 28 ≤ daysIn m y := by
  unfold daysIn
  split
  · split <;> omega
  · split <;> omega

/-- One hour later: the next hour of the same day, or the first hour of the
next day. -/
theorem Add_hour (t : Time) (hv : t.valid = true) :
    t.Add CLEANING_INTERVAL =
      if t.hour < 23 then { t with hour := t.hour + 1 }
      else Time.nextDay { t with hour := 0 } := by
  obtain ⟨-, -, -, -, hh, hmi, hs, hn⟩ := valid_bounds t hv
  have e1 : (t.nsec + 3600 * 1000000000) / 1000000000 = 3600 := by omega
  have e2 : (t.nsec + 3600 * 1000000000) % 1000000000 = t.nsec := by omega
  have e3 : (t.sec + 3600) / 60 = 60 := by omega
  have e4 : (t.sec + 3600) % 60 = t.sec := by omega
  have e5 : (t.min + 60) / 60 = 1 := by omega
  have e6 : (t.min + 60) % 60 = t.min := by omega
  unfold Time.Add CLEANING_INTERVAL
  simp only [e1, e2, e3, e4, e5, e6]
  by_cases h : t.hour < 23
  · have e7 : (t.hour + 1) / 24 = 0 := by omega
    have e8 : (t.hour + 1) % 24 = t.hour + 1 := by omega
    rw [if_pos h, e7, e8]
    rfl
  · have e7 : (t.hour + 1) / 24 = 1 := by omega
    have e8 : (t.hour + 1) % 24 = 0 := by omega
    rw [if_neg h, e7, e8]
    rfl

theorem valid_nextDay (t : Time) (hv : t.valid = true) : (Time.nextDay t).valid = true := by
  obtain ⟨hm1, hm2, hd1, hd2, hh, hmi, hs, hn⟩ := valid_bounds t hv
  unfold Time.nextDay
  split_ifs with h1 h2
  · simp [Time.valid, hm1, hm2, hh, hmi, hs, hn]; omega
  · have := daysIn_pos (t.month + 1) t.year
    simp [Time.valid, hh, hmi, hs, hn]; omega
  · have := daysIn_pos 1 (t.year + 1)
    simp [Time.valid, hh, hmi, hs, hn]; omega

/-- The instant one hour after a reading is a reading. -/
theorem valid_Add_hour (t : Time) (hv : t.valid = true) :
    (t.Add CLEANING_INTERVAL).valid = true := by
  obtain ⟨hm1, hm2, hd1, hd2, hh, hmi, hs, hn⟩ := valid_bounds t hv
  rw [Add_hour t hv]
  split_ifs with h
  · simp [Time.valid, hm1, hm2, hd1, hd2, hmi, hs, hn]; omega
  · apply valid_nextDay
    simp [Time.valid, hm1, hm2, hd1, hd2, hmi, hs, hn]

theorem year_le_Add_hour (t : Time) (hv : t.valid = true) :
    t.year ≤ (t.Add CLEANING_INTERVAL).year := by
  rw [Add_hour t hv]
  split_ifs with h
  · exact Nat.le_refl _
  · unfold Time.nextDay
    split_ifs <;> simp

/-- A reading, cut to the minute, is not after the instant one hour later,
cut to the minute. -/
theorem not_After_Add_hour (t : Time) (hv : t.valid = true) :
    Time.After { t with sec := 0, nsec := 0 }
      { t.Add CLEANING_INTERVAL with sec := 0, nsec := 0 } = false := by
  rw [Add_hour t hv]
  split_ifs with h
  · simp [Time.After]
  · unfold Time.nextDay
    split_ifs with h1 h2
    · simp [Time.After]
    · simp [Time.After]
    · simp [Time.After]

/-- A member claimed for one hour from the reading `t` is not overdue at
`t`. -/
theorem overdueAt_fresh_claim (t : Time) (hv : t.valid = true)
    (hy : (t.Add CLEANING_INTERVAL).year ≤ 9999) (p : Str) (n : Nat)
    (hnew : Contains p NEW_CONTAINER_STATUS = false)
    (hsep : Contains (p ++ "-".toList) "---".toList = false) (c : Container)
    (hc : c.Names.head? = some (allocatedName (freshName p n) (t.Add CLEANING_INTERVAL))) :
    overdueAt { t with sec := 0, nsec := 0 } c = false := by
  have hd := getDate_fresh_claimed p n (t.Add CLEANING_INTERVAL) hnew hsep
    (valid_Add_hour t hv) hy
  cases hn : c.Names with
  | nil => rw [hn] at hc; simp at hc
  | cons name ns =>
    rw [hn] at hc
    simp only [List.head?_cons, Option.some.injEq] at hc
    unfold overdueAt decodedExpiry
    rw [hn]
    simp only [hc]
    unfold freshName
    rw [hd]
    exact not_After_Add_hour t hv

/-! ### C17 -/

/-- C17: for every list of members whose first names all decode, and a clock
that shows the reading `t` (year of at most four digits) whenever it is read,
`getOverdueContainers` returns, in input order, exactly the members whose
decoded expiry is strictly before `t` read back through `TIME_FORMAT`, which
is `t` with the seconds at zero; it reads the clock once per member and
changes nothing else.  In particular a member whose name was made by claiming
a fresh member (prefix as in C1) with expiry `t + CLEANING_INTERVAL` is not
among them. -/
theorem c17_overdue_selection (env : Env) (t : Time) (cs : List Container) (w : World)
    (hclock : ∀ k, env.clock k = t) (hv : t.valid = true) (hy : t.year ≤ 9999)
    (hdec : ∀ c ∈ cs, (decodedExpiry c).isSome = true) :
    Parse TIME_FORMAT (t.Format TIME_FORMAT) = Except.ok { t with sec := 0, nsec := 0 } ∧
    getOverdueContainers env cs w =
      (Outcome.ok (cs.filter (fun c =>
          match decodedExpiry c with
          | some expirationDate => Time.After { t with sec := 0, nsec := 0 } expirationDate
          | none => false)),
        { w with log := w.log ++ List.replicate cs.length Call.Now }) ∧
    (∀ (p : Str) (n : Nat) (c : Container),
      Contains p NEW_CONTAINER_STATUS = false →
      Contains (p ++ "-".toList) "---".toList = false →
      (t.Add CLEANING_INTERVAL).year ≤ 9999 →
      c.Names.head? = some (allocatedName (freshName p n) (t.Add CLEANING_INTERVAL)) →
      ∀ r w1, getOverdueContainers env cs w = (Outcome.ok r, w1) → c ∉ r) := by
  have hparse := Parse_Format t hv hy
  have hrun := getOverdueContainers_eq env t _ hclock hparse cs w hdec
  refine ⟨hparse, hrun, ?_⟩
  intro p n c hnew hsep hy2 hc r w1 hr hmem
  rw [hrun] at hr
  have hr1 : cs.filter (overdueAt { t with sec := 0, nsec := 0 }) = r := by
    have := congrArg Prod.fst hr
    simpa using this
  rw [← hr1] at hmem
  have := (List.mem_filter.mp hmem).2
  rw [overdueAt_fresh_claim t hv hy2 p n hnew hsep c hc] at this
  exact Bool.noConfusion this

/-- Instance of `c17_overdue_selection`: at 15:04:30 a member whose lease ended
at 14:04 is returned, and one whose stamp reads 15:04 is not. -/
theorem c17_overdue_selection_witness :
    (∀ c ∈ [longExpired, justExpired], (decodedExpiry c).isSome = true) ∧
    (getOverdueContainers (envAt halfPast) [longExpired, justExpired] emptyWorld).1 =
      Outcome.ok [longExpired] :=
  ⟨by decide,
    (congrArg Prod.fst (c17_overdue_selection (envAt halfPast) halfPast
      [longExpired, justExpired] emptyWorld (fun _ => rfl) (by decide) (by decide)
      (by decide)).2.1).trans (by decide)⟩

/-! ## C16 and C19: the removal pass -/

theorem filter_setStatus (id status : Str) (cs : List Container) :
    (setStatus id status cs).filter (fun c => decide (c.ID ≠ id)) =
      cs.filter (fun c => decide (c.ID ≠ id)) := by
  unfold setStatus
  induction cs with
  | nil => rfl
  | cons c cs ih =>
    simp only [List.map_cons, List.filter_cons]
    by_cases h : c.ID = id
    · simp only [h, if_true, ne_eq, not_true_eq_false, decide_False, Bool.false_eq_true, if_false]
      exact ih
    · simp only [h, if_false, ne_eq, not_false_eq_true, decide_True, if_true]
      rw [ih]

/-- One turn of the loop of `RemoveContainers`, the runtime calls succeeding:
what happens depends on the status found for the container. -/
theorem RemoveContainers_cons (operator : Operator) (c : Container) (rest : List Container)
    (w : World) (hfail : ∀ k, operator.docker.cli.fail k = none) :
    operator.RemoveContainers (c :: rest) w =
      if runtimeStatus c.ID w.containers = CONTAINER_STATUS_UP then
        operator.RemoveContainers rest
          { containers := w.containers.filter (fun x => decide (x.ID ≠ c.ID)),
            log := w.log ++ [Call.ContainerList, Call.ContainerStop c.ID,
              Call.ContainerRemove c.ID] }
      else if runtimeStatus c.ID w.containers = CONTAINER_STATUS_EXITED then
        operator.RemoveContainers rest
          { containers := w.containers.filter (fun x => decide (x.ID ≠ c.ID)),
            log := w.log ++ [Call.ContainerList, Call.ContainerRemove c.ID] }
      else
        (Outcome.error (Err.formatNil
            ("unable to get status of container, container_id: ".toList ++ c.ID)),
          { w with log := w.log ++ [Call.ContainerList] }) := by
  unfold runtimeStatus
  rw [Operator.RemoveContainers]
  simp only [Operator.GetStatusOfContainerByID, Docker.GetContainerByID, cliContainerList,
    call, record, getContainers, orFail, bind, pure, M.bind, M.pure, failWith,
    hfail, format]
  split_ifs with h1 h2
  · simp only [Docker.StopContainer, Docker.RemoveContainer, cliContainerStop,
      cliContainerRemove, call, record, getContainers, setContainers, orFail, bind, pure,
      M.bind, M.pure, failWith, hfail, filter_setStatus, List.append_assoc, List.length_append,
      List.length_cons, List.length_nil, List.cons_append, List.nil_append]
  · simp only [Docker.StopContainer, Docker.RemoveContainer, cliContainerStop,
      cliContainerRemove, call, record, getContainers, setContainers, orFail, bind, pure,
      M.bind, M.pure, failWith, hfail, filter_setStatus, List.append_assoc, List.length_append,
      List.length_cons, List.length_nil, List.cons_append, List.nil_append]
  · rfl

/-- Removing a container does not change what the lookup finds for another
identifier. -/
theorem runtimeStatus_filter (id other : Str) (h : id ≠ other) (cs : List Container) :
    runtimeStatus id (cs.filter (fun x => decide (x.ID ≠ other))) = runtimeStatus id cs := by
  unfold runtimeStatus lastByID
  suffices ∀ (l : List Container) (init : Container),
      (l.filter (fun x => decide (x.ID ≠ other))).foldl
        (fun result container => if container.ID = id then container else result) init =
      l.foldl (fun result container => if container.ID = id then container else result) init by
    rw [this]
  intro l
  induction l with
  | nil => intro _; rfl
  | cons c l ih =>
    intro init
    simp only [List.filter_cons]
    by_cases hc : c.ID = other
    · have hne : ¬ c.ID = id := fun e => h (e.symm.trans hc)
      simp only [hc, ne_eq, not_true_eq_false, decide_False, Bool.false_eq_true, if_false,
        List.foldl_cons]
      rw [ih, if_neg (hc ▸ hne)]
    · simp only [hc, ne_eq, not_false_eq_true, decide_True, if_true, List.foldl_cons]
      rw [ih]

theorem without_filter (id : Str) (ids : List Str) (cs : List Container) :
    without ids (cs.filter (fun x => decide (x.ID ≠ id))) = without (id :: ids) cs := by
  unfold without
  rw [List.filter_filter]
  apply List.filter_congr
  intro x _
  by_cases h1 : x.ID = id <;> by_cases h2 : x.ID ∈ ids <;> simp [h1, h2]

theorem without_nil (cs : List Container) : without [] cs = cs := by
  unfold without
  simp

/-- The removal pass over distinct containers whose statuses all map to `Up`
or `Exited`, the runtime calls succeeding: each is looked up, stopped if it is
`Up`, and removed, and the pass goes on with what follows them. -/
theorem RemoveContainers_append (operator : Operator)
    (hfail : ∀ k, operator.docker.cli.fail k = none) (tail : List Container) :
    ∀ (batch : List Container) (w : World), (batch.map (fun c => c.ID)).Nodup →
      (∀ c ∈ batch, runtimeStatus c.ID w.containers = CONTAINER_STATUS_UP ∨
        runtimeStatus c.ID w.containers = CONTAINER_STATUS_EXITED) →
      operator.RemoveContainers (batch ++ tail) w =
        operator.RemoveContainers tail
          { containers := without (batch.map (fun c => c.ID)) w.containers,
            log := w.log ++ batch.flatMap (removalCalls w.containers) }
  | [], w, _, _ => by
    simp [without_nil]
  | c :: rest, w, hnd, hst => by
    rw [List.map_cons, List.nodup_cons] at hnd
    have hne : ∀ x ∈ rest, x.ID ≠ c.ID := fun x hx e =>
      hnd.1 (List.mem_map.mpr ⟨x, hx, e⟩)
    have hst2 : ∀ x ∈ rest,
        runtimeStatus x.ID (w.containers.filter (fun y => decide (y.ID ≠ c.ID))) =
          CONTAINER_STATUS_UP ∨
        runtimeStatus x.ID (w.containers.filter (fun y => decide (y.ID ≠ c.ID))) =
          CONTAINER_STATUS_EXITED := by
      intro x hx
      rw [runtimeStatus_filter x.ID c.ID (hne x hx)]
      exact hst x (by simp [hx])
    have hcalls : rest.flatMap
        (removalCalls (w.containers.filter (fun y => decide (y.ID ≠ c.ID)))) =
        rest.flatMap (removalCalls w.containers) := by
      simp only [List.flatMap]
      congr 1
      apply List.map_congr_left
      intro x hx
      unfold removalCalls
      rw [runtimeStatus_filter x.ID c.ID (hne x hx)]
    rw [List.cons_append, RemoveContainers_cons operator c (rest ++ tail) w hfail]
    split_ifs with h1 h2
    · rw [RemoveContainers_append operator hfail tail rest _ hnd.2 hst2]
      simp only [without_filter, hcalls, List.flatMap_cons, removalCalls, h1, if_true,
        List.map_cons, List.append_assoc, List.cons_append, List.nil_append]
    · rw [RemoveContainers_append operator hfail tail rest _ hnd.2 hst2]
      simp only [without_filter, hcalls, List.flatMap_cons, removalCalls, h1, if_false,
        List.map_cons, List.append_assoc, List.cons_append, List.nil_append]
    · rcases hst c (by simp) with h | h
      · exact absurd h h1
      · exact absurd h h2

/-- The identifiers removed by a run of calls, in order. -/
theorem removed_of_removalCalls (cs : List Container) :
    ∀ batch : List Container,
      (batch.flatMap (removalCalls cs)).filterMap
        (fun k => match k with | Call.ContainerRemove id => some id | _ => none) =
      batch.map (fun c => c.ID)
  | [] => rfl
  | c :: rest => by
    have ih := removed_of_removalCalls cs rest
    simp only [List.flatMap_cons, List.filterMap_append, ih, List.map_cons]
    unfold removalCalls
    split_ifs <;> rfl

/-- The identifiers stopped by a run of calls, in order: those of the
containers found `Up`. -/
theorem stopped_of_removalCalls (cs : List Container) :
    ∀ batch : List Container,
      (batch.flatMap (removalCalls cs)).filterMap
        (fun k => match k with | Call.ContainerStop id => some id | _ => none) =
      (batch.filter (fun c => decide (runtimeStatus c.ID cs = CONTAINER_STATUS_UP))).map
        (fun c => c.ID)
  | [] => rfl
  | c :: rest => by
    have ih := stopped_of_removalCalls cs rest
    simp only [List.flatMap_cons, List.filterMap_append, ih, List.filter_cons]
    unfold removalCalls
    by_cases h : runtimeStatus c.ID cs = CONTAINER_STATUS_UP
    · simp [h]
    · simp [h]

/-- The status found for an identifier the runtime does not hold is
`Unknown`. -/
theorem runtimeStatus_absent (id : Str) (cs : List Container) (h : ∀ c ∈ cs, c.ID ≠ id) :
    runtimeStatus id cs = CONTAINER_STATUS_UNKNOWN := by
  unfold runtimeStatus lastByID
  rw [foldl_lastByID_absent id cs {} h]
  rfl

/-- When every status found during the pass maps to `Up` or `Exited`, the
containers of the batch are distinct and have those statuses before the pass:
a container listed twice would be looked up again after its removal. -/
theorem static_of_lookedUp :
    ∀ (batch cs : List Container),
      (∀ s ∈ lookedUpStatuses cs batch, s = CONTAINER_STATUS_UP ∨ s = CONTAINER_STATUS_EXITED) →
      (batch.map (fun c => c.ID)).Nodup ∧
      ∀ c ∈ batch, runtimeStatus c.ID cs = CONTAINER_STATUS_UP ∨
        runtimeStatus c.ID cs = CONTAINER_STATUS_EXITED
  | [], _, _ => by simp
  | c :: rest, cs, h => by
    have hc := h (runtimeStatus c.ID cs) (List.mem_cons_self _ _)
    obtain ⟨ihn, ihs⟩ := static_of_lookedUp rest
      (cs.filter (fun x => decide (x.ID ≠ c.ID)))
      (fun s hs => h s (List.mem_cons_of_mem _ hs))
    have hne : ∀ x ∈ rest, x.ID ≠ c.ID := by
      intro x hx e
      have habs : runtimeStatus x.ID (cs.filter (fun y => decide (y.ID ≠ c.ID))) =
          CONTAINER_STATUS_UNKNOWN := by
        apply runtimeStatus_absent
        intro y hy
        have := (List.mem_filter.mp hy).2
        rw [e]
        simpa using this
      rcases ihs x hx with h1 | h1 <;> rw [habs] at h1 <;> exact absurd h1 (by decide)
    refine ⟨?_, ?_⟩
    · rw [List.map_cons, List.nodup_cons]
      refine ⟨?_, ihn⟩
      intro hmem
      obtain ⟨x, hx, e⟩ := List.mem_map.mp hmem
      exact hne x hx e
    · intro x hx
      rcases List.mem_cons.mp hx with rfl | hx
      · exact hc
      · rw [← runtimeStatus_filter x.ID c.ID (hne x hx)]
        exact ihs x hx

/-! ### C16 -/

/-- C16: for every batch of containers whose status in the runtime, as
`RemoveContainers` finds it when it looks the container up, maps to `Up` or
`Exited`, every runtime call succeeding, `RemoveContainers` returns no error; for each container in input order it makes the calls
`removalCalls` gives: the listing of the status lookup, `ContainerStop` if and
only if the status is `Up`, and then `ContainerRemove`; the runtime is left
without the containers of the batch.  So the removals are those of the batch, once each and in input
order, and the stops are those of the containers found `Up`. -/
theorem c16_stop_then_remove (operator : Operator) (batch : List Container) (w : World)
    (hfail : ∀ k, operator.docker.cli.fail k = none)
    (hst : ∀ s ∈ lookedUpStatuses w.containers batch,
      s = CONTAINER_STATUS_UP ∨ s = CONTAINER_STATUS_EXITED) :
    operator.RemoveContainers batch w =
      (Outcome.ok (),
        { containers := w.containers.filter (fun c => decide (c.ID ∉ batch.map (fun b => b.ID))),
          log := w.log ++ batch.flatMap (removalCalls w.containers) }) ∧
    (batch.flatMap (removalCalls w.containers)).filterMap
        (fun k => match k with | Call.ContainerRemove id => some id | _ => none) =
      batch.map (fun c => c.ID) ∧
    (batch.flatMap (removalCalls w.containers)).filterMap
        (fun k => match k with | Call.ContainerStop id => some id | _ => none) =
      (batch.filter (fun c => decide (runtimeStatus c.ID w.containers = CONTAINER_STATUS_UP))).map
        (fun c => c.ID) := by
  refine ⟨?_, removed_of_removalCalls _ batch, stopped_of_removalCalls _ batch⟩
  obtain ⟨hnd, hst1⟩ := static_of_lookedUp batch w.containers hst
  have h := RemoveContainers_append operator hfail [] batch w hnd hst1
  rw [List.append_nil] at h
  rw [h]
  rfl

/-- Instance of `c16_stop_then_remove`: a running member is stopped and
removed, an exited one is removed without a stop. -/
theorem c16_stop_then_remove_witness :
    (∀ s ∈ lookedUpStatuses removalWorld.containers [longExpired, stoppedMember],
      s = CONTAINER_STATUS_UP ∨ s = CONTAINER_STATUS_EXITED) ∧
    sampleOperator.RemoveContainers [longExpired, stoppedMember] removalWorld =
      (Outcome.ok (),
        { containers := [createdMember],
          log := [Call.ContainerList, Call.ContainerStop "c2".toList,
            Call.ContainerRemove "c2".toList, Call.ContainerList,
            Call.ContainerRemove "c4".toList] }) :=
  ⟨by decide,
    (c16_stop_then_remove sampleOperator [longExpired, stoppedMember] removalWorld
      (fun _ => rfl) (by decide)).1.trans (by decide)⟩

/-! ### C19 -/

theorem mem_removalCalls (cs : List Container) (batch : List Container) (k : Call)
    (h : k ∈ batch.flatMap (removalCalls cs)) :
    k = Call.ContainerList ∨ ∃ c ∈ batch, k = Call.ContainerStop c.ID ∨
      k = Call.ContainerRemove c.ID := by
  obtain ⟨c, hc, hk⟩ := List.mem_flatMap.mp h
  unfold removalCalls at hk
  split_ifs at hk
  · simp only [List.mem_cons, List.cons_append, List.nil_append, List.mem_singleton,
      List.not_mem_nil, or_false] at hk
    rcases hk with h | h | h
    · exact Or.inl h
    · exact Or.inr ⟨c, hc, Or.inl h⟩
    · exact Or.inr ⟨c, hc, Or.inr h⟩
  · simp only [List.mem_cons, List.nil_append, List.mem_singleton, List.not_mem_nil,
      or_false] at hk
    rcases hk with h | h
    · exact Or.inl h
    · exact Or.inr ⟨c, hc, Or.inr h⟩

/-- C19: a batch `pre ++ x :: post` in which the statuses found for the
containers of `pre` map to `Up` or `Exited` and `x` is the first whose
status, looked up at its turn, maps to neither; every runtime call
succeeds.  `RemoveContainers` returns an error (made by `karma.Format`
from a nil reason); the containers of `pre` have been removed, each after
being stopped if it was `Up`; the last call is the listing of the lookup for
`x`, so that no container of `x :: post` that is not also in `pre` is stopped
or removed.  An identifier the runtime does not hold has such a status. -/
theorem c19_unknown_status_aborts (operator : Operator) (pre post : List Container)
    (x : Container) (w : World)
    (hfail : ∀ k, operator.docker.cli.fail k = none)
    (hst : ∀ s ∈ lookedUpStatuses w.containers pre,
      s = CONTAINER_STATUS_UP ∨ s = CONTAINER_STATUS_EXITED)
    (hx : runtimeStatus x.ID (without (pre.map (fun c => c.ID)) w.containers) ≠
        CONTAINER_STATUS_UP ∧
      runtimeStatus x.ID (without (pre.map (fun c => c.ID)) w.containers) ≠
        CONTAINER_STATUS_EXITED) :
    operator.RemoveContainers (pre ++ x :: post) w =
      (Outcome.error (Err.formatNil
          ("unable to get status of container, container_id: ".toList ++ x.ID)),
        { containers := w.containers.filter (fun c => decide (c.ID ∉ pre.map (fun b => b.ID))),
          log := w.log ++ (pre.flatMap (removalCalls w.containers) ++ [Call.ContainerList]) }) ∧
    (∀ c ∈ x :: post, c.ID ∉ pre.map (fun b => b.ID) →
      Call.ContainerStop c.ID ∉ pre.flatMap (removalCalls w.containers) ++ [Call.ContainerList] ∧
      Call.ContainerRemove c.ID ∉
        pre.flatMap (removalCalls w.containers) ++ [Call.ContainerList]) ∧
    (∀ (id : Str) (cs : List Container), (∀ c ∈ cs, c.ID ≠ id) →
      runtimeStatus id cs ≠ CONTAINER_STATUS_UP ∧
      runtimeStatus id cs ≠ CONTAINER_STATUS_EXITED) := by
  obtain ⟨hnd, hst1⟩ := static_of_lookedUp pre w.containers hst
  refine ⟨?_, ?_, ?_⟩
  · rw [RemoveContainers_append operator hfail (x :: post) pre w hnd hst1,
      RemoveContainers_cons operator x post _ hfail]
    simp only [if_neg hx.1, if_neg hx.2, List.append_assoc]
    rfl
  · intro c _ hc
    have key : ∀ k : Call, (k = Call.ContainerStop c.ID ∨ k = Call.ContainerRemove c.ID) →
        k ∉ pre.flatMap (removalCalls w.containers) ++ [Call.ContainerList] := by
      intro k hk hmem
      rcases List.mem_append.mp hmem with h | h
      · rcases mem_removalCalls _ _ _ h with h1 | ⟨p, hp, h1⟩
        · rcases hk with e | e <;> rw [e] at h1 <;> exact Call.noConfusion h1
        · have hid : c.ID = p.ID := by
            rcases hk with e | e <;> rcases h1 with e1 | e1 <;> rw [e] at e1 <;>
              first
                | exact Call.noConfusion e1 (fun h => h)
                | exact Call.noConfusion e1
          exact hc (List.mem_map.mpr ⟨p, hp, hid.symm⟩)
      · rw [List.mem_singleton] at h
        rcases hk with e | e <;> rw [e] at h <;> exact Call.noConfusion h
    exact ⟨key _ (Or.inl rfl), key _ (Or.inr rfl)⟩
  · intro id cs h
    rw [runtimeStatus_absent id cs h]
    exact ⟨by decide, by decide⟩

/-- Instance of `c19_unknown_status_aborts`: the pass stops at a member the
runtime reports as `Created`, after removing the member before it. -/
theorem c19_unknown_status_aborts_witness :
    ((∀ s ∈ lookedUpStatuses removalWorld.containers [longExpired],
        s = CONTAINER_STATUS_UP ∨ s = CONTAINER_STATUS_EXITED) ∧
      runtimeStatus createdMember.ID
          (without ([longExpired].map (fun c => c.ID)) removalWorld.containers) ≠
        CONTAINER_STATUS_UP ∧
      runtimeStatus createdMember.ID
          (without ([longExpired].map (fun c => c.ID)) removalWorld.containers) ≠
        CONTAINER_STATUS_EXITED) ∧
    sampleOperator.RemoveContainers [longExpired, createdMember, stoppedMember] removalWorld =
      (Outcome.error (Err.formatNil
          "unable to get status of container, container_id: c5".toList),
        { containers := [stoppedMember, createdMember],
          log := [Call.ContainerList, Call.ContainerStop "c2".toList,
            Call.ContainerRemove "c2".toList, Call.ContainerList] }) :=
  ⟨⟨by decide, by decide, by decide⟩,
    (c19_unknown_status_aborts sampleOperator [longExpired] [stoppedMember] createdMember
      removalWorld (fun _ => rfl) (by decide) ⟨by decide, by decide⟩).1.trans
      (by decide)⟩

/-! ## C15: the initial members -/

theorem isExceeds_run (operator : Operator) (max : Nat) (w : World)
    (hfail : ∀ k, operator.docker.cli.fail k = none) :
    operator.isExceedsNumberOfCreatedContainers max w =
      (Outcome.ok (if (byPrefix operator.config.Prefix w.containers).length ≥ max then (true, 0)
          else (false, (byPrefix operator.config.Prefix w.containers).length)),
        { w with log := w.log ++ [Call.ContainerList] }) := by
  simp only [Operator.isExceedsNumberOfCreatedContainers, Docker.GetContainersListByPrefix,
    cliContainerList, call, record, getContainers, orFail, bind, pure, M.bind, M.pure, hfail]
  split_ifs <;> rfl

theorem getPorts_run (env : Env) (w : World) (hfail : ∀ k, env.fail k = none) :
    getPorts env w =
      (Outcome.ok (Itoa (env.port (w.log.length + 1)), Itoa (env.port (w.log.length + 3))),
        { w with log := w.log ++ [Call.ResolveTCPAddr, Call.ListenTCP, Call.ResolveTCPAddr,
            Call.ListenTCP] }) := by
  simp [getPorts, getFreePort, call, record, orFail, bind, pure, M.bind, M.pure, hfail]

theorem ValidateStartupStatus_run (operator : Operator) (url : Str) (container : ContainerData)
    (r : Nat) (message : Str) (w : World)
    (hfail : ∀ k, operator.docker.cli.fail k = none)
    (hhttp : ∀ k, ∃ st, operator.docker.cli.http k = HTTPReply.status st ∧
      st.State = CONTAINER_STATUS_STARTED) :
    operator.ValidateStartupStatus url container (r + 1) message w =
      (Outcome.ok (),
        { w with log := w.log ++ [Call.NewRequest (url ++ "/system/startup".toList),
            Call.HTTPDo (url ++ "/system/startup".toList)] }) := by
  obtain ⟨st, h1, h2⟩ := hhttp (w.log.length + 1)
  simp [Operator.ValidateStartupStatus, Operator.GetStartupStatus, call, record, orFail, bind,
    pure, M.bind, M.pure, hfail, h1, h2]

theorem InstallAddonAndSetLicense_run (operator : Operator) (url : Str) (w : World)
    (hfail : ∀ k, operator.docker.cli.fail k = none) :
    operator.InstallAddonAndSetLicense url w =
      (Outcome.ok (),
        { w with log := w.log ++ [Call.UrlParse url, Call.GetUPMToken,
            Call.InstallAddon operator.opts.AddonPath, Call.OpenFile operator.opts.LicensePath,
            Call.ReadAll, Call.SetAddonLicense "io.reconquest.snake".toList] }) := by
  simp [Operator.InstallAddonAndSetLicense, readFile, call, record, orFail, bind, pure, M.bind,
    M.pure, hfail]

theorem AddIDToContainerName_run (env : Env) (name : Str) (w : World) :
    AddIDToContainerName env name w =
      (Outcome.ok (freshName name (env.rand w.log.length % 1000000 + 1000000)),
        { w with log := w.log ++ [Call.RandIntn 1000000] }) := rfl

theorem addIDToVolume_run (env : Env) (name : Str) (w : World) :
    addIDToVolume env name w =
      (Outcome.ok (name ++ "-volume-".toList ++ Itoa (env.rand w.log.length % 1000000 + 1000000)),
        { w with log := w.log ++ [Call.RandIntn 1000000] }) := rfl

theorem CreateContainer_run (docker : Docker) (name image portHTTP portSSH : Str) (w : World)
    (hfail : ∀ k, docker.cli.fail k = none) :
    docker.CreateContainer name image portHTTP portSSH w =
      (Outcome.ok (docker.cli.newID (w.log.length + 3)),
        { containers := { ID := docker.cli.newID (w.log.length + 3), Names := [('/' :: name)],
                          Image := image, Status := "Created".toList } :: w.containers,
          log := w.log ++ [Call.ImagePull image, Call.CopyPullOutput, Call.RandIntn 1000000,
            Call.ContainerCreate name image portHTTP portSSH
              (docker.config.Prefix ++ "-volume-".toList ++
                Itoa (docker.cli.rand (w.log.length + 2) % 1000000 + 1000000))] }) := by
  simp only [Docker.CreateContainer, cliContainerCreate, call, record, getContainers,
    setContainers, orFail, bind, pure, M.bind, M.pure, hfail, addIDToVolume_run,
    List.append_assoc, List.cons_append, List.nil_append, List.length_append, List.length_cons,
    List.length_nil]

theorem StartContainer_run (docker : Docker) (id : Str) (w : World)
    (hfail : ∀ k, docker.cli.fail k = none) :
    docker.StartContainer id w =
      (Outcome.ok (),
        { containers := setStatus id "Up Less than a second".toList w.containers,
          log := w.log ++ [Call.ContainerStart id] }) := by
  simp only [Docker.StartContainer, cliContainerStart, call, record, getContainers,
    setContainers, orFail, bind, pure, M.bind, M.pure, hfail]

theorem GetContainerByID_run (docker : Docker) (id : Str) (w : World)
    (hfail : ∀ k, docker.cli.fail k = none) :
    docker.GetContainerByID id w =
      (Outcome.ok (some (lastByID id w.containers)),
        { w with log := w.log ++ [Call.ContainerList] }) := by
  simp only [Docker.GetContainerByID, cliContainerList, call, record, getContainers,
    orFail, bind, pure, M.bind, M.pure, hfail]

/-- `CreateAndStartContainer` below the capacity ceiling, every call
succeeding: a container named `/<prefix>-<number>---new` is created and
started, listed first. -/
theorem CreateAndStartContainer_run (operator : Operator) (image : Str) (w : World)
    (hfail : ∀ k, operator.docker.cli.fail k = none)
    (himage : operator.getBitbucketImageWithVersion = Except.ok image)
    (hroom : (byPrefix operator.config.Prefix w.containers).length < MAX_NUMBER_OF_CONTAINERS) :
    ∃ (id : Str) (n : Nat) (portHTTP portSSH volume : Str),
      operator.CreateAndStartContainer w =
        (Outcome.ok { Name := freshName operator.config.Prefix n, Image := image, ID := id,
                      Username := operator.config.Bitbucket.Username,
                      Password := operator.config.Bitbucket.Password,
                      PortHTTP := portHTTP, PortSSH := portSSH },
          { containers := setStatus id "Up Less than a second".toList
              ({ ID := id, Names := [('/' :: freshName operator.config.Prefix n)],
                 Image := image, Status := "Created".toList } :: w.containers),
            log := w.log ++ [Call.ContainerList, Call.RandIntn 1000000, Call.ResolveTCPAddr,
              Call.ListenTCP, Call.ResolveTCPAddr, Call.ListenTCP, Call.ImagePull image,
              Call.CopyPullOutput, Call.RandIntn 1000000,
              Call.ContainerCreate (freshName operator.config.Prefix n) image portHTTP portSSH
                volume,
              Call.ContainerStart id] }) := by
  have hge : ¬ (byPrefix operator.config.Prefix w.containers).length ≥
      MAX_NUMBER_OF_CONTAINERS := by omega
  simp only [Operator.CreateAndStartContainer, bind, M.bind, orFail,
    isExceeds_run operator _ _ hfail, if_neg hge, himage, Bool.false_eq_true, if_false,
    AddIDToContainerName_run, getPorts_run _ _ hfail, CreateContainer_run _ _ _ _ _ _ hfail,
    StartContainer_run _ _ _ hfail, pure, M.pure,
    List.append_assoc, List.cons_append, List.nil_append, List.length_append,
    List.length_cons, List.length_nil]
  exact ⟨_, _, _, _, _, rfl⟩

/-- One `HandleNewContainer` below the capacity ceiling, every call succeeding
and Bitbucket started: a container named `/<prefix>-<number>---new` is
created and started, listed first, and its record returned. -/
theorem HandleNewContainer_run (operator : Operator) (image : Str) (r : Nat) (w : World)
    (hfail : ∀ k, operator.docker.cli.fail k = none)
    (hhttp : ∀ k, ∃ st, operator.docker.cli.http k = HTTPReply.status st ∧
      st.State = CONTAINER_STATUS_STARTED)
    (himage : operator.getBitbucketImageWithVersion = Except.ok image)
    (hroom : (byPrefix operator.config.Prefix w.containers).length < MAX_NUMBER_OF_CONTAINERS) :
    ∃ (id : Str) (n : Nat) (portHTTP portSSH volume : Str) (m : Option Container),
      operator.HandleNewContainer (r + 1) w =
        (Outcome.ok m,
          { containers := setStatus id "Up Less than a second".toList
              ({ ID := id, Names := [('/' :: freshName operator.config.Prefix n)],
                 Image := image, Status := "Created".toList } :: w.containers),
            log := w.log ++ provisionCalls operator (freshName operator.config.Prefix n) image
              portHTTP portSSH volume id }) := by
  obtain ⟨id, n, portHTTP, portSSH, volume, h⟩ :=
    CreateAndStartContainer_run operator image w hfail himage hroom
  refine ⟨id, n, portHTTP, portSSH, volume, ?_⟩
  simp only [Operator.HandleNewContainer, bind, M.bind, orFail, h, pure, M.pure,
    ValidateStartupStatus_run operator _ _ r _ _ hfail hhttp,
    InstallAddonAndSetLicense_run operator _ _ hfail, GetContainerByID_run _ _ _ hfail,
    provisionCalls, List.append_assoc, List.cons_append, List.nil_append]
  exact ⟨_, rfl⟩

theorem map_Names_setStatus (id status : Str) (cs : List Container) :
    (setStatus id status cs).map (fun c => c.Names) = cs.map (fun c => c.Names) := by
  unfold setStatus
  rw [List.map_map]
  apply List.map_congr_left
  intro c _
  simp only [Function.comp]
  split_ifs <;> rfl

/-- The number of entries `GetContainersListByPrefix` gives depends on the
names of the containers only. -/
theorem byPrefix_length_congr (pre : Str) :
    ∀ cs ds : List Container, cs.map (fun c => c.Names) = ds.map (fun c => c.Names) →
      (byPrefix pre cs).length = (byPrefix pre ds).length
  | [], [], _ => rfl
  | [], _ :: _, h => by simp at h
  | _ :: _, [], h => by simp at h
  | c :: cs, d :: ds, h => by
    simp only [List.map_cons, List.cons.injEq] at h
    rw [byPrefix_cons, byPrefix_cons, List.length_append, List.length_append, List.length_map,
      List.length_map, h.1, byPrefix_length_congr pre cs ds h.2]

theorem countMatching_congr (pre : Str) :
    ∀ cs ds : List Container, cs.map (fun c => c.Names) = ds.map (fun c => c.Names) →
      countMatching pre cs = countMatching pre ds
  | [], [], _ => rfl
  | [], _ :: _, h => by simp at h
  | _ :: _, [], h => by simp at h
  | c :: cs, d :: ds, h => by
    simp only [List.map_cons, List.cons.injEq] at h
    have ih := countMatching_congr pre cs ds h.2
    unfold countMatching at *
    simp only [List.filter_cons, h.1]
    split_ifs
    · simp only [List.length_cons, ih]
    · exact ih

theorem Contains_slash_freshName (pre : Str) (k : Nat) :
    Contains ('/' :: freshName pre k) pre = true := by
  have := Contains_append ['/'] pre ("-".toList ++ Itoa k ++ "---".toList ++ NEW_CONTAINER_STATUS)
  unfold freshName
  simpa using this

theorem Contains_new_freshName (pre : Str) (k : Nat) :
    Contains ('/' :: freshName pre k) NEW_CONTAINER_STATUS = true := by
  have := Contains_append ('/' :: (pre ++ "-".toList ++ Itoa k ++ "---".toList))
    NEW_CONTAINER_STATUS []
  unfold freshName
  simpa using this

/-- Members made by `HandleNewContainer`, each with its one name, count once
each in the listing by prefix. -/
theorem byPrefix_news (pre : Str) :
    ∀ (news olds : List Container),
      (∀ m ∈ news, ∃ k, m.Names = [('/' :: freshName pre k)]) →
      (byPrefix pre (news ++ olds)).length = news.length + (byPrefix pre olds).length ∧
      countMatching pre (news ++ olds) = news.length + countMatching pre olds
  | [], olds, _ => by simp
  | m :: news, olds, h => by
    obtain ⟨k, hk⟩ := h m (by simp)
    obtain ⟨ih1, ih2⟩ := byPrefix_news pre news olds (fun x hx => h x (by simp [hx]))
    constructor
    · rw [List.cons_append, byPrefix_cons, List.length_append, ih1, hk]
      simp [Contains_slash_freshName]
      omega
    · unfold countMatching at *
      rw [List.cons_append, List.filter_cons, hk]
      simp only [List.any_cons, Contains_slash_freshName, List.any_nil, Bool.or_false, if_true,
        List.length_cons, ih2]
      omega

/-- The loop of `RunInitialContainers` while there is room below the capacity
ceiling, every call succeeding and Bitbucket started: each round adds one
member in front of the containers of the runtime. -/
theorem runInitialLoop_run (operator : Operator) (image : Str) (r : Nat)
    (hfail : ∀ k, operator.docker.cli.fail k = none)
    (hhttp : ∀ k, ∃ st, operator.docker.cli.http k = HTTPReply.status st ∧
      st.State = CONTAINER_STATUS_STARTED)
    (himage : operator.getBitbucketImageWithVersion = Except.ok image) :
    ∀ (n : Nat) (w : World),
      (byPrefix operator.config.Prefix w.containers).length + n ≤ MAX_NUMBER_OF_CONTAINERS →
      ∃ (news olds : List Container) (blocks : List (List Call)),
        operator.runInitialLoop (r + 1) n w =
          (Outcome.ok (), { containers := news ++ olds, log := w.log ++ blocks.flatten }) ∧
        news.length = n ∧
        (∀ m ∈ news, ∃ k, m.Names = [('/' :: freshName operator.config.Prefix k)]) ∧
        olds.map (fun c => c.Names) = w.containers.map (fun c => c.Names) ∧
        blocks.length = n ∧
        (∀ b ∈ blocks, ∃ name portHTTP portSSH volume id,
          b = provisionCalls operator name image portHTTP portSSH volume id)
  | 0, w, _ => by
    refine ⟨[], w.containers, [], ?_, rfl, ?_, rfl, rfl, ?_⟩
    · simp [Operator.runInitialLoop, pure, M.pure]
    · intro m hm; simp at hm
    · intro b hb; simp at hb
  | n + 1, w, hroom => by
    obtain ⟨id, k, portHTTP, portSSH, volume, m, hrun⟩ :=
      HandleNewContainer_run operator image r w hfail hhttp himage (by omega)
    have hcount : (byPrefix operator.config.Prefix
        (setStatus id "Up Less than a second".toList
          ({ ID := id, Names := [('/' :: freshName operator.config.Prefix k)],
             Image := image, Status := "Created".toList } :: w.containers))).length =
        (byPrefix operator.config.Prefix w.containers).length + 1 := by
      rw [byPrefix_length_congr _ _ _ (map_Names_setStatus _ _ _), byPrefix_cons]
      simp [Contains_slash_freshName]
    obtain ⟨news, olds, blocks, hloop, hlen, hnews, holds, hblen, hblocks⟩ :=
      runInitialLoop_run operator image r hfail hhttp himage n
        { containers := setStatus id "Up Less than a second".toList
            ({ ID := id, Names := [('/' :: freshName operator.config.Prefix k)],
               Image := image, Status := "Created".toList } :: w.containers),
          log := w.log ++ provisionCalls operator (freshName operator.config.Prefix k) image
            portHTTP portSSH volume id }
        (by rw [hcount]; omega)
    rw [map_Names_setStatus] at holds
    cases olds with
    | nil => simp at holds
    | cons o olds =>
      simp only [List.map_cons, List.cons.injEq] at holds
      refine ⟨news ++ [o], olds,
        provisionCalls operator (freshName operator.config.Prefix k) image portHTTP portSSH
          volume id :: blocks, ?_, ?_, ?_, holds.2, ?_, ?_⟩
      · simp only [Operator.runInitialLoop, bind, M.bind, orFail, hrun, hloop,
          List.flatten_cons, List.append_assoc, List.cons_append, List.nil_append]
      · simp [hlen]
      · intro x hx
        rcases List.mem_append.mp hx with h | h
        · exact hnews x h
        · rw [List.mem_singleton] at h
          exact ⟨k, h ▸ holds.1⟩
      · simp [hblen]
      · intro b hb
        rcases List.mem_cons.mp hb with h | h
        · exact ⟨_, _, _, _, _, h⟩
        · exact hblocks b h

/-- The run of `RunInitialContainers` in terms of the count its guard uses,
`c` being the number of entries the listing by prefix gives (a container is
listed once for each of its names that contains the prefix): every call
succeeding, the configured version resolving to an image and Bitbucket
reporting `STARTED` at each first request, `RunInitialContainers` returns no
error and makes `INITIAL_NUMBER_OF_CONTAINERS - c` runs of
`HandleNewContainer` (none when `c ≥ 2`), each making the calls of
`provisionCalls`, among which there is no rename.  The runtime then holds
that many new members in front of the containers it held, each under the one
name `/<prefix>-<number>---new`, which has the status `new`; the names of the
other containers are unchanged; the listing by prefix gives `c` plus that
many entries; and the number of containers with a matching name has grown by
that many.  When `c ≥ 2` the one call made is the listing. -/
theorem RunInitialContainers_run (operator : Operator) (image : Str) (r : Nat) (w : World)
    (hfail : ∀ k, operator.docker.cli.fail k = none)
    (hhttp : ∀ k, ∃ st, operator.docker.cli.http k = HTTPReply.status st ∧
      st.State = CONTAINER_STATUS_STARTED)
    (himage : operator.getBitbucketImageWithVersion = Except.ok image) :
    ∃ (news olds : List Container) (blocks : List (List Call)),
      operator.RunInitialContainers (r + 1) w =
        (Outcome.ok (),
          { containers := news ++ olds, log := w.log ++ Call.ContainerList :: blocks.flatten }) ∧
      news.length =
        INITIAL_NUMBER_OF_CONTAINERS - (byPrefix operator.config.Prefix w.containers).length ∧
      blocks.length =
        INITIAL_NUMBER_OF_CONTAINERS - (byPrefix operator.config.Prefix w.containers).length ∧
      (∀ b ∈ blocks, (∃ name portHTTP portSSH volume id,
          b = provisionCalls operator name image portHTTP portSSH volume id) ∧
        ∀ id newName, Call.ContainerRename id newName ∉ b) ∧
      (∀ m ∈ news, (∃ k, m.Names = [('/' :: freshName operator.config.Prefix k)]) ∧
        firstNameHas NEW_CONTAINER_STATUS m = true) ∧
      olds.map (fun c => c.Names) = w.containers.map (fun c => c.Names) ∧
      (byPrefix operator.config.Prefix (news ++ olds)).length =
        (byPrefix operator.config.Prefix w.containers).length +
          (INITIAL_NUMBER_OF_CONTAINERS -
            (byPrefix operator.config.Prefix w.containers).length) ∧
      INITIAL_NUMBER_OF_CONTAINERS ≤ (byPrefix operator.config.Prefix (news ++ olds)).length ∧
      countMatching operator.config.Prefix (news ++ olds) =
        countMatching operator.config.Prefix w.containers +
          (INITIAL_NUMBER_OF_CONTAINERS -
            (byPrefix operator.config.Prefix w.containers).length) ∧
      (INITIAL_NUMBER_OF_CONTAINERS ≤ (byPrefix operator.config.Prefix w.containers).length →
        news = [] ∧ olds = w.containers ∧ blocks = []) := by
  have h2 : INITIAL_NUMBER_OF_CONTAINERS = 2 := rfl
  have h6 : MAX_NUMBER_OF_CONTAINERS = 6 := rfl
  have hprops : ∀ (news olds : List Container) (blocks : List (List Call)) (n : Nat),
      news.length = n →
      (∀ m ∈ news, ∃ k, m.Names = [('/' :: freshName operator.config.Prefix k)]) →
      olds.map (fun c => c.Names) = w.containers.map (fun c => c.Names) →
      (∀ b ∈ blocks, ∃ name portHTTP portSSH volume id,
        b = provisionCalls operator name image portHTTP portSSH volume id) →
      (∀ b ∈ blocks, (∃ name portHTTP portSSH volume id,
          b = provisionCalls operator name image portHTTP portSSH volume id) ∧
        ∀ id newName, Call.ContainerRename id newName ∉ b) ∧
      (∀ m ∈ news, (∃ k, m.Names = [('/' :: freshName operator.config.Prefix k)]) ∧
        firstNameHas NEW_CONTAINER_STATUS m = true) ∧
      (byPrefix operator.config.Prefix (news ++ olds)).length =
        (byPrefix operator.config.Prefix w.containers).length + n ∧
      countMatching operator.config.Prefix (news ++ olds) =
        countMatching operator.config.Prefix w.containers + n := by
    intro news olds blocks n hlen hnews holds hblocks
    obtain ⟨c1, c2⟩ := byPrefix_news operator.config.Prefix news olds hnews
    refine ⟨?_, ?_, ?_, ?_⟩
    · intro b hb
      refine ⟨hblocks b hb, ?_⟩
      obtain ⟨name, portHTTP, portSSH, volume, id, rfl⟩ := hblocks b hb
      intro id2 newName hmem
      simp [provisionCalls] at hmem
    · intro m hm
      refine ⟨hnews m hm, ?_⟩
      obtain ⟨k, hk⟩ := hnews m hm
      unfold firstNameHas
      rw [hk]
      exact Contains_new_freshName _ k
    · rw [c1, hlen, byPrefix_length_congr _ _ _ holds]
      omega
    · rw [c2, hlen, countMatching_congr _ _ _ holds]
      omega
  by_cases hc : (byPrefix operator.config.Prefix w.containers).length ≥
      INITIAL_NUMBER_OF_CONTAINERS
  · have hz : INITIAL_NUMBER_OF_CONTAINERS -
        (byPrefix operator.config.Prefix w.containers).length = 0 := by omega
    obtain ⟨p1, p2, p3, p4⟩ := hprops [] w.containers [] 0 rfl (by simp) rfl (by simp)
    refine ⟨[], w.containers, [], ?_, by rw [hz]; rfl, by rw [hz]; rfl, p1, p2, rfl, ?_, ?_, ?_,
      fun _ => ⟨rfl, rfl, rfl⟩⟩
    · simp only [Operator.RunInitialContainers, bind, M.bind, orFail,
        isExceeds_run operator _ _ hfail, if_pos hc, if_true, pure, M.pure, List.nil_append,
        List.flatten_nil]
    · rw [hz]; exact p3
    · rw [List.nil_append]; omega
    · rw [hz]; exact p4
  · obtain ⟨news, olds, blocks, hloop, hlen, hnews, holds, hblen, hblocks⟩ :=
      runInitialLoop_run operator image r hfail hhttp himage
        (INITIAL_NUMBER_OF_CONTAINERS - (byPrefix operator.config.Prefix w.containers).length)
        { w with log := w.log ++ [Call.ContainerList] } (by simp only; omega)
    obtain ⟨p1, p2, p3, p4⟩ := hprops news olds blocks _ hlen hnews holds hblocks
    refine ⟨news, olds, blocks, ?_, hlen, hblen, p1, p2, holds, p3, ?_, p4, fun h => absurd h hc⟩
    · simp only [Operator.RunInitialContainers, bind, M.bind, orFail,
        isExceeds_run operator _ _ hfail, if_neg hc, Bool.false_eq_true, if_false, pure,
        M.pure, hloop, List.append_assoc, List.cons_append, List.nil_append]
    · rw [p3]; omega

/-- In a runtime where no container has more than one name the guard counts
the containers with a matching name, and the run of `RunInitialContainers`
brings their number to `INITIAL_NUMBER_OF_CONTAINERS`: with `c` such
containers it makes `INITIAL_NUMBER_OF_CONTAINERS - c` members. -/
theorem RunInitialContainers_single_names (operator : Operator) (image : Str) (r : Nat)
    (w : World)
    (hfail : ∀ k, operator.docker.cli.fail k = none)
    (hhttp : ∀ k, ∃ st, operator.docker.cli.http k = HTTPReply.status st ∧
      st.State = CONTAINER_STATUS_STARTED)
    (himage : operator.getBitbucketImageWithVersion = Except.ok image)
    (hone : ∀ c ∈ w.containers, c.Names.length ≤ 1) :
    ∃ (news olds : List Container) (blocks : List (List Call)),
      operator.RunInitialContainers (r + 1) w =
        (Outcome.ok (),
          { containers := news ++ olds, log := w.log ++ Call.ContainerList :: blocks.flatten }) ∧
      news.length =
        INITIAL_NUMBER_OF_CONTAINERS - countMatching operator.config.Prefix w.containers ∧
      blocks.length =
        INITIAL_NUMBER_OF_CONTAINERS - countMatching operator.config.Prefix w.containers ∧
      INITIAL_NUMBER_OF_CONTAINERS ≤ countMatching operator.config.Prefix (news ++ olds) := by
  have hb : (byPrefix operator.config.Prefix w.containers).length =
      countMatching operator.config.Prefix w.containers := by
    rw [byPrefix_eq_filter _ _ hone]
    rfl
  obtain ⟨news, olds, blocks, h1, h2, h3, -, -, -, -, -, h9, -⟩ :=
    RunInitialContainers_run operator image r w hfail hhttp himage
  rw [hb] at h2 h3 h9
  refine ⟨news, olds, blocks, h1, h2, h3, ?_⟩
  rw [h9]
  omega

/-! ### C15 -/

/-- C15 (the code at the failing input): the runtime holds one container of
the pool, listed under two names that both contain the prefix, so one member
is missing from the initial two.  `RunInitialContainers`, its listing
succeeding, returns no error and makes no call but the listing, however many
rounds the startup polling is given: the guard counts the container once for
each name (C14) and finds the initial number reached.  No member is
provisioned, and one prefixed member exists afterwards. -/
theorem c15_linked_member_blocks_bootstrap :
    countMatching sampleOperator.config.Prefix linkedWorld.containers = 1 ∧
    INITIAL_NUMBER_OF_CONTAINERS -
      countMatching sampleOperator.config.Prefix linkedWorld.containers = 1 ∧
    (∀ rounds : Nat, sampleOperator.RunInitialContainers rounds linkedWorld =
      (Outcome.ok (), { containers := [linkedMember], log := [Call.ContainerList] })) ∧
    countMatching sampleOperator.config.Prefix [linkedMember] = 1 :=
  ⟨by decide, by decide, fun _ => rfl, by decide⟩

end PoolManager
